import Mathlib

/-!
# LCEVCdec residual reconstruction: a shallow embedding

This development embeds the fixed-point kernels of the LCEVC enhancement decoder
(`apply_cmdbuffer_neon.c`, `blit_neon.c`, `decode_common.h`), its surface abstraction
and dump cache (`surface.c`, with the memory interface of `memory.h`), the dither
interface, the picture layout (`picture_layout.cpp`) and the string utilities
(`string_utils.cpp`) as Lean functions and proves properties of them.

Conventions.

* Machine integers are mathematical integers (`Int`); a value of C type `int16_t`
  is an `Int` in `[-32768, 32767]`, a `uint8_t` an `Int` in `[0, 255]`.  Wrapping
  conversions are written explicitly (`wrap16`), saturation is `sat16`.
* `/` on `Int` is floor division for a positive divisor, so `a / 2 ^ n` is the
  arithmetic right shift of `a` by `n`.
* A buffer reached through a pointer is a map from element offsets to values
  (`Plane`); a pointer into it is an element offset (`Nat`).
* A NEON register is the map from lane index to lane value (`Lanes`); the width
  of a register (4, 8 or 16 lanes) only matters to the load, store and lane
  rearranging intrinsics, which are written per register type.
* A C string is the list of its characters; a file is the list of its bytes.  What
  the C library and the memory interface do on a call (the stream `fopen` returns,
  the address an allocation returns, a failure) is an argument of the function that
  makes the call.
* A function that can read outside its buffers, fail an assertion or not terminate
  returns an `Option`; `none` is that outcome.
-/

namespace LCEVC

/-! ## Machine arithmetic -/

/-- Reinterpretation of the low 16 bits of `x` as a two's complement `int16_t`. -/
def wrap16 (x : Int) : Int := (x + 32768) % 65536 - 32768

/-- Saturation to the `int16_t` range, as done by the `vqadd` family. -/
def sat16 (x : Int) : Int := max (-32768) (min 32767 x)

/-- Membership of the `int16_t` range. -/
def isS16 (x : Int) : Prop := -32768 ≤ x ∧ x ≤ 32767

instance (x : Int) : Decidable (isS16 x) := by unfold isS16; infer_instance

/-- One lane of `vshl_s16` / `vshlq_s16`: a non-negative count shifts left and keeps
the low 16 bits, a negative count shifts right arithmetically (truncating). -/
def vshl_lane (a b : Int) : Int :=
  if 0 ≤ b then wrap16 (a * 2 ^ b.toNat) else a / 2 ^ (-b).toNat

/-- One lane of `vrshl_s16`: as `vshl_lane`, but a right shift by `n` first adds the
rounding constant `2 ^ (n - 1)` at full precision. -/
def vrshl_lane (a b : Int) : Int :=
  if 0 ≤ b then wrap16 (a * 2 ^ b.toNat)
  else wrap16 ((a + 2 ^ ((-b).toNat - 1)) / 2 ^ (-b).toNat)

/-! ## Buffers and registers -/

/-- A sample buffer addressed by element offset from its first sample. -/
abbrev Plane := Nat → Int

/-- A NEON register as a lane map. -/
abbrev Lanes := Nat → Int

/-- The C type `int16x4x4_t`: four 4-lane registers `val[0..3]`. -/
structure int16x4x4_t where
  val : Nat → Lanes

/-- Row-major offset of the sample at (`row`, `col`) in a plane of row stride `stride`. -/
def sampleAt (stride row col : Nat) : Nat := row * stride + col

/-- Remaining `n` iterations of a counted loop whose counter currently is `row`. -/
def forLoopFrom {σ : Type} (body : Nat → σ → σ) : Nat → Nat → σ → σ
  | 0, _, s => s
  | k + 1, row, s => forLoopFrom body k (row + 1) (body row s)

/-- A counted `for (row = 0; row < n; ++row)` loop over a state. -/
def forLoop {σ : Type} (n : Nat) (body : Nat → σ → σ) (s : σ) : σ :=
  forLoopFrom body n 0 s

/-! ## NEON intrinsics, 64-bit registers -/

def vdup_n_s16 (v : Int) : Lanes := fun _ => v

def vmov_n_s16 (v : Int) : Lanes := fun _ => v

def vld1_dup_s16 (mem : Plane) (src : Nat) : Lanes := fun _ => mem src

def vld1_lane_s16 (mem : Plane) (src : Nat) (v : Lanes) (lane : Nat) : Lanes :=
  fun i => if i = lane then mem src else v i

def vld1_s16 (mem : Plane) (src : Nat) : Lanes := fun i => mem (src + i)

def vld1_dup_u8 (mem : Plane) (src : Nat) : Lanes := fun _ => mem src

def vld1_lane_u8 (mem : Plane) (src : Nat) (v : Lanes) (lane : Nat) : Lanes :=
  fun i => if i = lane then mem src else v i

def vst1_lane_s16 (mem : Plane) (dst : Nat) (v : Lanes) (lane : Nat) : Plane :=
  fun a => if a = dst then v lane else mem a

def vst1_lane_u8 (mem : Plane) (dst : Nat) (v : Lanes) (lane : Nat) : Plane :=
  fun a => if a = dst then v lane else mem a

/-- Store of the four lanes of a 64-bit register to `dst[0..3]`. -/
def vst1_s16 (mem : Plane) (dst : Nat) (v : Lanes) : Plane :=
  fun a => if dst ≤ a ∧ a < dst + 4 then v (a - dst) else mem a

def vsub_s16 (a b : Lanes) : Lanes := fun i => wrap16 (a i - b i)

def vadd_s16 (a b : Lanes) : Lanes := fun i => wrap16 (a i + b i)

def vqadd_s16 (a b : Lanes) : Lanes := fun i => sat16 (a i + b i)

def vshl_s16 (a b : Lanes) : Lanes := fun i => vshl_lane (a i) (b i)

def vrshl_s16 (a b : Lanes) : Lanes := fun i => vrshl_lane (a i) (b i)

def vmin_s16 (a b : Lanes) : Lanes := fun i => min (a i) (b i)

def vmax_s16 (a b : Lanes) : Lanes := fun i => max (a i) (b i)

/-- Lanes `n..3` of `a` followed by lanes `0..n-1` of `b`. -/
def vext_s16 (a b : Lanes) (n : Nat) : Lanes :=
  fun i => if i + n < 4 then a (i + n) else b (i + n - 4)

/-- Widening shift left: each `uint8_t` lane becomes a `uint16_t` lane. -/
def vshll_n_u8 (a : Lanes) (n : Nat) : Lanes := fun i => (a i * 2 ^ n) % 65536

def vreinterpretq_s16_u16 (a : Lanes) : Lanes := fun i => wrap16 (a i)

def vget_low_s16 (a : Lanes) : Lanes := a

def vcombine_s16 (lo hi : Lanes) : Lanes := fun i => if i < 4 then lo i else hi (i - 4)

/-- Saturating narrow of `int16_t` lanes to `uint8_t` lanes. -/
def vqmovun_s16 (a : Lanes) : Lanes := fun i => max 0 (min 255 (a i))

/-! ## Command-buffer applicator (`apply_cmdbuffer_neon.c`) -/

/-- The fields of `ApplyCmdBufferArgs` read by the kernels.  The destination
`firstSample` is passed to each kernel as a separate `Plane`: a plane of `uint8_t`
samples for the U8 kernels (which cast the pointer), of 16-bit samples otherwise.
`residuals` is the residual array the command points at.  The offset
`y * rowPixelStride + x` is pointer arithmetic and is computed without wrap-around. -/
structure ApplyCmdBufferArgs where
  x : Nat
  y : Nat
  rowPixelStride : Nat
  width : Nat
  height : Nat
  residuals : Nat → Int

/-- Transform-unit width of a 2x2 block. -/
def CBCKTUSizeDD : Nat := 2

/-- Transform-unit width of a 4x4 block. -/
def CBCKTUSizeDDS : Nat := 4

def loadPixelsDD (mem : Plane) (src : Nat) : Lanes :=
  let res := vld1_dup_s16 mem src
  let res := vld1_lane_s16 mem (src + 1) res 1
  res

def loadPixelsDD_U8 (mem : Plane) (src : Nat) : Lanes :=
  let res := vld1_dup_u8 mem src
  let res := vld1_lane_u8 mem (src + 1) res 1
  res

def loadPixelsDDS_U8 (mem : Plane) (src : Nat) : Lanes :=
  let res := vld1_dup_u8 mem src
  let res := vld1_lane_u8 mem (src + 1) res 1
  let res := vld1_lane_u8 mem (src + 2) res 2
  let res := vld1_lane_u8 mem (src + 3) res 3
  res

def storePixelsDD (mem : Plane) (dst : Nat) (data : Lanes) : Plane :=
  let mem := vst1_lane_s16 mem dst data 0
  let mem := vst1_lane_s16 mem (dst + 1) data 1
  mem

def storePixelsDD_U8 (mem : Plane) (dst : Nat) (data : Lanes) : Plane :=
  let res := vqmovun_s16 (vcombine_s16 data data)
  let mem := vst1_lane_u8 mem dst res 0
  let mem := vst1_lane_u8 mem (dst + 1) res 1
  mem

def storePixelsDDS_U8 (mem : Plane) (dst : Nat) (data : Lanes) : Plane :=
  let res := vqmovun_s16 (vcombine_s16 data data)
  let mem := vst1_lane_u8 mem dst res 0
  let mem := vst1_lane_u8 mem (dst + 1) res 1
  let mem := vst1_lane_u8 mem (dst + 2) res 2
  let mem := vst1_lane_u8 mem (dst + 3) res 3
  mem

def loadResidualsDD (src : Nat → Int) : Lanes := vld1_s16 src 0

def loadResidualsDDS (src : Nat → Int) : int16x4x4_t :=
  { val := fun k =>
      if k = 0 then vld1_s16 src 0
      else if k = 1 then vld1_s16 src 4
      else if k = 2 then vld1_s16 src 8
      else vld1_s16 src 12 }

/-- Loop state of the 2x2 kernels: the row pointer, the residual register (rotated
after each row) and the destination plane. -/
structure StateDD where
  pixels : Nat
  residuals : Lanes
  mem : Plane

/-- Loop state of the 4x4 kernels: the row pointer and the destination plane. -/
structure StateDDS where
  pixels : Nat
  mem : Plane

/-- The function `addDD_U8`.  Its `assert(!fixedPointIsSigned(..))` is a debug-only
precondition on the caller and does not influence the stores. -/
def addDD_U8 (args : ApplyCmdBufferArgs) (firstSample : Plane) : Plane :=
  let shiftDown := vdup_n_s16 (-7)
  let usToSOffset := vdup_n_s16 16384
  let signOffsetV := vdup_n_s16 0x80
  let pixels := args.y * args.rowPixelStride + args.x
  let residuals := loadResidualsDD args.residuals
  (forLoop CBCKTUSizeDD (fun _ (s : StateDD) =>
    let neonPixelsU8 := loadPixelsDD_U8 s.mem s.pixels
    let neonPixels := vget_low_s16 (vreinterpretq_s16_u16 (vshll_n_u8 neonPixelsU8 7))
    let neonPixels := vsub_s16 neonPixels usToSOffset
    let neonPixels := vqadd_s16 neonPixels s.residuals
    let neonPixels := vrshl_s16 neonPixels shiftDown
    let neonPixels := vadd_s16 neonPixels signOffsetV
    { pixels := s.pixels + args.rowPixelStride
      residuals := vext_s16 s.residuals s.residuals 2
      mem := storePixelsDD_U8 s.mem s.pixels neonPixels })
    { pixels := pixels, residuals := residuals, mem := firstSample }).mem

/-- The function `addDD_UBase`, with the constants of `VN_ADD_CONSTANTS_U16`. -/
def addDD_UBase (args : ApplyCmdBufferArgs) (shift signOffset resultMax : Int)
    (firstSample : Plane) : Plane :=
  let shiftUp := vdup_n_s16 shift
  let shiftDown := vdup_n_s16 (-shift)
  let usToSOffset := vdup_n_s16 16384
  let signOffsetV := vdup_n_s16 signOffset
  let minV := vdup_n_s16 0
  let maxV := vdup_n_s16 resultMax
  let pixels := args.y * args.rowPixelStride + args.x
  let residuals := loadResidualsDD args.residuals
  (forLoop CBCKTUSizeDD (fun _ (s : StateDD) =>
    let neonPixels := loadPixelsDD s.mem s.pixels
    let neonPixels := vshl_s16 neonPixels shiftUp
    let neonPixels := vsub_s16 neonPixels usToSOffset
    let neonPixels := vqadd_s16 neonPixels s.residuals
    let neonPixels := vrshl_s16 neonPixels shiftDown
    let neonPixels := vadd_s16 neonPixels signOffsetV
    let neonPixels := vmax_s16 (vmin_s16 neonPixels maxV) minV
    { pixels := s.pixels + args.rowPixelStride
      residuals := vext_s16 s.residuals s.residuals 2
      mem := storePixelsDD s.mem s.pixels neonPixels })
    { pixels := pixels, residuals := residuals, mem := firstSample }).mem

def addDD_U10 (args : ApplyCmdBufferArgs) (firstSample : Plane) : Plane :=
  addDD_UBase args 5 512 1023 firstSample

def addDD_U12 (args : ApplyCmdBufferArgs) (firstSample : Plane) : Plane :=
  addDD_UBase args 3 2048 4095 firstSample

def addDD_U14 (args : ApplyCmdBufferArgs) (firstSample : Plane) : Plane :=
  addDD_UBase args 1 8192 16383 firstSample

/-- The function `addDD_S16`. -/
def addDD_S16 (args : ApplyCmdBufferArgs) (firstSample : Plane) : Plane :=
  let pixels := args.y * args.rowPixelStride + args.x
  let residuals := loadResidualsDD args.residuals
  (forLoop CBCKTUSizeDD (fun _ (s : StateDD) =>
    let neonPixels := loadPixelsDD s.mem s.pixels
    { pixels := s.pixels + args.rowPixelStride
      residuals := vext_s16 s.residuals s.residuals 2
      mem := storePixelsDD s.mem s.pixels (vqadd_s16 neonPixels s.residuals) })
    { pixels := pixels, residuals := residuals, mem := firstSample }).mem

/-- The function `addDDS_U8`. -/
def addDDS_U8 (args : ApplyCmdBufferArgs) (firstSample : Plane) : Plane :=
  let shiftDown := vdup_n_s16 (-7)
  let usToSOffset := vdup_n_s16 16384
  let signOffsetV := vdup_n_s16 0x80
  let pixels := args.y * args.rowPixelStride + args.x
  let residuals := loadResidualsDDS args.residuals
  (forLoop CBCKTUSizeDDS (fun row (s : StateDDS) =>
    let neonPixelsU8 := loadPixelsDDS_U8 s.mem s.pixels
    let neonPixels := vget_low_s16 (vreinterpretq_s16_u16 (vshll_n_u8 neonPixelsU8 7))
    let neonPixels := vsub_s16 neonPixels usToSOffset
    let neonPixels := vqadd_s16 neonPixels (residuals.val row)
    let neonPixels := vrshl_s16 neonPixels shiftDown
    let neonPixels := vadd_s16 neonPixels signOffsetV
    { pixels := s.pixels + args.rowPixelStride
      mem := storePixelsDDS_U8 s.mem s.pixels neonPixels })
    { pixels := pixels, mem := firstSample }).mem

/-- The function `addDDS_UBase`, with the constants of `VN_ADD_CONSTANTS_U16`. -/
def addDDS_UBase (args : ApplyCmdBufferArgs) (shift signOffset resultMax : Int)
    (firstSample : Plane) : Plane :=
  let shiftUp := vdup_n_s16 shift
  let shiftDown := vdup_n_s16 (-shift)
  let usToSOffset := vdup_n_s16 16384
  let signOffsetV := vdup_n_s16 signOffset
  let minV := vdup_n_s16 0
  let maxV := vdup_n_s16 resultMax
  let pixels := args.y * args.rowPixelStride + args.x
  let residuals := loadResidualsDDS args.residuals
  (forLoop CBCKTUSizeDDS (fun row (s : StateDDS) =>
    let neonPixels := vld1_s16 s.mem s.pixels
    let neonPixels := vshl_s16 neonPixels shiftUp
    let neonPixels := vsub_s16 neonPixels usToSOffset
    let neonPixels := vqadd_s16 neonPixels (residuals.val row)
    let neonPixels := vrshl_s16 neonPixels shiftDown
    let neonPixels := vadd_s16 neonPixels signOffsetV
    let neonPixels := vmax_s16 (vmin_s16 neonPixels maxV) minV
    { pixels := s.pixels + args.rowPixelStride
      mem := vst1_s16 s.mem s.pixels neonPixels })
    { pixels := pixels, mem := firstSample }).mem

def addDDS_U10 (args : ApplyCmdBufferArgs) (firstSample : Plane) : Plane :=
  addDDS_UBase args 5 512 1023 firstSample

def addDDS_U12 (args : ApplyCmdBufferArgs) (firstSample : Plane) : Plane :=
  addDDS_UBase args 3 2048 4095 firstSample

def addDDS_U14 (args : ApplyCmdBufferArgs) (firstSample : Plane) : Plane :=
  addDDS_UBase args 1 8192 16383 firstSample

/-- The function `addDDS_S16`. -/
def addDDS_S16 (args : ApplyCmdBufferArgs) (firstSample : Plane) : Plane :=
  let pixels := args.y * args.rowPixelStride + args.x
  let residuals := loadResidualsDDS args.residuals
  (forLoop CBCKTUSizeDDS (fun row (s : StateDDS) =>
    let neonPixels := vld1_s16 s.mem s.pixels
    { pixels := s.pixels + args.rowPixelStride
      mem := vst1_s16 s.mem s.pixels (vqadd_s16 neonPixels (residuals.val row)) })
    { pixels := pixels, mem := firstSample }).mem

/-- The function `setDD`. -/
def setDD (args : ApplyCmdBufferArgs) (firstSample : Plane) : Plane :=
  let pixels := args.y * args.rowPixelStride + args.x
  let residuals := loadResidualsDD args.residuals
  let mem := vst1_lane_s16 firstSample pixels residuals 0
  let mem := vst1_lane_s16 mem (pixels + 1) residuals 1
  let mem := vst1_lane_s16 mem (pixels + args.rowPixelStride) residuals 2
  let mem := vst1_lane_s16 mem (pixels + args.rowPixelStride + 1) residuals 3
  mem

/-- The function `setDDS`. -/
def setDDS (args : ApplyCmdBufferArgs) (firstSample : Plane) : Plane :=
  let pixels := args.y * args.rowPixelStride + args.x
  let residuals := loadResidualsDDS args.residuals
  (forLoop CBCKTUSizeDDS (fun row (s : StateDDS) =>
    { pixels := s.pixels + args.rowPixelStride
      mem := vst1_s16 s.mem s.pixels (residuals.val row) })
    { pixels := pixels, mem := firstSample }).mem

/-- The function `setZeroDD`. -/
def setZeroDD (args : ApplyCmdBufferArgs) (firstSample : Plane) : Plane :=
  let pixels := args.y * args.rowPixelStride + args.x
  let neonZeros := vmov_n_s16 0
  let mem := storePixelsDD firstSample pixels neonZeros
  let mem := storePixelsDD mem (pixels + args.rowPixelStride) neonZeros
  mem

/-- The function `setZeroDDS`. -/
def setZeroDDS (args : ApplyCmdBufferArgs) (firstSample : Plane) : Plane :=
  let pixels := args.y * args.rowPixelStride + args.x
  let neonZeros := vmov_n_s16 0
  let mem := vst1_s16 firstSample pixels neonZeros
  let mem := vst1_s16 mem (pixels + args.rowPixelStride) neonZeros
  let mem := vst1_s16 mem (pixels + args.rowPixelStride * 2) neonZeros
  let mem := vst1_s16 mem (pixels + args.rowPixelStride * 3) neonZeros
  mem

/-! ## Blitter (`blit_neon.c`) -/

/-! ### NEON intrinsics, 128-bit registers -/

def vdupq_n_s16 (v : Int) : Lanes := fun _ => v

/-- Load of sixteen `uint8_t` lanes from `src[0..15]`. -/
def vld1q_u8 (mem : Plane) (src : Nat) : Lanes := fun i => mem (src + i)

/-- Load of eight `int16_t` lanes from `src[0..7]`. -/
def vld1q_s16 (mem : Plane) (src : Nat) : Lanes := fun i => mem (src + i)

def vget_low_u8 (a : Lanes) : Lanes := a

def vget_high_u8 (a : Lanes) : Lanes := fun i => a (i + 8)

def vsubq_s16 (a b : Lanes) : Lanes := fun i => wrap16 (a i - b i)

def vaddq_s16 (a b : Lanes) : Lanes := fun i => wrap16 (a i + b i)

def vqaddq_s16 (a b : Lanes) : Lanes := fun i => sat16 (a i + b i)

def vshlq_s16 (a b : Lanes) : Lanes := fun i => vshl_lane (a i) (b i)

/-- Arithmetic (truncating) shift right of every lane by the constant `n`. -/
def vshrq_n_s16 (a : Lanes) (n : Nat) : Lanes := fun i => a i / 2 ^ n

def vminq_s16 (a b : Lanes) : Lanes := fun i => min (a i) (b i)

def vmaxq_s16 (a b : Lanes) : Lanes := fun i => max (a i) (b i)

def vcombine_u8 (lo hi : Lanes) : Lanes := fun i => if i < 8 then lo i else hi (i - 8)

/-- Store of sixteen `uint8_t` lanes to `dst[0..15]`. -/
def vst1q_u8 (mem : Plane) (dst : Nat) (v : Lanes) : Plane :=
  fun a => if dst ≤ a ∧ a < dst + 16 then v (a - dst) else mem a

/-- Store of eight `int16_t` lanes to `dst[0..7]`. -/
def vst1q_s16 (mem : Plane) (dst : Nat) (v : Lanes) : Plane :=
  fun a => if dst ≤ a ∧ a < dst + 8 then v (a - dst) else mem a

/-- The macro `VN_SHIFT_U8()`. -/
def VN_SHIFT_U8 : Nat := 7

/-- Pixels handled by one iteration of a SIMD loop. -/
def kStep : Nat := 16

/-- One iteration of the SIMD loop of `addU8_NEON` (the loop body, `blit_neon.c`
lines 62-95): `src` is the `int16_t` source plane, `dst` the `uint8_t` destination
plane, the three pointers are the loop's cursors.  The result is the destination
plane after the store. -/
def addU8_NEON_simd (src dst : Plane) (dstPixel srcPixel0 srcPixel1 : Nat) : Plane :=
  let usToSOffset := vdupq_n_s16 16384
  let fractOffset := vdupq_n_s16 64
  let signOffset := vdupq_n_s16 128
  let dstResult := vld1q_u8 dst dstPixel
  let src0 := vld1q_s16 src srcPixel0
  let src1 := vld1q_s16 src srcPixel1
  let dst0 := vreinterpretq_s16_u16 (vshll_n_u8 (vget_low_u8 dstResult) VN_SHIFT_U8)
  let dst1 := vreinterpretq_s16_u16 (vshll_n_u8 (vget_high_u8 dstResult) VN_SHIFT_U8)
  let dst0 := vsubq_s16 dst0 usToSOffset
  let dst1 := vsubq_s16 dst1 usToSOffset
  let dst0 := vqaddq_s16 dst0 src0
  let dst1 := vqaddq_s16 dst1 src1
  let dst0 := vqaddq_s16 dst0 fractOffset
  let dst1 := vqaddq_s16 dst1 fractOffset
  let dst0 := vshrq_n_s16 dst0 VN_SHIFT_U8
  let dst1 := vshrq_n_s16 dst1 VN_SHIFT_U8
  let dst0 := vaddq_s16 dst0 signOffset
  let dst1 := vaddq_s16 dst1 signOffset
  let dstResult := vcombine_u8 (vqmovun_s16 dst0) (vqmovun_s16 dst1)
  vst1q_u8 dst dstPixel dstResult

/-- One iteration of the SIMD loop of `addUN_NEON` (the loop body, `blit_neon.c`
lines 137-173): `src` is the `int16_t` source plane, `dst` the 16-bit destination
plane, the four pointers are the loop's cursors. -/
def addUN_NEON_simd (shift roundingOffset signOffset resultMax : Int) (src dst : Plane)
    (dstPixel0 dstPixel1 srcPixel0 srcPixel1 : Nat) : Plane :=
  let shiftUp := vdupq_n_s16 shift
  let shiftDown := vdupq_n_s16 (-shift)
  let usToSOffset := vdupq_n_s16 16384
  let roundingOffsetV := vdupq_n_s16 roundingOffset
  let signOffsetV := vdupq_n_s16 signOffset
  let minV := vdupq_n_s16 0
  let maxV := vdupq_n_s16 resultMax
  let dst0 := vld1q_s16 dst dstPixel0
  let dst1 := vld1q_s16 dst dstPixel1
  let src0 := vld1q_s16 src srcPixel0
  let src1 := vld1q_s16 src srcPixel1
  let dst0 := vshlq_s16 dst0 shiftUp
  let dst1 := vshlq_s16 dst1 shiftUp
  let dst0 := vsubq_s16 dst0 usToSOffset
  let dst1 := vsubq_s16 dst1 usToSOffset
  let dst0 := vqaddq_s16 dst0 src0
  let dst1 := vqaddq_s16 dst1 src1
  let dst0 := vqaddq_s16 dst0 roundingOffsetV
  let dst1 := vqaddq_s16 dst1 roundingOffsetV
  let dst0 := vshlq_s16 dst0 shiftDown
  let dst1 := vshlq_s16 dst1 shiftDown
  let dst0 := vaddq_s16 dst0 signOffsetV
  let dst1 := vaddq_s16 dst1 signOffsetV
  let dst0 := vmaxq_s16 (vminq_s16 dst0 maxV) minV
  let dst1 := vmaxq_s16 (vminq_s16 dst1 maxV) minV
  let mem := vst1q_s16 dst dstPixel0 dst0
  let mem := vst1q_s16 mem dstPixel1 dst1
  mem

/-- One iteration of the SIMD loop of `addS16_NEON` (the loop body, `blit_neon.c`
lines 203-215). -/
def addS16_NEON_simd (src dst : Plane)
    (dstPixel0 dstPixel1 srcPixel0 srcPixel1 : Nat) : Plane :=
  let dst0 := vld1q_s16 dst dstPixel0
  let dst1 := vld1q_s16 dst dstPixel1
  let src0 := vld1q_s16 src srcPixel0
  let src1 := vld1q_s16 src srcPixel1
  let dst0 := vqaddq_s16 dst0 src0
  let dst1 := vqaddq_s16 dst1 src1
  let mem := vst1q_s16 dst dstPixel0 dst0
  let mem := vst1q_s16 mem dstPixel1 dst1
  mem

/-- SIMD loop body of `addU10_NEON`, that is of `addUN_NEON(args, 5, 16, 512, 1023, ..)`. -/
def addU10_NEON_simd := addUN_NEON_simd 5 16 512 1023

/-- SIMD loop body of `addU12_NEON`, that is of `addUN_NEON(args, 3, 4, 2048, 4095, ..)`. -/
def addU12_NEON_simd := addUN_NEON_simd 3 4 2048 4095

/-- SIMD loop body of `addU14_NEON`, that is of `addUN_NEON(args, 1, 1, 8192, 16383, ..)`. -/
def addU14_NEON_simd := addUN_NEON_simd 1 1 8192 16383

/-! ## Residual post-processing (`decode_common.h`) -/

/-- Element assignment `a[i] = v`. -/
def setAt (a : Nat → Int) (i : Nat) (v : Int) : Nat → Int :=
  fun k => if k = i then v else a k

/-- The fields of `Deblock_t` read by `deblockResiduals`; the weights are unsigned. -/
structure Deblock_t where
  enabled : Bool
  corner : Nat
  side : Nat

/-- The expression `(int16_t)((w * (uint32_t)(r)) >> 4)`: the residual is converted to
`uint32_t`, multiplied modulo `2 ^ 32`, shifted right logically and converted back to
`int16_t`. -/
def deblockWeigh (w : Nat) (r : Int) : Int :=
  wrap16 ((w : Int) * (r % 4294967296) % 4294967296 / 2 ^ 4)

/-- The statement `residuals[k] = (int16_t)((w * (uint32_t)(residuals[k])) >> 4);`. -/
def deblockAt (w : Nat) (residuals : Nat → Int) (k : Nat) : Nat → Int :=
  setAt residuals k (deblockWeigh w (residuals k))

/-- The function `deblockResiduals`; a failing `assert(deblock->enabled)` is `none`. -/
def deblockResiduals (deblock : Deblock_t) (residuals : Nat → Int) : Option (Nat → Int) :=
  if deblock.enabled then
    let residuals := deblockAt deblock.corner residuals 0
    let residuals := deblockAt deblock.side residuals 1
    let residuals := deblockAt deblock.side residuals 4
    let residuals := deblockAt deblock.corner residuals 5
    let residuals := deblockAt deblock.side residuals 2
    let residuals := deblockAt deblock.side residuals 7
    let residuals := deblockAt deblock.side residuals 8
    let residuals := deblockAt deblock.side residuals 13
    let residuals := deblockAt deblock.corner residuals 10
    let residuals := deblockAt deblock.side residuals 11
    let residuals := deblockAt deblock.side residuals 14
    let residuals := deblockAt deblock.corner residuals 15
    some residuals
  else none

/-- The level-of-quality index `LOQIndex_t`. -/
inductive LOQIndex_t where
  | LOQ0
  | LOQ1
  | LOQ2
  deriving DecidableEq, Repr

/-- The fields of `UserDataConfig_t` read by `stripUserData`. -/
structure UserDataConfig_t where
  enabled : Bool
  layerIndex : Nat
  shift : Nat

/-- The function `stripUserData`.  `coeff` is an `int32_t`: `>>` is the arithmetic
shift, `coeff & 0x01` the lowest bit of the two's complement value (`coeff % 2`), and
the final cast to `int16_t` keeps the low 16 bits. -/
def stripUserData (loq : LOQIndex_t) (userData : UserDataConfig_t) (coeffs : Nat → Int) :
    Nat → Int :=
  if loq = LOQIndex_t.LOQ1 ∧ userData.enabled = true then
    let coeff := coeffs userData.layerIndex
    let coeff := coeff / 2 ^ userData.shift
    let sign : Int := if coeff % 2 ≠ 0 then -1 else 1
    setAt coeffs userData.layerIndex (wrap16 (coeff / 2 * sign))
  else coeffs

/-! ## Auxiliary definitions used by the proofs -/

/-- The value an unsigned 16-bit ADD kernel computes in one lane from the sample `p`
and the residual `r`. -/
def addU_lane (shift signOffset resultMax p r : Int) : Int :=
  max (min (wrap16 (vrshl_lane (sat16 (wrap16 (vshl_lane p shift - 16384) + r)) (-shift)
    + signOffset)) resultMax) 0

/-- The value the U8 ADD kernels compute in one lane from the sample `p` and the
residual `r`. -/
def addU8_lane (p r : Int) : Int :=
  max 0 (min 255 (wrap16 (vrshl_lane (sat16 (wrap16 (wrap16 (p * 2 ^ 7 % 65536) - 16384) + r))
    (-7) + 128)))

/-- Body of a 4x4 kernel loop that rewrites one row per iteration with `w`. -/
def rowBodyDDS (stride : Nat) (w : Plane → Nat → Nat → Plane) (row : Nat) (s : StateDDS) :
    StateDDS :=
  { pixels := s.pixels + stride, mem := w s.mem s.pixels row }

/-- The writer of one row of `addDDS_UBase`. -/
def addDDS_UBase_row (residuals : Nat → Int) (shift signOffset resultMax : Int)
    (m : Plane) (p row : Nat) : Plane :=
  vst1_s16 m p
    (vmax_s16 (vmin_s16 (vadd_s16 (vrshl_s16 (vqadd_s16 (vsub_s16
      (vshl_s16 (vld1_s16 m p) (vdup_n_s16 shift)) (vdup_n_s16 16384))
      ((loadResidualsDDS residuals).val row)) (vdup_n_s16 (-shift))) (vdup_n_s16 signOffset))
      (vdup_n_s16 resultMax)) (vdup_n_s16 0))

/-- The writer of one row of `addDDS_U8`. -/
def addDDS_U8_row (residuals : Nat → Int) (m : Plane) (p row : Nat) : Plane :=
  storePixelsDDS_U8 m p
    (vadd_s16 (vrshl_s16 (vqadd_s16 (vsub_s16
      (vget_low_s16 (vreinterpretq_s16_u16 (vshll_n_u8 (loadPixelsDDS_U8 m p) 7)))
      (vdup_n_s16 16384))
      ((loadResidualsDDS residuals).val row)) (vdup_n_s16 (-7))) (vdup_n_s16 0x80))

/-- The writer of one row of `addDDS_S16`. -/
def addDDS_S16_row (residuals : Nat → Int) (m : Plane) (p row : Nat) : Plane :=
  vst1_s16 m p (vqadd_s16 (vld1_s16 m p) ((loadResidualsDDS residuals).val row))

/-- The writer of one row of `setDDS`. -/
def setDDS_row (residuals : Nat → Int) (m : Plane) (p row : Nat) : Plane :=
  vst1_s16 m p ((loadResidualsDDS residuals).val row)

/-- The two block sizes of a command: 2x2 (`DD`) and 4x4 (`DDS`). -/
inductive BlockSize where
  | DD
  | DDS
  deriving DecidableEq, Repr

/-- Width (and height) in samples of a block. -/
def BlockSize.width : BlockSize → Nat
  | .DD => CBCKTUSizeDD
  | .DDS => CBCKTUSizeDDS

/-- The destination depths the kernels are written for: unsigned 8, 10, 12 and 14
bit, and signed 16 bit (shared by the four signed fixed-point types). -/
inductive Depth where
  | U8
  | U10
  | U12
  | U14
  | S16
  deriving DecidableEq, Repr

/-- Number of bits `N` of a depth. -/
def Depth.bits : Depth → Nat
  | .U8 => 8
  | .U10 => 10
  | .U12 => 12
  | .U14 => 14
  | .S16 => 16

/-- Smallest valid sample of a depth. -/
def Depth.lo : Depth → Int
  | .S16 => -32768
  | _ => 0

/-- Largest valid sample of a depth: `2 ^ N - 1` when unsigned. -/
def Depth.hi : Depth → Int
  | .U8 => 255
  | .U10 => 1023
  | .U12 => 4095
  | .U14 => 16383
  | .S16 => 32767

/-- The sample `p` is valid for depth `d`. -/
def validSample (d : Depth) (p : Int) : Prop := d.lo ≤ p ∧ p ≤ d.hi

instance (d : Depth) (p : Int) : Decidable (validSample d p) := by
  unfold validSample; infer_instance

/-- The ADD kernels of `apply_cmdbuffer_neon.c` by block size and depth. -/
def addKernel : BlockSize → Depth → ApplyCmdBufferArgs → Plane → Plane
  | .DD, .U8 => addDD_U8
  | .DD, .U10 => addDD_U10
  | .DD, .U12 => addDD_U12
  | .DD, .U14 => addDD_U14
  | .DD, .S16 => addDD_S16
  | .DDS, .U8 => addDDS_U8
  | .DDS, .U10 => addDDS_U10
  | .DDS, .U12 => addDDS_U12
  | .DDS, .U14 => addDDS_U14
  | .DDS, .S16 => addDDS_S16

/-- The SET kernels by block size. -/
def setKernel : BlockSize → ApplyCmdBufferArgs → Plane → Plane
  | .DD => setDD
  | .DDS => setDDS

/-- The SET-ZERO kernels by block size. -/
def setZeroKernel : BlockSize → ApplyCmdBufferArgs → Plane → Plane
  | .DD => setZeroDD
  | .DDS => setZeroDDS

/-- The SIMD loop bodies of the additive blit by destination depth, with the cursors
`dstPixel0 dstPixel1 srcPixel0 srcPixel1` (`addU8_NEON` has a single destination
cursor). -/
def blitAddSimd : Depth → Plane → Plane → Nat → Nat → Nat → Nat → Plane
  | .U8 => fun src dst dstPixel0 _ srcPixel0 srcPixel1 =>
      addU8_NEON_simd src dst dstPixel0 srcPixel0 srcPixel1
  | .U10 => addU10_NEON_simd
  | .U12 => addU12_NEON_simd
  | .U14 => addU14_NEON_simd
  | .S16 => addS16_NEON_simd

/-- Per-lane value computed by the ADD kernels of a depth from the sample `p` and
the residual `r`. -/
def addLane : Depth → Int → Int → Int
  | .U8 => addU8_lane
  | .U10 => addU_lane 5 512 1023
  | .U12 => addU_lane 3 2048 4095
  | .U14 => addU_lane 1 8192 16383
  | .S16 => fun p r => sat16 (p + r)

/-- The writer of one row of `addDD_UBase`: the loop body's store. -/
def addDD_UBase_row (shift signOffset resultMax : Int) (m : Plane) (p : Nat)
    (residuals : Lanes) : Plane :=
  storePixelsDD m p
    (vmax_s16 (vmin_s16 (vadd_s16 (vrshl_s16 (vqadd_s16 (vsub_s16
      (vshl_s16 (loadPixelsDD m p) (vdup_n_s16 shift)) (vdup_n_s16 16384))
      residuals) (vdup_n_s16 (-shift))) (vdup_n_s16 signOffset))
      (vdup_n_s16 resultMax)) (vdup_n_s16 0))

/-- The writer of one row of `addDD_U8`: the loop body's store. -/
def addDD_U8_row (m : Plane) (p : Nat) (residuals : Lanes) : Plane :=
  storePixelsDD_U8 m p
    (vadd_s16 (vrshl_s16 (vqadd_s16 (vsub_s16
      (vget_low_s16 (vreinterpretq_s16_u16 (vshll_n_u8 (loadPixelsDD_U8 m p) 7)))
      (vdup_n_s16 16384)) residuals) (vdup_n_s16 (-7))) (vdup_n_s16 0x80))

/-- The writer of one row of `addDD_S16`: the loop body's store. -/
def addDD_S16_row (m : Plane) (p : Nat) (residuals : Lanes) : Plane :=
  storePixelsDD m p (vqadd_s16 (loadPixelsDD m p) residuals)

/-- The sample of the block of `args` at column `x + i` and row `y + j`. -/
def blockSample (args : ApplyCmdBufferArgs) (mem : Plane) (i j : Nat) : Int :=
  mem (sampleAt args.rowPixelStride (args.y + j) (args.x + i))

/-- The offset `a` is one of the samples of the `w` x `w` block of `args`. -/
def inBlock (args : ApplyCmdBufferArgs) (w : Nat) (a : Nat) : Prop :=
  ∃ i, i < w ∧ ∃ j, j < w ∧ a = sampleAt args.rowPixelStride (args.y + j) (args.x + i)

instance (args : ApplyCmdBufferArgs) (w a : Nat) : Decidable (inBlock args w a) := by
  unfold inBlock; infer_instance

/-- Clamp of `v` to `[lo, hi]`. -/
def clamp (v lo hi : Int) : Int := max lo (min hi v)

/-- The numeric rule for ADD onto an unsigned `N`-bit destination as the
specification words it, with shift `s = 15 - N`: shift the sample up, subtract the
bias 16384, saturate-add the residual, shift back down with rounding, add the sign
offset `2 ^ (N - 1)` and clamp to `[0, 2 ^ N - 1]`. -/
def addRuleU (N : Nat) (p r : Int) : Int :=
  clamp ((sat16 (p * 2 ^ (15 - N) - 16384 + r) + 2 ^ (15 - N - 1)) / 2 ^ (15 - N)
    + 2 ^ (N - 1)) 0 (2 ^ N - 1)

/-! ## Concrete inputs used to exercise the theorems -/

/-- A 16-bit plane of row stride 8 with samples between 0 and 999. -/
def demoPlane : Plane := fun a => (a : Int) * 37 % 1000

/-- A block command at column 1, row 2 of a plane of stride 8 with non-zero residuals. -/
def demoArgs : ApplyCmdBufferArgs :=
  { x := 1, y := 2, rowPixelStride := 8, width := 8, height := 8,
    residuals := fun k => 1000 * (k : Int) - 7000 }

/-- The same command with all residuals zero. -/
def demoArgsZero : ApplyCmdBufferArgs :=
  { x := 1, y := 2, rowPixelStride := 8, width := 8, height := 8, residuals := fun _ => 0 }

/-- A residual block for the deblocking filter. -/
def demoBlock : Nat → Int := fun k => 3000 * (k : Int) - 20000

/-- A user-data configuration: coefficient 5, two bits of user data. -/
def demoUserData : UserDataConfig_t := { enabled := true, layerIndex := 5, shift := 2 }

/-! ## CLEAR (`apply_cmdbuffer_neon.c`) -/

/-- The C type `int16x8x4_t`: four 8-lane registers `val[0..3]`. -/
structure int16x8x4_t where
  val : Nat → Lanes

/-- Modelled from the spec: the constant `ACBKBlockSize` of `apply_cmdbuffer_common.h`,
which is not in src; the architecture block is 32 x 32 samples. -/
def ACBKBlockSize : Nat := 32

/-- Conversion of an integer to `uint16_t`. -/
def toU16 (v : Int) : Nat := (v % 65536).toNat

/-- Modelled from the spec: the helper `minU16` of `limit.h`, which is not in src; the
smaller of two `uint16_t` values.  Its arguments are converted to `uint16_t` by the
call. -/
def minU16 (a b : Int) : Nat := min (toU16 a) (toU16 b)

/-- The interleaving store `vst4q_s16`: element `i` of register `k` goes to
`dst[4 * i + k]`, 32 samples in all. -/
def vst4q_s16 (mem : Plane) (dst : Nat) (v : int16x8x4_t) : Plane :=
  fun a => if dst ≤ a ∧ a < dst + 32 then v.val ((a - dst) % 4) ((a - dst) / 4) else mem a

/-- The call `memset(dst, value, size)` on a plane of 16-bit samples: every sample
whose two bytes lie within the `size` bytes from `dst` has both bytes set to `value`. -/
def memset (mem : Plane) (dst : Nat) (value : Int) (size : Nat) : Plane :=
  fun a => if dst ≤ a ∧ 2 * (a - dst) + 2 ≤ size then wrap16 (value % 256 * 257) else mem a

/-- The function `clear`.  `x`, `y`, `clearWidth` and `clearHeight` are `uint16_t`
variables; `sizeof(int16_t)` is 2. -/
def clear (args : ApplyCmdBufferArgs) (firstSample : Plane) : Plane :=
  let x := toU16 args.x
  let y := toU16 args.y
  let clearWidth := minU16 ACBKBlockSize ((args.height : Int) - (y : Int))
  let clearHeight := minU16 ACBKBlockSize ((args.width : Int) - (x : Int))
  let pixels := y * args.rowPixelStride + x
  if clearHeight = ACBKBlockSize ∧ clearWidth = ACBKBlockSize then
    let neonZeros : int16x8x4_t := { val := fun _ _ => 0 }
    (forLoop ACBKBlockSize (fun _ (s : StateDDS) =>
      { pixels := s.pixels + args.rowPixelStride
        mem := vst4q_s16 s.mem s.pixels neonZeros })
      { pixels := pixels, mem := firstSample }).mem
  else
    let clearBytes := clearHeight * 2
    (forLoop clearWidth (fun _ (s : StateDDS) =>
      { pixels := s.pixels + args.rowPixelStride
        mem := memset s.mem s.pixels 0 clearBytes })
      { pixels := pixels, mem := firstSample }).mem

/-- The writer of one row of a zero fill of `cols` samples. -/
def zeroRow (cols : Nat) (m : Plane) (p : Nat) (_ : Nat) : Plane :=
  fun a => if p ≤ a ∧ a < p + cols then 0 else m a

/-- The offset `a` lies in the region of `rows` x `cols` samples at column `x`, row
`y` of a plane of row stride `stride`. -/
def inRegion (stride x y cols rows : Nat) (a : Nat) : Prop :=
  ∃ j, j < rows ∧ ∃ i, i < cols ∧ a = sampleAt stride (y + j) (x + i)

instance (stride x y cols rows a : Nat) : Decidable (inRegion stride x y cols rows a) := by
  unfold inRegion; infer_instance

/-- A surface of 40 x 40 samples and a block origin whose block is clipped on both
sides. -/
def demoClearArgs : ApplyCmdBufferArgs :=
  { x := 32, y := 35, rowPixelStride := 40, width := 40, height := 40,
    residuals := fun _ => 0 }

/-! ## Blit dispatch and scalar remainder (`blit_neon.c`) -/

/-- The fixed-point type tags `LdpFixedPoint`, in the order of the rows of `kAddTable`:
four unsigned depths and four signed 16-bit types. -/
inductive LdpFixedPoint where
  | LdpFPU8
  | LdpFPU10
  | LdpFPU12
  | LdpFPU14
  | LdpFPS8
  | LdpFPS10
  | LdpFPS12
  | LdpFPS14
  deriving DecidableEq, Repr

/-- Numeric value of a type tag. -/
def LdpFixedPoint.index : LdpFixedPoint → Nat
  | .LdpFPU8 => 0
  | .LdpFPU10 => 1
  | .LdpFPU12 => 2
  | .LdpFPU14 => 3
  | .LdpFPS8 => 4
  | .LdpFPS10 => 5
  | .LdpFPS12 => 6
  | .LdpFPS14 => 7

/-- The enumerator `LdpFPCount`, the length of `kAddTable`. -/
def LdpFPCount : Nat := 8

/-- Modelled from the spec: the helper `fixedPointIsValid` of `fp_types.h`, which is not
in src; a tag is valid when it is one of the 8 fixed-point types. -/
def fixedPointIsValid (fp : LdpFixedPoint) : Bool := decide (fp.index < LdpFPCount)

/-- Modelled from the spec: the helper `fixedPointHighPrecision` of `fp_types.h`, which
is not in src; the signed "high precision" representation matched to the bit depth of a
type (a signed type is its own). -/
def fixedPointHighPrecision : LdpFixedPoint → LdpFixedPoint
  | .LdpFPU8 => .LdpFPS8
  | .LdpFPU10 => .LdpFPS10
  | .LdpFPU12 => .LdpFPS12
  | .LdpFPU14 => .LdpFPS14
  | fp => fp

/-- The blending modes `LdppBlendingMode`. -/
inductive LdppBlendingMode where
  | BMAdd
  | BMCopy
  deriving DecidableEq, Repr

/-- The blit functions of `blit_neon.c` a `PlaneBlitFunction` pointer can hold. -/
inductive PlaneBlitFunction where
  | addU8_NEON
  | addU10_NEON
  | addU12_NEON
  | addU14_NEON
  | addS16_NEON
  deriving DecidableEq, Repr

/-- The table `kAddTable`. -/
def kAddTable : LdpFixedPoint → PlaneBlitFunction
  | .LdpFPU8 => .addU8_NEON
  | .LdpFPU10 => .addU10_NEON
  | .LdpFPU12 => .addU12_NEON
  | .LdpFPU14 => .addU14_NEON
  | .LdpFPS8 => .addS16_NEON
  | .LdpFPS10 => .addS16_NEON
  | .LdpFPS12 => .addS16_NEON
  | .LdpFPS14 => .addS16_NEON

/-- Outcome of a dispatcher call: the `NULL` pointer, a function, or a failed `assert`. -/
inductive BlitLookup where
  | null
  | function (f : PlaneBlitFunction)
  | assertFailed
  deriving DecidableEq, Repr

/-- The function `planeBlitGetFunctionNEON`.  `neon` tells whether the build has
`VN_CORE_FEATURE(NEON)` (otherwise the second definition, which returns `NULL`, is
compiled); `ndebug` tells whether assertions are compiled out. -/
def planeBlitGetFunctionNEON (neon ndebug : Bool) (srcFP dstFP : LdpFixedPoint)
    (blending : LdppBlendingMode) : BlitLookup :=
  if neon then
    if blending = .BMAdd then
      if ndebug = false ∧ fixedPointIsValid dstFP = false then .assertFailed
      else if ndebug = false ∧ fixedPointHighPrecision dstFP ≠ srcFP then .assertFailed
      else .function (kAddTable dstFP)
    else .null
  else .null

/-- Shift between an unsigned type and the shared signed domain: `15 - N`. -/
def LdpFixedPoint.shift : LdpFixedPoint → Nat
  | .LdpFPU8 => 7
  | .LdpFPU10 => 5
  | .LdpFPU12 => 3
  | .LdpFPU14 => 1
  | _ => 0

/-- Number of bits `N` of an unsigned type (16 for the signed ones). -/
def LdpFixedPoint.depthBits : LdpFixedPoint → Nat
  | .LdpFPU8 => 8
  | .LdpFPU10 => 10
  | .LdpFPU12 => 12
  | .LdpFPU14 => 14
  | _ => 16

/-- Modelled from the spec: the promotion function returned by
`fixedPointGetPromotionFunction` of `fp_types.h`, which is not in src; it treats the
sample as unsigned, shifts it left into the shared signed domain and subtracts the bias
16384. -/
def fixedPointGetPromotionFunction (unsignedFP : LdpFixedPoint) (val : Int) : Int :=
  val * 2 ^ unsignedFP.shift - 16384

/-- Modelled from the spec: the demotion function returned by
`fixedPointGetDemotionFunction` of `fp_types.h`, which is not in src; it shifts the
32-bit value right with rounding, adds the sign offset `2 ^ (N - 1)` and clamps to
`[0, 2 ^ N - 1]`. -/
def fixedPointGetDemotionFunction (unsignedFP : LdpFixedPoint) (val : Int) : Int :=
  clamp ((val + 2 ^ (unsignedFP.shift - 1)) / 2 ^ unsignedFP.shift
    + 2 ^ (unsignedFP.depthBits - 1)) 0 (2 ^ unsignedFP.depthBits - 1)

/-- Modelled from the spec: the helper `fpU8ToS8` of `fp_types.h`, which is not in src;
the promotion function of the U8 type. -/
def fpU8ToS8 (val : Int) : Int := fixedPointGetPromotionFunction .LdpFPU8 val

/-- Modelled from the spec: the helper `fpS8ToU8` of `fp_types.h`, which is not in src;
the demotion function of the U8 type. -/
def fpS8ToU8 (val : Int) : Int := fixedPointGetDemotionFunction .LdpFPU8 val

/-- Modelled from the spec: the helper `saturateS16` of `limit.h`, which is not in src;
saturation of a 32-bit value to the `int16_t` range. -/
def saturateS16 (val : Int) : Int := clamp val (-32768) 32767

/-- One iteration of the remainder loop of `addU8_NEON` (`blit_neon.c` lines 99-103).
`pel` is an `int32_t`; the sum of two 16-bit values does not overflow it. -/
def addU8_NEON_remainder (src dst : Plane) (dstPixel srcPixel0 : Nat) : Plane :=
  let pel := fpU8ToS8 (dst dstPixel)
  let pel := pel + src srcPixel0
  setAt dst dstPixel (fpS8ToU8 pel)

/-- One iteration of the remainder loop of `addUN_NEON` (`blit_neon.c` lines 177-181). -/
def addUN_NEON_remainder (unsignedFP : LdpFixedPoint) (src dst : Plane)
    (dstPixel0 srcPixel0 : Nat) : Plane :=
  let uToS := fixedPointGetPromotionFunction unsignedFP
  let sToU := fixedPointGetDemotionFunction unsignedFP
  let pel := uToS (dst dstPixel0)
  let pel := pel + src srcPixel0
  setAt dst dstPixel0 (sToU pel)

/-- One iteration of the remainder loop of `addS16_NEON` (`blit_neon.c` lines 219-223). -/
def addS16_NEON_remainder (src dst : Plane) (dstPixel0 srcPixel0 : Nat) : Plane :=
  let pel := dst dstPixel0
  let pel := pel + src srcPixel0
  setAt dst dstPixel0 (saturateS16 pel)

/-- The remainder loop bodies of the additive blit by destination depth; `addU10_NEON`,
`addU12_NEON` and `addU14_NEON` pass `LdpFPU10`, `LdpFPU12` and `LdpFPU14`. -/
def blitAddRemainder : Depth → Plane → Plane → Nat → Nat → Plane
  | .U8 => addU8_NEON_remainder
  | .U10 => addUN_NEON_remainder .LdpFPU10
  | .U12 => addUN_NEON_remainder .LdpFPU12
  | .U14 => addUN_NEON_remainder .LdpFPU14
  | .S16 => addS16_NEON_remainder

/-- Per-pixel value computed by the remainder loop of a depth from the destination
sample `p` and the source sample `r`. -/
def scalarLane : Depth → Int → Int → Int
  | .U8 => fun p r => fpS8ToU8 (fpU8ToS8 p + r)
  | .U10 => fun p r => fixedPointGetDemotionFunction .LdpFPU10
      (fixedPointGetPromotionFunction .LdpFPU10 p + r)
  | .U12 => fun p r => fixedPointGetDemotionFunction .LdpFPU12
      (fixedPointGetPromotionFunction .LdpFPU12 p + r)
  | .U14 => fun p r => fixedPointGetDemotionFunction .LdpFPU14
      (fixedPointGetPromotionFunction .LdpFPU14 p + r)
  | .S16 => fun p r => saturateS16 (p + r)

/-- A row of sixteen `int16_t` source samples for the blitter. -/
def demoSource : Plane := fun a => 4000 * (a : Int) - 30000

/-! ## Surface (`surface.c`) and the memory interface (`memory.h`) -/

/-- The fixed-point types `FixedPoint_t` of the legacy decoder, in the order of the
`switch` of `fixedPointToVooyaString`; `FPU8` is the value 0. -/
inductive FixedPoint_t where
  | FPU8
  | FPU10
  | FPU12
  | FPU14
  | FPS8
  | FPS10
  | FPS12
  | FPS14
  deriving DecidableEq, Repr

/-- Modelled from the spec: the interleaving modes `Interleaving_t` of `types.h`, which
is not in src; `ILNone` is the value 0, the other modes are numbered from 1. -/
inductive Interleaving_t where
  | ILNone
  | ILOther (n : Nat)
  deriving DecidableEq, Repr

/-- Modelled from the spec: the helper `ldlFixedPointByteSize` of `types.h`, which is
not in src; the bytes per sample of a type, 1 for U8 and 2 for the 16-bit types. -/
def ldlFixedPointByteSize : FixedPoint_t → Nat
  | .FPU8 => 1
  | _ => 2

/-- Width in bits of `size_t`. -/
def sizeBits : Nat := 64

/-- State of the memory interface behind a `Memory_t` handle: the live allocations
(bytes by address) and the addresses passed to `memoryFree`, most recent first. -/
structure Memory where
  live : Nat → Option (List Int)
  freed : List Nat

/-- Modelled from the spec: `memoryAllocate`, whose definition is not in src, after
its contract in `memory.h`: "a valid pointer to some memory of at least `size` bytes,
or NULL on failure", zeroed when `zero` is set.  `answer` is what the allocator does
on this call: `none` when it fails, otherwise the address it returns and the bytes
found there; an answer that is `NULL` or a live address counts as a failure.  `NULL`
is the address 0. -/
def memoryAllocate (memory : Memory) (size : Nat) (zero : Bool)
    (answer : Option (Nat × (Nat → Int))) : Nat × Memory :=
  match answer with
  | none => (0, memory)
  | some (ptr, found) =>
    if ptr = 0 ∨ (memory.live ptr).isSome then (0, memory)
    else
      let bytes := if zero then List.replicate size 0 else (List.range size).map found
      (ptr, { memory with live := fun a => if a = ptr then some bytes else memory.live a })

/-- Modelled from the spec: `memoryFree`, whose definition is not in src, after its
contract in `memory.h`; the allocation at `ptr` ends and the call is recorded.  The
caller's pointer variable is zeroed, which the callers below write out. -/
def memoryFree (memory : Memory) (ptr : Nat) : Memory :=
  { live := fun a => if a = ptr then none else memory.live a
    freed := ptr :: memory.freed }

/-- The fields of `Surface_t`; `data` is an address, 0 for `NULL`. -/
structure Surface_t where
  data : Nat
  type : FixedPoint_t
  width : Nat
  height : Nat
  stride : Nat
  interleaving : Interleaving_t
  external : Bool
  deriving DecidableEq

/-- The function `surfaceAllocateData`; the size is computed in `size_t`. -/
def surfaceAllocateData (memory : Memory) (answer : Option (Nat × (Nat → Int)))
    (stride height : Nat) (type : FixedPoint_t) : Nat × Memory :=
  let bpp := ldlFixedPointByteSize type
  let allocationSize := stride * height * bpp % 2 ^ sizeBits
  if allocationSize = 0 then (0, memory)
  else memoryAllocate memory allocationSize true answer

/-- The value `surfaceIdle` writes: `memorySet(surface, 0, sizeof(Surface_t))`. -/
def surfaceIdle : Surface_t :=
  { data := 0, type := .FPU8, width := 0, height := 0, stride := 0,
    interleaving := .ILNone, external := false }

/-- The function `surfaceIsIdle`. -/
def surfaceIsIdle (surface : Surface_t) : Bool := decide (surface.data = 0)

/-- The function `surfaceInitialise`: the returned code, the memory and the surface
after the call; a failing `assert(surfaceIsIdle(surface))` is `none`. -/
def surfaceInitialise (memory : Memory) (answer : Option (Nat × (Nat → Int)))
    (surface : Surface_t) (type : FixedPoint_t) (width height stride : Nat)
    (interleaving : Interleaving_t) : Option (Int × Memory × Surface_t) :=
  if surfaceIsIdle surface then
    let r := surfaceAllocateData memory answer stride height type
    let data := r.1
    if data = 0 then some (-1, r.2, surface)
    else
      some (0, r.2,
        { surface with
          data := data, type := type, width := width, height := height, stride := stride,
          interleaving := interleaving, external := false })
  else none

/-- The function `surfaceInitialiseExt`; a failing `assert(surfaceIsIdle(surface))` is
`none`. -/
def surfaceInitialiseExt (surface : Surface_t) (data : Nat) (type : FixedPoint_t)
    (width height stride : Nat) (interleaving : Interleaving_t) :
    Option (Int × Surface_t) :=
  if surfaceIsIdle surface then
    some (0,
      { surface with
        data := data, type := type, width := width, height := height, stride := stride,
        interleaving := interleaving, external := true })
  else none

/-- The function `surfaceInitialiseExt2`. -/
def surfaceInitialiseExt2 (surface : Surface_t) (type : FixedPoint_t)
    (width height stride : Nat) (interleaving : Interleaving_t) : Int × Surface_t :=
  (0,
    { surface with
      type := type, width := width, height := height, stride := stride,
      interleaving := interleaving, external := true })

/-- The function `surfaceRelease`: `VN_FREE` frees the buffer, then `surfaceIdle`
clears the record. -/
def surfaceRelease (memory : Memory) (surface : Surface_t) : Memory × Surface_t :=
  let memory :=
    if surface.external = false ∧ surface.data ≠ 0 then memoryFree memory surface.data
    else memory
  (memory, surfaceIdle)

/-- The function `surfaceCompatible`; the result is the `uint8_t` 0 or 1. -/
def surfaceCompatible (surface : Surface_t) (type : FixedPoint_t) (stride height : Nat)
    (interleaving : Interleaving_t) : Nat :=
  if surfaceIsIdle surface then 0
  else if surface.stride = stride ∧ surface.height = height ∧ surface.type = type ∧
      surface.interleaving = interleaving then 1
  else 0

/-- The function `surfaceZero`: `VN_FREE` frees the buffer and zeroes `surface->data`,
which then receives the result of `surfaceAllocateData`. -/
def surfaceZero (memory : Memory) (answer : Option (Nat × (Nat → Int)))
    (surface : Surface_t) : Memory × Surface_t :=
  if surfaceIsIdle surface then (memory, surface)
  else if surface.external = false then
    let memory := memoryFree memory surface.data
    let surface := { surface with data := 0 }
    let r := surfaceAllocateData memory answer surface.stride surface.height surface.type
    (r.2, { surface with data := r.1 })
  else (memory, surface)

/-- A call of one of the surface functions, with the allocator's answer where the
function allocates. -/
inductive SurfaceCall where
  | initialise (answer : Option (Nat × (Nat → Int))) (type : FixedPoint_t)
      (width height stride : Nat) (interleaving : Interleaving_t)
  | initialiseExt (data : Nat) (type : FixedPoint_t) (width height stride : Nat)
      (interleaving : Interleaving_t)
  | initialiseExt2 (type : FixedPoint_t) (width height stride : Nat)
      (interleaving : Interleaving_t)
  | zero (answer : Option (Nat × (Nat → Int)))
  | release

/-- The effect of a call on the memory and the surface; `none` when the call's
asserted precondition does not hold. -/
def SurfaceCall.run (call : SurfaceCall) (memory : Memory) (surface : Surface_t) :
    Option (Memory × Surface_t) :=
  match call with
  | .initialise answer type width height stride interleaving =>
    (surfaceInitialise memory answer surface type width height stride interleaving).map
      (fun r => r.2)
  | .initialiseExt data type width height stride interleaving =>
    (surfaceInitialiseExt surface data type width height stride interleaving).map
      (fun r => (memory, r.2))
  | .initialiseExt2 type width height stride interleaving =>
    some (memory, (surfaceInitialiseExt2 surface type width height stride interleaving).2)
  | .zero answer => some (surfaceZero memory answer surface)
  | .release => some (surfaceRelease memory surface)

/-- The effect of a sequence of calls, each within its asserted precondition. -/
def runCalls : List SurfaceCall → Memory → Surface_t → Option (Memory × Surface_t)
  | [], memory, surface => some (memory, surface)
  | call :: rest, memory, surface =>
    match call.run memory surface with
    | none => none
    | some (memory, surface) => runCalls rest memory surface

/-- The conditions on the arguments of a call under which the idle invariant is kept:
`surfaceInitialiseExt` is handed a non-null buffer, `surfaceInitialiseExt2` is applied
to a surface that has a buffer, and when `surfaceZero` is applied to an owned surface
that has a buffer, the allocator answers the request for the new buffer with memory.
The condition on `surfaceZero` is on the allocator alone (`memoryAllocate` on the
memory as it is once the old buffer is freed), not on what `surfaceZero` returns. -/
def SurfaceCall.keepsIdle (call : SurfaceCall) (memory : Memory) (surface : Surface_t) :
    Prop :=
  match call with
  | .initialise _ _ _ _ _ _ => True
  | .initialiseExt data _ _ _ _ _ => data ≠ 0
  | .initialiseExt2 _ _ _ _ _ => surface.data ≠ 0
  | .zero answer =>
    surface.data = 0 ∨ surface.external = true ∨
      (memoryAllocate (memoryFree memory surface.data)
        (surface.stride * surface.height * ldlFixedPointByteSize surface.type % 2 ^ sizeBits)
        true answer).1 ≠ 0
  | .release => True

/-- The calls of a sequence all keep the idle invariant, each in the state it is made
in. -/
def callsKeepIdle : List SurfaceCall → Memory → Surface_t → Prop
  | [], _, _ => True
  | call :: rest, memory, surface =>
    call.keepsIdle memory surface ∧
    match call.run memory surface with
    | none => True
    | some (memory, surface) => callsKeepIdle rest memory surface

/-- A memory interface with no allocation. -/
def emptyMemory : Memory := { live := fun _ => none, freed := [] }

/-- An owned 4 x 2 surface of 10-bit samples whose buffer is at address 64. -/
def demoSurface : Surface_t :=
  { data := 64, type := .FPU10, width := 4, height := 2, stride := 4,
    interleaving := .ILNone, external := false }

/-- A memory interface in which the buffer of `demoSurface` is live. -/
def demoMemory : Memory :=
  { live := fun a => if a = 64 then some (List.replicate 16 7) else none, freed := [] }

/-- A life cycle of a surface: allocate, re-zero, release, then a failing allocation. -/
def demoCalls : List SurfaceCall :=
  [.initialise (some (64, fun _ => 9)) .FPU10 4 2 4 .ILNone,
   .zero (some (128, fun _ => 9)),
   .release,
   .initialise none .FPU8 3 3 3 .ILNone]

/-- A stride and a height that fit `uint32_t` and whose product with the two bytes of
a 10-bit sample is `2 ^ 64 + 4`, one more than `size_t` can hold plus 4. -/
def wideStride : Nat := 2147549185

/-- See `wideStride`. -/
def wideHeight : Nat := 4294836226

/-- An owned surface of 10-bit samples with the stride `wideStride` and the height
`wideHeight`, as `surfaceInitialise` leaves it when the allocator answers with the
address 64. -/
def wideSurface : Surface_t :=
  { data := 64, type := .FPU10, width := 4, height := wideHeight, stride := wideStride,
    interleaving := .ILNone, external := false }

/-- The memory interface in which the four-byte buffer of `wideSurface` is live. -/
def wideMemory : Memory :=
  { live := fun a => if a = 64 then some (List.replicate 4 0) else none, freed := [] }

/-! ## The unsigned ADD as a rounded sum -/

/-- The unsigned ADD without the intermediate saturation, as a rule on the sample: the
sample plus the residual rounded half-up to the destination precision (shift
`s = 15 - N`), clamped to `[0, 2 ^ N - 1]`. -/
def addRoundedU (N : Nat) (p r : Int) : Int :=
  clamp (p + (r + 2 ^ (15 - N - 1)) / 2 ^ (15 - N)) 0 (2 ^ N - 1)

/-! ## String utilities (`string_utils.cpp`) -/

/-- The C function `toupper` in the "C" locale: the letters `a` to `z` map to `A` to
`Z`, every other character to itself. -/
def toupper (c : Char) : Char := c.toUpper

/-- The three-iterator algorithm `std::equal(first1, last1, first2, pred)`: the
elements of the first range are compared in order with the elements found from
`first2` on, up to the first pair that fails `pred`; the length of the second range is
not consulted, and reading it past its end is undefined, `none`. -/
def stdEqual {α : Type} (pred : α → α → Bool) : List α → List α → Option Bool
  | [], _ => some true
  | _ :: _, [] => none
  | x :: xs, y :: ys => if pred x y then stdEqual pred xs ys else some false

/-- The lambda `toUpperEqual` of `iEquals`. -/
def toUpperEqual (c1 c2 : Char) : Bool := toupper c1 == toupper c2

/-- The function `iEquals`: `std::equal(a.begin(), a.end(), b.begin(), toUpperEqual)`. -/
def iEquals (a b : List Char) : Option Bool := stdEqual toUpperEqual a b

/-- The string built from the iterator range `[first, last)` of `src`. -/
def substring (src : List Char) (first last : Nat) : List Char :=
  (src.drop first).take (last - first)

/-- The `for` loop of `split` and the statement after it: `rest` holds the characters
from the iterator `i` on, `i` and `start` are positions in `src`. -/
def splitLoop (src separators : List Char) :
    List Char → Nat → Nat → Bool → List (List Char) → List (List Char)
  | [], _, start, _, output => output ++ [substring src start src.length]
  | c :: rest, i, start, inToken, output =>
    if c ∉ separators then splitLoop src separators rest (i + 1) start true output
    else
      splitLoop src separators rest (i + 1) (i + 1) false
        (if inToken = true then output ++ [substring src start i] else output)

/-- The function `split`. -/
def split (src separators : List Char) : List (List Char) :=
  if src = [] then [] else splitLoop src separators src 0 0 true []

/-! ## Picture layout (`picture_layout.cpp`) -/

/-- The colour formats `LCEVC_ColorFormat` that have a row in `kPictureLayoutInfo`, and
`LCEVC_ColorFormat_Unknown`. -/
inductive LCEVC_ColorFormat where
  | LCEVC_I420_8 | LCEVC_I420_10_LE | LCEVC_I420_12_LE | LCEVC_I420_14_LE | LCEVC_I420_16_LE
  | LCEVC_I422_8 | LCEVC_I422_10_LE | LCEVC_I422_12_LE | LCEVC_I422_14_LE | LCEVC_I422_16_LE
  | LCEVC_I444_8 | LCEVC_I444_10_LE | LCEVC_I444_12_LE | LCEVC_I444_14_LE | LCEVC_I444_16_LE
  | LCEVC_NV12_8 | LCEVC_NV21_8
  | LCEVC_RGB_8 | LCEVC_BGR_8 | LCEVC_RGBA_8 | LCEVC_BGRA_8 | LCEVC_ARGB_8 | LCEVC_ABGR_8
  | LCEVC_GRAY_8 | LCEVC_GRAY_10_LE | LCEVC_GRAY_12_LE | LCEVC_GRAY_14_LE | LCEVC_GRAY_16_LE
  | LCEVC_ColorFormat_Unknown
  deriving DecidableEq, Repr

/-- The enumeration `PictureLayout::ColorSpace`. -/
inductive ColorSpace where
  | YUV
  | RGB
  | Greyscale
  deriving DecidableEq, Repr

/-- The structure `PictureLayout::Info`.  The per-plane and per-component arrays are
given by their initialisers; see `arrayAt`. -/
structure Info where
  format : LCEVC_ColorFormat
  colorSpace : ColorSpace
  colorComponents : Nat
  validWidthMask : Nat
  validHeightMask : Nat
  planeWidthShift : List Nat
  planeHeightShift : List Nat
  alignment : List Nat
  interleave : List Nat
  offset : List Nat
  bits : Nat
  suffix : String
  deriving DecidableEq, Repr

/-- Element `i` of a `uint8_t` array of `Info`: an aggregate initialiser shorter than
the array leaves the remaining elements zero. -/
def arrayAt (a : List Nat) (i : Nat) : Nat := a.getD i 0

/-- The table `PictureLayout::kPictureLayoutInfo`. -/
def kPictureLayoutInfo : List Info :=
  [ ⟨.LCEVC_I420_8, .YUV, 3, 1, 1, [0, 1, 1], [0, 1, 1], [0, 0, 0], [1, 1, 1], [0, 0, 0], 8, "_p420.yuv"⟩,
    ⟨.LCEVC_I420_10_LE, .YUV, 3, 1, 1, [0, 1, 1], [0, 1, 1], [0, 0, 0], [1, 1, 1], [0, 0, 0], 10, "_10bit_p420.yuv"⟩,
    ⟨.LCEVC_I420_12_LE, .YUV, 3, 1, 1, [0, 1, 1], [0, 1, 1], [0, 0, 0], [1, 1, 1], [0, 0, 0], 12, "_12bit_p420.yuv"⟩,
    ⟨.LCEVC_I420_14_LE, .YUV, 3, 1, 1, [0, 1, 1], [0, 1, 1], [0, 0, 0], [1, 1, 1], [0, 0, 0], 14, "_14bit_p420.yuv"⟩,
    ⟨.LCEVC_I420_16_LE, .YUV, 3, 1, 1, [0, 1, 1], [0, 1, 1], [0, 0, 0], [1, 1, 1], [0, 0, 0], 16, "_16bit_p420.yuv"⟩,
    ⟨.LCEVC_I422_8, .YUV, 3, 1, 0, [0, 1, 1], [0, 0, 0], [0, 0, 0], [1, 1, 1], [0, 0, 0], 8, "_p422.yuv"⟩,
    ⟨.LCEVC_I422_10_LE, .YUV, 3, 1, 0, [0, 1, 1], [0, 0, 0], [0, 0, 0], [1, 1, 1], [0, 0, 0], 10, "_10bit_p422.yuv"⟩,
    ⟨.LCEVC_I422_12_LE, .YUV, 3, 1, 0, [0, 1, 1], [0, 0, 0], [0, 0, 0], [1, 1, 1], [0, 0, 0], 12, "_12bit_p422.yuv"⟩,
    ⟨.LCEVC_I422_14_LE, .YUV, 3, 1, 0, [0, 1, 1], [0, 0, 0], [0, 0, 0], [1, 1, 1], [0, 0, 0], 14, "_14bit_p422.yuv"⟩,
    ⟨.LCEVC_I422_16_LE, .YUV, 3, 1, 0, [0, 1, 1], [0, 0, 0], [0, 0, 0], [1, 1, 1], [0, 0, 0], 16, "_16bit_p422.yuv"⟩,
    ⟨.LCEVC_I444_8, .YUV, 3, 0, 0, [0, 0, 0], [0, 0, 0], [0, 0, 0], [1, 1, 1], [0, 0, 0], 8, "_p444.yuv"⟩,
    ⟨.LCEVC_I444_10_LE, .YUV, 3, 0, 0, [0, 0, 0], [0, 0, 0], [0, 0, 0], [1, 1, 1], [0, 0, 0], 10, "_10bit_p444.yuv"⟩,
    ⟨.LCEVC_I444_12_LE, .YUV, 3, 0, 0, [0, 0, 0], [0, 0, 0], [0, 0, 0], [1, 1, 1], [0, 0, 0], 12, "_12bit_p444.yuv"⟩,
    ⟨.LCEVC_I444_14_LE, .YUV, 3, 0, 0, [0, 0, 0], [0, 0, 0], [0, 0, 0], [1, 1, 1], [0, 0, 0], 14, "_14bit_p444.yuv"⟩,
    ⟨.LCEVC_I444_16_LE, .YUV, 3, 0, 0, [0, 0, 0], [0, 0, 0], [0, 0, 0], [1, 1, 1], [0, 0, 0], 16, "_16bit_p444.yuv"⟩,
    ⟨.LCEVC_NV12_8, .YUV, 3, 1, 1, [0, 1], [0, 1], [0, 0], [1, 2, 2], [0, 0, 1], 8, ".nv12"⟩,
    ⟨.LCEVC_NV21_8, .YUV, 3, 1, 1, [0, 1], [0, 1], [0, 0], [1, 2, 2], [0, 1, 0], 8, ".nv21"⟩,
    ⟨.LCEVC_RGB_8, .RGB, 3, 0, 0, [0], [0], [0], [3, 3, 3], [0, 1, 2], 8, ".rgb"⟩,
    ⟨.LCEVC_BGR_8, .RGB, 3, 0, 0, [0], [0], [0], [3, 3, 3], [2, 1, 0], 8, ".bgr"⟩,
    ⟨.LCEVC_RGBA_8, .RGB, 4, 0, 0, [0], [0], [0], [4, 4, 4, 4], [0, 1, 2, 3], 8, ".rgba"⟩,
    ⟨.LCEVC_BGRA_8, .RGB, 4, 0, 0, [0], [0], [0], [4, 4, 4, 4], [2, 1, 0, 3], 8, ".bgra"⟩,
    ⟨.LCEVC_ARGB_8, .RGB, 4, 0, 0, [0], [0], [0], [4, 4, 4, 4], [3, 0, 1, 2], 8, ".argb"⟩,
    ⟨.LCEVC_ABGR_8, .RGB, 4, 0, 0, [0], [0], [0], [4, 4, 4, 4], [3, 2, 1, 0], 8, ".abgr"⟩,
    ⟨.LCEVC_GRAY_8, .Greyscale, 1, 0, 0, [0], [0], [0], [1], [0], 8, ".y"⟩,
    ⟨.LCEVC_GRAY_10_LE, .Greyscale, 1, 0, 0, [0], [0], [0], [1], [0], 10, "_10bit.y"⟩,
    ⟨.LCEVC_GRAY_12_LE, .Greyscale, 1, 0, 0, [0], [0], [0], [1], [0], 12, "_12bit.y"⟩,
    ⟨.LCEVC_GRAY_14_LE, .Greyscale, 1, 0, 0, [0], [0], [0], [1], [0], 14, "_14bit.y"⟩,
    ⟨.LCEVC_GRAY_16_LE, .Greyscale, 1, 0, 0, [0], [0], [0], [1], [0], 16, "_16bit.y"⟩ ]

/-- The constant `PictureLayout::kPictureLayoutInfoUnknown`. -/
def kPictureLayoutInfoUnknown : Info :=
  ⟨.LCEVC_ColorFormat_Unknown, .YUV, 0, 0, 0, [0], [0], [0], [0], [0], 0, ".raw"⟩

/-- The function `PictureLayout::findLayoutInfo`. -/
def findLayoutInfo (format : LCEVC_ColorFormat) : Info :=
  (kPictureLayoutInfo.find? (fun li => decide (li.format = format))).getD
    kPictureLayoutInfoUnknown

/-- The loop of `planes()` from component `i` with `numPlanes` planes counted, in
`uint8_t` arithmetic; `none` when it has not ended after `fuel` iterations. -/
def planesFrom (info : Info) : Nat → Nat → Nat → Option Nat
  | 0, _, _ => none
  | fuel + 1, i, numPlanes =>
    if i < info.colorComponents then
      planesFrom info fuel ((i + arrayAt info.interleave i) % 256) ((numPlanes + 1) % 256)
    else some numPlanes

/-- Modelled from the spec: the member `planes()` is defined in `picture_layout.h`,
which is not in src.  The number of planes of a format is the number of groups of
interleaved components: component 0 starts a plane, and each plane holds the
`interleave` components from its first one.  For every row of `kPictureLayoutInfo`
this is the number of per-plane entries the row gives. -/
def planes (info : Info) : Option Nat := planesFrom info 256 0 0

/-- The members of `PictureLayout`; the arrays are indexed by plane. -/
structure PictureLayout where
  layoutInfo : Info
  width : Nat
  height : Nat
  rowStrides : Nat → Nat
  planeOffsets : Nat → Nat
  size : Nat

/-- Assignment to an element of a `uint32_t` array. -/
def setPlane (a : Nat → Nat) (plane v : Nat) : Nat → Nat :=
  fun k => if k = plane then v else a k

/-- The function `PictureLayout::defaultRowStride`, in `uint32_t` arithmetic:
`(rowSize(plane) + align) & ~align`.  `rowSize` is defined in `picture_layout.h`,
which is not in src, and is taken as a parameter; a failing `assert(plane < planes())`
is `none`. -/
def defaultRowStride (info : Info) (rowSize : Nat → Nat) (plane : Nat) : Option Nat :=
  match planes info with
  | none => none
  | some n =>
    if plane < n then
      let align := arrayAt info.alignment plane
      some (Nat.land ((rowSize plane + align) % 2 ^ 32) (2 ^ 32 - 1 - align))
    else none

/-- The loop of `generateOffsets`: `count` planes from `plane` on, with the running
`offset` in `uint32_t` arithmetic. -/
def generateOffsetsFrom (layout : PictureLayout) :
    Nat → Nat → (Nat → Nat) × Nat → (Nat → Nat) × Nat
  | 0, _, state => state
  | count + 1, plane, state =>
    generateOffsetsFrom layout count (plane + 1)
      (setPlane state.1 plane state.2,
        (state.2 + layout.rowStrides plane
            * (layout.height >>> arrayAt layout.layoutInfo.planeHeightShift plane) % 2 ^ 32)
          % 2 ^ 32)

/-- The function `PictureLayout::generateOffsets`; `none` when `planes()` does not
return. -/
def generateOffsets (layout : PictureLayout) : Option PictureLayout :=
  (planes layout.layoutInfo).map (fun n =>
    let state := generateOffsetsFrom layout n 0 (layout.planeOffsets, 0)
    { layout with planeOffsets := state.1, size := state.2 })

/-- The loop of the constructor that takes strides: `count` planes from `plane` on;
a failing `assert(strides[plane] >= defaultRowStride(plane))` is `none`. -/
def fillStridesFrom (info : Info) (rowSize strides : Nat → Nat) :
    Nat → Nat → (Nat → Nat) → Option (Nat → Nat)
  | 0, _, rowStrides => some rowStrides
  | count + 1, plane, rowStrides =>
    match defaultRowStride info rowSize plane with
    | none => none
    | some stride =>
      if strides plane ≥ stride then
        fillStridesFrom info rowSize strides count (plane + 1)
          (setPlane rowStrides plane (strides plane))
      else none

/-- The constructor `PictureLayout(pictureDesc, layoutInfo, strides)`, with the width
and height of the picture description. -/
def PictureLayout.withStrides (width height : Nat) (layoutInfo : Info)
    (rowSize strides : Nat → Nat) : Option PictureLayout :=
  match planes layoutInfo with
  | none => none
  | some n =>
    match fillStridesFrom layoutInfo rowSize strides n 0 (fun _ => 0) with
    | none => none
    | some rowStrides =>
      generateOffsets
        { layoutInfo := layoutInfo, width := width, height := height,
          rowStrides := rowStrides, planeOffsets := fun _ => 0, size := 0 }

/-- The loop of `getPlaneForComponent`, in `uint8_t` arithmetic; `none` when it has
not ended after `fuel` iterations. -/
def getPlaneForComponentFrom (info : Info) (component : Nat) : Nat → Nat → Nat → Option Nat
  | 0, _, _ => none
  | fuel + 1, testComp, plane =>
    if testComp < component then
      getPlaneForComponentFrom info component fuel
        ((testComp + arrayAt info.interleave (testComp + 1)) % 256) ((plane + 1) % 256)
    else some plane

/-- The function `PictureLayout::getPlaneForComponent`. -/
def getPlaneForComponent (layout : PictureLayout) (component : Nat) : Option Nat :=
  getPlaneForComponentFrom layout.layoutInfo component 256 0 0

/-- The `for` loop of `getComponentForPlane`: `count` iterations of
`component += interleave[component]`. -/
def firstComponentFrom (info : Info) : Nat → Nat → Nat
  | 0, component => component
  | count + 1, component =>
    firstComponentFrom info count ((component + arrayAt info.interleave component) % 256)

/-- The `while` loop of `getComponentForPlane`; `none` when it has not ended after
`fuel` iterations. -/
def skipOffsetFrom (info : Info) : Nat → Nat → Option Nat
  | 0, _ => none
  | fuel + 1, component =>
    if arrayAt info.offset component ≠ 0 then skipOffsetFrom info fuel ((component + 1) % 256)
    else some component

/-- The function `PictureLayout::getComponentForPlane`. -/
def getComponentForPlane (layout : PictureLayout) (plane : Nat) : Option Nat :=
  skipOffsetFrom layout.layoutInfo 256 (firstComponentFrom layout.layoutInfo plane 0)

/-- The loop "Shifts must match" of `isCompatible`: `count` planes from `plane` on. -/
def shiftsMatchFrom (info other : Info) : Nat → Nat → Bool
  | 0, _ => true
  | count + 1, plane =>
    if arrayAt info.planeWidthShift plane ≠ arrayAt other.planeWidthShift plane ∨
        arrayAt info.planeHeightShift plane ≠ arrayAt other.planeHeightShift plane then false
    else shiftsMatchFrom info other count (plane + 1)

/-- The function `PictureLayout::isCompatible`, of the receiver `layout`; `none` when
`planes()` does not return. -/
def isCompatible (layout other : PictureLayout) : Option Bool :=
  if layout.width ≠ other.width ∨ layout.height ≠ other.height then some false
  else if layout.layoutInfo.format = other.layoutInfo.format then some true
  else if layout.layoutInfo.bits ≠ other.layoutInfo.bits then some false
  else if layout.layoutInfo.colorComponents ≠ other.layoutInfo.colorComponents then some false
  else (planes layout.layoutInfo).map (fun n => shiftsMatchFrom layout.layoutInfo other.layoutInfo n 0)

/-- The layout of a picture of the given format, width and height whose row strides
are the same `stride` for every plane, as the constructor that takes strides builds it
when `stride` is at least every default stride. -/
def demoLayout (format : LCEVC_ColorFormat) (width height stride : Nat) :
    Option PictureLayout :=
  PictureLayout.withStrides width height (findLayoutInfo format) (fun _ => stride)
    (fun _ => stride)

/-- The bytes of plane `plane` as `generateOffsets` counts them, before the reduction
to `uint32_t`: `m_rowStrides[plane] * (m_height >> planeHeightShift[plane])`. -/
def planeBytes (layout : PictureLayout) (plane : Nat) : Nat :=
  layout.rowStrides plane
    * (layout.height >>> arrayAt layout.layoutInfo.planeHeightShift plane)

/-- The sum of `planeBytes` over the planes below `n`, without reduction. -/
def planeBytesBelow (layout : PictureLayout) : Nat → Nat
  | 0 => 0
  | n + 1 => planeBytesBelow layout n + planeBytes layout n

/-! ## Dither (`dither.h`) -/

/-- Modelled from the spec: the length of the internal dither buffer; `dither.c` is not
in src, and the unit test relies on "the internal dither buffer is 16k long". -/
def kDitherBufferSize : Nat := 16384

/-- Modelled from the spec: the largest dither strength; `dither.c` is not in src, the
spec gives the strengths as 1 to 128 and has strength 129 fail. -/
def kMaxDitherStrength : Nat := 128

/-- The dither types the unit test names. -/
inductive DitherType_t where
  | DTNone
  | DTUniform
  deriving DecidableEq, Repr

/-- Modelled from the spec: the object behind a `Dither_t` handle, whose declaration
is not in src; the strength in use and the buffer of pre-generated `int8_t` noise. -/
structure Dither where
  strength : Nat
  buffer : Nat → Int

/-- Conversion to `int8_t`. -/
def wrap8 (z : Int) : Int := (z + 128) % 256 - 128

/-- Modelled from the spec: `ditherRegenerate`, whose definition (`dither.c`) is not in
src.  A strength above `kMaxDitherStrength` fails and leaves the object as it was; any
other strength succeeds and, for uniform dither, fills the buffer with pre-generated
noise "bounded by the configured strength": entry `i` is the draw `random i` of the
random source reduced to the `2 * strength + 1` values from `-strength` to `strength`,
stored as `int8_t`. -/
def ditherRegenerate (dither : Dither) (strength : Nat) (type : DitherType_t)
    (random : Nat → Nat) : Bool × Dither :=
  if strength > kMaxDitherStrength then (false, dither)
  else
    (true,
      { strength := strength
        buffer := fun i =>
          if type = .DTUniform ∧ i < kDitherBufferSize then
            wrap8 (((random i % (2 * strength + 1) : Nat) : Int) - (strength : Int))
          else dither.buffer i })

/-- Modelled from the spec: `ditherGetBuffer`, whose definition (`dither.c`) is not in
src.  A length greater than the internal buffer fails with `NULL`, `none`; otherwise
the result points at `length` consecutive entries of the buffer, starting at an offset
derived from `position` that leaves room for them. -/
def ditherGetBuffer (dither : Dither) (length position : Nat) : Option (Nat → Int) :=
  if length > kDitherBufferSize then none
  else some (fun j => dither.buffer (position % (kDitherBufferSize - length + 1) + j))

/-- A dither object before the first regeneration. -/
def demoDither : Dither := { strength := 0, buffer := fun _ => 0 }

/-! ## Files, `surfaceToFile`, `surfaceGetLine` and the dump cache (`surface.c`) -/

/-- The files, by path, and the open streams of the C library: a `FILE*` is a number,
0 for `NULL`, and an open stream knows the path of its file.  Bytes written through a
stream go to the end of its file, which is where the position of a stream opened by
`fopen` in the modes "wb" and "ab+" is after each of its own writes. -/
structure FileSystem where
  files : List Char → Option (List Int)
  streams : Nat → Option (List Char)

/-- The C library function `fopen` for the modes used by `surface.c`: "wb" creates the
file or truncates it to length zero, "ab+" creates it or keeps its bytes.  `answer` is
what the library does on this call: `none` when it fails, otherwise the stream it
returns; `NULL` or a stream that is already open counts as a failure. -/
def fopen (fs : FileSystem) (path : List Char) (mode : String) (answer : Option Nat) :
    Nat × FileSystem :=
  match answer with
  | none => (0, fs)
  | some stream =>
    if stream = 0 ∨ (fs.streams stream).isSome then (0, fs)
    else
      (stream,
        { files := fun p =>
            if p = path then
              (if mode = "wb" then some [] else some ((fs.files p).getD []))
            else fs.files p
          streams := fun s => if s = stream then some path else fs.streams s })

/-- The C library function `fwrite(ptr, size, count, stream)` with `bytes` the
`size * count` bytes found at `ptr`; `written` is the number of items the library
writes on this call, at most `count`. -/
def fwrite (fs : FileSystem) (bytes : List Int) (size count stream written : Nat) :
    FileSystem :=
  match fs.streams stream with
  | none => fs
  | some path =>
    { fs with
      files := fun p =>
        if p = path then some ((fs.files p).getD [] ++ bytes.take (size * min written count))
        else fs.files p }

/-- The C library function `fclose`. -/
def fclose (fs : FileSystem) (stream : Nat) : FileSystem :=
  { fs with streams := fun s => if s = stream then none else fs.streams s }

/-- The first `size` bytes found at `ptr`, as a library function reads them; `none`
when bytes are read and `ptr` is not the address of a block or the block is shorter. -/
def memoryRead (memory : Memory) (ptr size : Nat) : Option (List Int) :=
  if size = 0 then some []
  else
    match memory.live ptr with
    | none => none
    | some bytes => if size ≤ bytes.length then some (bytes.take size) else none

/-- Modelled from the spec: the helper `ldlFixedPointLowPrecision` of `types.h`, which
is not in src; each signed (high-precision) type maps to the unsigned type of the same
depth, each unsigned type to itself. -/
def ldlFixedPointLowPrecision : FixedPoint_t → FixedPoint_t
  | .FPS8 => .FPU8
  | .FPS10 => .FPU10
  | .FPS12 => .FPU12
  | .FPS14 => .FPU14
  | t => t

/-- The body of the loop of `surfaceToFile` for one plane and the planes after it.
`surfaceBlit` (`blit.h`, not in src) is a parameter: the memory after a copy blit from
the first surface to the second.  `answers` gives, plane by plane, the allocator's
answer for the temporary surface and whether `fwrite` writes its item.  The result is
`none` when a buffer is read outside its block; the flag tells whether the function
reached `fclose`. -/
def surfaceToFileFrom (surfaceBlit : Memory → Surface_t → Surface_t → Memory)
    (file : Nat) :
    List Surface_t → List (Option (Nat × (Nat → Int)) × Bool) → FileSystem → Memory →
      Option (FileSystem × Memory × Bool)
  | [], _, fs, memory => some (fclose fs file, memory, true)
  | surface :: rest, answers, fs, memory =>
    let type := surface.type
    let lptype := ldlFixedPointLowPrecision type
    let answer := (answers.headD (none, true))
    if surface.interleaving ≠ .ILNone then some (fs, memory, false)
    else if lptype ≠ surface.type then
      let byteSize := surface.width * surface.height * ldlFixedPointByteSize lptype % 2 ^ 32
      let tmp := surfaceIdle
      let r := (surfaceInitialise memory answer.1 tmp lptype surface.width surface.height
        surface.width .ILNone).getD (-1, memory, tmp)
      let memory := surfaceBlit r.2.1 surface r.2.2
      match memoryRead memory surface.data byteSize with
      | none => none
      | some bytes =>
        let fs := fwrite fs bytes byteSize 1 file (if answer.2 then 1 else 0)
        let memory := (surfaceRelease memory r.2.2).1
        surfaceToFileFrom surfaceBlit file rest answers.tail fs memory
    else
      let byteSize := surface.width * surface.height * ldlFixedPointByteSize type % 2 ^ 32
      match memoryRead memory surface.data byteSize with
      | none => none
      | some bytes =>
        let fs := fwrite fs bytes byteSize 1 file (if answer.2 then 1 else 0)
        surfaceToFileFrom surfaceBlit file rest answers.tail fs memory

/-- The function `surfaceToFile`; `surfaces` is `none` for a `NULL` pointer, otherwise
the first `planeCount` surfaces of the array, and `opened` is the library's answer to
`fopen`. -/
def surfaceToFile (surfaceBlit : Memory → Surface_t → Surface_t → Memory)
    (fs : FileSystem) (memory : Memory) (surfaces : Option (List Surface_t))
    (planeCount : Nat) (path : List Char) (opened : Option Nat)
    (answers : List (Option (Nat × (Nat → Int)) × Bool)) :
    Option (FileSystem × Memory × Bool) :=
  match surfaces with
  | none => some (fs, memory, true)
  | some surfaces =>
    if planeCount = 0 then some (fs, memory, true)
    else
      let r := fopen fs path "ab+" opened
      if r.1 = 0 then some (fs, memory, true)
      else surfaceToFileFrom surfaceBlit r.1 (surfaces.take planeCount) answers r.2 memory

/-- The function `surfaceGetLine`: the address of row `y`.  The product is formed in
`uint32_t` (`ldlFixedPointByteSize` returns a 32-bit value, which the callers in this
file widen or store as `uint32_t`) and then converted to `size_t`. -/
def surfaceGetLine (surface : Surface_t) (y : Nat) : Nat :=
  surface.data
    + (y * surface.stride % 2 ^ 32) * ldlFixedPointByteSize surface.type % 2 ^ 32
        % 2 ^ sizeBits

/-- The constant `kFormatBufferLength`. -/
def kFormatBufferLength : Nat := 16384

/-- The function `fixedPointToVooyaString`; `FixedPoint_t` has no value `FPCount`
here, so the `switch` is total. -/
def fixedPointToVooyaString : FixedPoint_t → String
  | .FPU8 => "8bit"
  | .FPU10 => "10bit"
  | .FPU12 => "12bit"
  | .FPU14 => "14bit"
  | .FPS8 => "-16bit"
  | .FPS10 => "-16bit"
  | .FPS12 => "-16bit"
  | .FPS14 => "-16bit"

/-- An argument of `snprintf`: a string for `%s`, an unsigned number for `%u`. -/
inductive PrintfArg where
  | str (s : List Char)
  | uint (n : Nat)

/-- The output `snprintf` formats for a format made of text, `%s` and `%u`, the
directives used by `surfaceDumpCacheAdd`; a directive without a matching argument is
copied as text. -/
def snprintf : List Char → List PrintfArg → List Char
  | [], _ => []
  | [c], _ => [c]
  | c :: d :: rest, args =>
    if c = '%' ∧ d = 's' then
      match args with
      | .str s :: args => s ++ snprintf rest args
      | _ => c :: d :: snprintf rest args
    else if c = '%' ∧ d = 'u' then
      match args with
      | .uint n :: args => (Nat.repr n).toList ++ snprintf rest args
      | _ => c :: d :: snprintf rest args
    else c :: snprintf (d :: rest) args

/-- The settings of `Context_t` read by the dump functions. -/
structure DumpContext where
  dumpSurfaces : Bool
  dumpPath : Option (List Char)

/-- The structure `SurfaceDumpEntry_t`; the identifier is held by value, it is the
entry's own copy made by `strcpyDeep`. -/
structure SurfaceDumpEntry_t where
  file : Nat
  id : List Char
  type : FixedPoint_t
  stride : Nat
  height : Nat
  deriving DecidableEq

/-- The fields `entries` and `entryCount` of `SurfaceDumpCache_t`; `entries` is the
address of the entry array, 0 for `NULL`. -/
structure SurfaceDumpCache_t where
  entries : Nat
  entryCount : Int
  deriving DecidableEq

/-- What the dump functions act on: the files, the entry arrays that are live in the
memory interface, by address, and the cache. -/
structure DumpState where
  fs : FileSystem
  arrays : Nat → Option (List SurfaceDumpEntry_t)
  cache : SurfaceDumpCache_t

/-- What the library and the memory interface do during one call of `surfaceDump`:
the stream `fopen` returns, the address `memoryReallocate` returns (`none` for a
failure), whether `strcpyDeep` succeeds, and the number of items `fwrite` writes. -/
structure DumpAnswers where
  opened : Option Nat
  reallocated : Option Nat
  copied : Bool
  written : Nat

/-- The loop of `surfaceDumpCacheQuery`: `count` entries from index `i` on; the result
is the index of the entry returned, `some none` for `NULL`, and `none` when the loop
reads outside the array. -/
def surfaceDumpCacheQueryFrom (entries : List SurfaceDumpEntry_t) (id : List Char) :
    Nat → Nat → Option (Option Nat)
  | 0, _ => some none
  | count + 1, i =>
    match entries.get? i with
    | none => none
    | some entry =>
      if entry.id = id then some (some i)
      else surfaceDumpCacheQueryFrom entries id count (i + 1)

/-- The function `surfaceDumpCacheQuery`; `none` when `cache->entries` is not the
address of a live array. -/
def surfaceDumpCacheQuery (state : DumpState) (id : List Char) : Option (Option Nat) :=
  if state.cache.entries = 0 then some none
  else
    match state.arrays state.cache.entries with
    | none => none
    | some entries => surfaceDumpCacheQueryFrom entries id state.cache.entryCount.toNat 0

/-- The contents of an entry that has been allocated and not yet written. -/
def uninitialisedEntry : SurfaceDumpEntry_t :=
  { file := 0, id := [], type := .FPU8, stride := 0, height := 0 }

/-- Modelled from the spec: `memoryReallocate` on an array of entries, whose definition
is not in src, after its contract in `memory.h`: with `ptr` `NULL` it allocates, and
on success the result holds `count` entries, the first of them those of the block at
`ptr`, which is no longer live unless it is returned.  `answer` is the address the
memory interface returns, `none` for a failure, which leaves the block at `ptr` live;
`NULL` or the address of another live array counts as a failure. -/
def memoryReallocate (arrays : Nat → Option (List SurfaceDumpEntry_t)) (ptr count : Nat)
    (answer : Option Nat) : Nat × (Nat → Option (List SurfaceDumpEntry_t)) :=
  match answer with
  | none => (0, arrays)
  | some p =>
    if p = 0 ∨ (p ≠ ptr ∧ (arrays p).isSome) then (0, arrays)
    else
      let old := if ptr = 0 then [] else (arrays ptr).getD []
      let block := (old ++ List.replicate count uninitialisedEntry).take count
      (p, fun a => if a = p then some block else if a = ptr then none else arrays a)

/-- The path `surfaceDumpCacheAdd` formats into `tlPathFormatBuffer`. -/
def dumpFilePath (ctx : DumpContext) (id : List Char) (surface : Surface_t) : List Char :=
  match ctx.dumpPath with
  | some dumpPath =>
    snprintf "%s/%s_%ux%u_%s.y".toList
      [.str dumpPath, .str id, .uint surface.stride, .uint surface.height,
        .str (fixedPointToVooyaString surface.type).toList]
  | none =>
    snprintf "%s_%ux%u_%s.y".toList
      [.str id, .uint surface.stride, .uint surface.height,
        .str (fixedPointToVooyaString surface.type).toList]

/-- The function `surfaceDumpCacheAdd`: the index of the new entry in the array, `none`
for `NULL`, and the state after the call.  At `error_exit` the array returned by
`memoryReallocate` is freed and the stream closed; `cache->entries` is not assigned. -/
def surfaceDumpCacheAdd (state : DumpState) (ctx : DumpContext) (id : List Char)
    (surface : Surface_t) (answers : DumpAnswers) : Option Nat × DumpState :=
  let path := dumpFilePath ctx id surface
  if path.length ≥ kFormatBufferLength then (none, state)
  else
    let r := fopen state.fs path "wb" answers.opened
    let handle := r.1
    if handle = 0 then (none, state)
    else
      let newCount := state.cache.entryCount + 1
      let m := memoryReallocate state.arrays state.cache.entries newCount.toNat
        answers.reallocated
      let newEntries := m.1
      if newEntries = 0 then (none, { state with fs := fclose r.2 handle })
      else if answers.copied = false then
        (none,
          { state with
            fs := fclose r.2 handle
            arrays := fun a => if a = newEntries then none else m.2 a })
      else
        let entry : SurfaceDumpEntry_t :=
          { file := handle, id := id, type := surface.type, stride := surface.stride,
            height := surface.height }
        (some state.cache.entryCount.toNat,
          { fs := r.2
            arrays := fun a =>
              if a = newEntries then
                (m.2 a).map (fun entries => entries.set state.cache.entryCount.toNat entry)
              else m.2 a
            cache := { entries := newEntries, entryCount := newCount } })

/-- The function `surfaceDumpValidateSettings`. -/
def surfaceDumpValidateSettings (dump : SurfaceDumpEntry_t) (surface : Surface_t) : Int :=
  if surface.type ≠ dump.type ∨ surface.stride ≠ dump.stride ∨ surface.height ≠ dump.height
  then -1
  else 0

/-- The function `surfaceDump`: the returned code and the state after the call.  `id`
is what `vsnprintf` formats from `idFormat` and its arguments, `none` for a negative
result; `memory` holds the surface's buffer.  The result is `none` when the call reads
freed memory or reads the buffer outside its block. -/
def surfaceDump (memory : Memory) (ctx : DumpContext) (state : DumpState)
    (surface : Surface_t) (id : Option (List Char)) (answers : DumpAnswers) :
    Option (Int × DumpState) :=
  if ctx.dumpSurfaces = false then some (0, state)
  else
    match id with
    | none => some (-1, state)
    | some id =>
      if id.length ≥ kFormatBufferLength then some (-1, state)
      else
        match surfaceDumpCacheQuery state id with
        | none => none
        | some found =>
          let added :=
            match found with
            | some i => (some i, state)
            | none => surfaceDumpCacheAdd state ctx id surface answers
          match added.1 with
          | none => some (-1, added.2)
          | some i =>
            match (added.2.arrays added.2.cache.entries).bind
                (fun entries => entries.get? i) with
            | none => none
            | some entry =>
              if surfaceDumpValidateSettings entry surface ≠ 0 then some (-1, added.2)
              else
                let size := ldlFixedPointByteSize surface.type
                let count := surface.stride * surface.height % 2 ^ sizeBits
                match memoryRead memory surface.data (size * count) with
                | none => none
                | some bytes =>
                  some ((id.length : Int),
                    { added.2 with
                      fs := fwrite added.2.fs bytes size count entry.file answers.written })

/-- The entries a cache holds: the array at `cache->entries`, which has `entryCount`
entries, or no entry when `entries` is `NULL` and `entryCount` is 0; `none` when
`entries` is not the address of a live array of `entryCount` entries. -/
def cacheEntries (state : DumpState) : Option (List SurfaceDumpEntry_t) :=
  if state.cache.entries = 0 then
    (if state.cache.entryCount = 0 then some [] else none)
  else
    match state.arrays state.cache.entries with
    | none => none
    | some entries =>
      if (entries.length : Int) = state.cache.entryCount then some entries else none

/-- The file name the specification gives for a dump: identifier, stride "x" height
and type tag, with the dump path and "/" in front when a dump path is configured. -/
def specDumpFileName (dumpPath : Option (List Char)) (id : List Char) (stride height : Nat)
    (tag : String) : List Char :=
  (match dumpPath with
    | some d => d ++ "/".toList
    | none => []) ++
  id ++ "_".toList ++ (Nat.repr stride).toList ++ "x".toList ++ (Nat.repr height).toList
    ++ "_".toList ++ tag.toList ++ ".y".toList

/-- The type tag the specification gives: "8bit", "10bit", "12bit", "14bit" for the
unsigned types and "-16bit" for each signed type. -/
def specTypeTag (type : FixedPoint_t) : String :=
  if type = .FPU8 then "8bit"
  else if type = .FPU10 then "10bit"
  else if type = .FPU12 then "12bit"
  else if type = .FPU14 then "14bit"
  else "-16bit"

/-- A state with no file, no stream, no entry array and a zero-initialised cache, as
`surfaceDumpCacheInitialise` leaves it. -/
def emptyDumpState : DumpState :=
  { fs := { files := fun _ => none, streams := fun _ => none }
    arrays := fun _ => none
    cache := { entries := 0, entryCount := 0 } }

/-- A context with dumping enabled and no dump path. -/
def demoDumpContext : DumpContext := { dumpSurfaces := true, dumpPath := none }

/-- An owned 2 x 2 surface of 8-bit samples whose buffer is at address 32. -/
def demoSurfaceU8 : Surface_t :=
  { data := 32, type := .FPU8, width := 2, height := 2, stride := 2,
    interleaving := .ILNone, external := false }

/-- A memory interface in which the buffer of `demoSurfaceU8` holds 11, 12, 13, 14. -/
def demoMemoryU8 : Memory :=
  { live := fun a => if a = 32 then some [11, 12, 13, 14] else none, freed := [] }

/-- Answers of a call in which everything succeeds: stream 3, entry array at 100. -/
def demoAnswers : DumpAnswers :=
  { opened := some 3, reallocated := some 100, copied := true, written := 4 }

/-- The state after "frame0" has been dumped once with stride 1920, height 1080 and
type U8: one entry, whose stream 3 is open on the dump file. -/
def frame0State : DumpState :=
  { fs :=
      { files := fun p =>
          if p = "frame0_1920x1080_8bit.y".toList then some [5, 6, 7] else none
        streams := fun s => if s = 3 then some "frame0_1920x1080_8bit.y".toList else none }
    arrays := fun a =>
      if a = 100 then some [⟨3, "frame0".toList, .FPU8, 1920, 1080⟩] else none
    cache := { entries := 100, entryCount := 1 } }

/-- A state with an empty cache in which a file of the name `demoSurfaceU8` is dumped
to under the identifier "frame0" already holds three bytes. -/
def staleFileState : DumpState :=
  { fs :=
      { files := fun p => if p = "frame0_2x2_8bit.y".toList then some [1, 2, 3] else none
        streams := fun _ => none }
    arrays := fun _ => none
    cache := { entries := 0, entryCount := 0 } }

/-- Answers of a call in which `fopen` and `memoryReallocate` succeed (stream 4, entry
array moved to 200) and `strcpyDeep` fails. -/
def copyFailsAnswers : DumpAnswers :=
  { opened := some 4, reallocated := some 200, copied := false, written := 4 }

/-- A 2 x 1 plane of the high-precision type S8.7 whose buffer, at address 32, holds
the two samples as the bytes 1, 2, 3, 4. -/
def demoSurfaceS8 : Surface_t :=
  { data := 32, type := .FPS8, width := 2, height := 1, stride := 2,
    interleaving := .ILNone, external := false }

/-- A memory interface in which the buffer of `demoSurfaceS8` is live. -/
def demoMemoryS8 : Memory :=
  { live := fun a => if a = 32 then some [1, 2, 3, 4] else none, freed := [] }

/-- A copy blit that leaves the byte 9 in every sample of an 8-bit destination. -/
def demoBlit (memory : Memory) (_src dst : Surface_t) : Memory :=
  { memory with
    live := fun a =>
      if a = dst.data ∧ dst.data ≠ 0 then some (List.replicate (dst.stride * dst.height) 9)
      else memory.live a }

/-! ## Per-sample description of the command-buffer kernels -/

theorem vst1_s16_hit (mem : Plane) (dst : Nat) (v : Lanes) (a : Nat)
    (h1 : dst ≤ a) (h2 : a < dst + 4) : vst1_s16 mem dst v a = v (a - dst) := by
  simp [vst1_s16, h1, h2]

theorem vst1_s16_miss (mem : Plane) (dst : Nat) (v : Lanes) (a : Nat)
    (h : a < dst ∨ dst + 4 ≤ a) : vst1_s16 mem dst v a = mem a := by
  unfold vst1_s16
  rw [if_neg]
  omega

theorem storePixelsDDS_U8_hit (mem : Plane) (dst : Nat) (v : Lanes) (a : Nat)
    (h1 : dst ≤ a) (h2 : a < dst + 4) :
    storePixelsDDS_U8 mem dst v a = max 0 (min 255 (v (a - dst))) := by
  obtain ⟨k, rfl⟩ : ∃ k, a = dst + k := ⟨a - dst, by omega⟩
  have hk : k < 4 := by omega
  interval_cases k <;>
    simp [storePixelsDDS_U8, vst1_lane_u8, vqmovun_s16, vcombine_s16]

theorem storePixelsDDS_U8_miss (mem : Plane) (dst : Nat) (v : Lanes) (a : Nat)
    (h : a < dst ∨ dst + 4 ≤ a) : storePixelsDDS_U8 mem dst v a = mem a := by
  simp only [storePixelsDDS_U8, vst1_lane_u8]
  rw [if_neg (by omega), if_neg (by omega), if_neg (by omega), if_neg (by omega)]

theorem loadPixelsDDS_U8_lane (mem : Plane) (src k : Nat) (hk : k < 4) :
    loadPixelsDDS_U8 mem src k = mem (src + k) := by
  interval_cases k <;> simp [loadPixelsDDS_U8, vld1_lane_u8, vld1_dup_u8]

theorem loadResidualsDDS_lane (src : Nat → Int) (j i : Nat) (hj : j < 4) :
    (loadResidualsDDS src).val j i = src (4 * j + i) := by
  interval_cases j <;> simp [loadResidualsDDS, vld1_s16]

theorem forLoopFrom_rows_out (stride : Nat) (w : Plane → Nat → Nat → Plane)
    (hmiss : ∀ m p row a, (a < p ∨ p + 4 ≤ a) → w m p row a = m a)
    (n : Nat) : ∀ (r0 p0 : Nat) (mem : Plane) (a : Nat),
      (∀ j, j < n → a < p0 + j * stride ∨ p0 + j * stride + 4 ≤ a) →
      (forLoopFrom (rowBodyDDS stride w) n r0 ⟨p0, mem⟩).mem a = mem a := by
  induction n with
  | zero => intro r0 p0 mem a _; rfl
  | succ n ih =>
    intro r0 p0 mem a h
    show (forLoopFrom (rowBodyDDS stride w) n (r0 + 1) ⟨p0 + stride, w mem p0 r0⟩).mem a = mem a
    rw [ih]
    · apply hmiss
      have := h 0 (Nat.succ_pos n)
      simpa using this
    · intro j hj
      have := h (j + 1) (Nat.succ_lt_succ hj)
      rw [Nat.add_mul] at this
      omega

theorem forLoopFrom_rows_in (stride : Nat) (hS : 4 ≤ stride) (w : Plane → Nat → Nat → Plane)
    (f : Nat → Nat → Int → Int)
    (hhit : ∀ m p row a, p ≤ a → a < p + 4 → w m p row a = f row (a - p) (m a))
    (hmiss : ∀ m p row a, (a < p ∨ p + 4 ≤ a) → w m p row a = m a)
    (n : Nat) : ∀ (r0 p0 : Nat) (mem : Plane) (i j : Nat), i < 4 → j < n →
      (forLoopFrom (rowBodyDDS stride w) n r0 ⟨p0, mem⟩).mem (p0 + j * stride + i)
        = f (r0 + j) i (mem (p0 + j * stride + i)) := by
  induction n with
  | zero => intro r0 p0 mem i j _ hj; omega
  | succ n ih =>
    intro r0 p0 mem i j hi hj
    show (forLoopFrom (rowBodyDDS stride w) n (r0 + 1) ⟨p0 + stride, w mem p0 r0⟩).mem _ = _
    cases j with
    | zero =>
      rw [forLoopFrom_rows_out stride w hmiss]
      · rw [hhit _ _ _ _ (by omega) (by omega)]
        simp
      · intro j' _
        have : 0 ≤ j' * stride := Nat.zero_le _
        omega
    | succ j' =>
      have e : p0 + (j' + 1) * stride + i = (p0 + stride) + j' * stride + i := by
        rw [Nat.add_mul]; omega
      rw [e, ih (r0 + 1) (p0 + stride) _ i j' hi (by omega)]
      rw [hmiss _ _ _ _ (by have : 0 ≤ j' * stride := Nat.zero_le _; omega)]
      congr 1
      omega

theorem sampleAt_block (stride x y i j : Nat) :
    sampleAt stride (y + j) (x + i) = y * stride + x + j * stride + i := by
  unfold sampleAt; ring

theorem addDDS_UBase_eq_rows (args : ApplyCmdBufferArgs) (shift signOffset resultMax : Int)
    (mem : Plane) :
    addDDS_UBase args shift signOffset resultMax mem
      = (forLoopFrom (rowBodyDDS args.rowPixelStride
          (addDDS_UBase_row args.residuals shift signOffset resultMax)) 4 0
          ⟨args.y * args.rowPixelStride + args.x, mem⟩).mem := rfl

theorem addDDS_UBase_sample (args : ApplyCmdBufferArgs) (shift signOffset resultMax : Int)
    (mem : Plane) (i j : Nat) (hi : i < 4) (hj : j < 4) (hS : 4 ≤ args.rowPixelStride) :
    addDDS_UBase args shift signOffset resultMax mem
        (sampleAt args.rowPixelStride (args.y + j) (args.x + i))
      = addU_lane shift signOffset resultMax
          (mem (sampleAt args.rowPixelStride (args.y + j) (args.x + i)))
          (args.residuals (4 * j + i)) := by
  rw [sampleAt_block, addDDS_UBase_eq_rows]
  rw [forLoopFrom_rows_in args.rowPixelStride hS _
    (fun row k p => addU_lane shift signOffset resultMax p
      ((loadResidualsDDS args.residuals).val row k))
    _ _ 4 0 _ mem i j hi hj]
  · simp only [Nat.zero_add, loadResidualsDDS_lane _ _ _ hj]
  · intro m p row a h1 h2
    have e : p + (a - p) = a := by omega
    simp only [addDDS_UBase_row, vst1_s16_hit _ _ _ _ h1 h2, vmax_s16, vmin_s16, vadd_s16,
      vrshl_s16, vqadd_s16, vsub_s16, vshl_s16, vld1_s16, vdup_n_s16, addU_lane, e]
  · intro m p row a h
    exact vst1_s16_miss _ _ _ _ h

theorem addDDS_U8_eq_rows (args : ApplyCmdBufferArgs) (mem : Plane) :
    addDDS_U8 args mem
      = (forLoopFrom (rowBodyDDS args.rowPixelStride (addDDS_U8_row args.residuals)) 4 0
          ⟨args.y * args.rowPixelStride + args.x, mem⟩).mem := rfl

theorem addDDS_U8_sample (args : ApplyCmdBufferArgs)
    (mem : Plane) (i j : Nat) (hi : i < 4) (hj : j < 4) (hS : 4 ≤ args.rowPixelStride) :
    addDDS_U8 args mem (sampleAt args.rowPixelStride (args.y + j) (args.x + i))
      = addU8_lane (mem (sampleAt args.rowPixelStride (args.y + j) (args.x + i)))
          (args.residuals (4 * j + i)) := by
  rw [sampleAt_block, addDDS_U8_eq_rows]
  rw [forLoopFrom_rows_in args.rowPixelStride hS _
    (fun row k p => addU8_lane p ((loadResidualsDDS args.residuals).val row k))
    _ _ 4 0 _ mem i j hi hj]
  · simp only [Nat.zero_add, loadResidualsDDS_lane _ _ _ hj]
  · intro m p row a h1 h2
    have e : p + (a - p) = a := by omega
    have e4 : a - p < 4 := by omega
    simp only [addDDS_U8_row, storePixelsDDS_U8_hit _ _ _ _ h1 h2, vadd_s16,
      vrshl_s16, vqadd_s16, vsub_s16, vget_low_s16, vreinterpretq_s16_u16, vshll_n_u8,
      loadPixelsDDS_U8_lane _ _ _ e4, vdup_n_s16, addU8_lane, e]
  · intro m p row a h
    exact storePixelsDDS_U8_miss _ _ _ _ h

theorem addDDS_S16_eq_rows (args : ApplyCmdBufferArgs) (mem : Plane) :
    addDDS_S16 args mem
      = (forLoopFrom (rowBodyDDS args.rowPixelStride (addDDS_S16_row args.residuals)) 4 0
          ⟨args.y * args.rowPixelStride + args.x, mem⟩).mem := rfl

theorem addDDS_S16_sample (args : ApplyCmdBufferArgs)
    (mem : Plane) (i j : Nat) (hi : i < 4) (hj : j < 4) (hS : 4 ≤ args.rowPixelStride) :
    addDDS_S16 args mem (sampleAt args.rowPixelStride (args.y + j) (args.x + i))
      = sat16 (mem (sampleAt args.rowPixelStride (args.y + j) (args.x + i))
          + args.residuals (4 * j + i)) := by
  rw [sampleAt_block, addDDS_S16_eq_rows]
  rw [forLoopFrom_rows_in args.rowPixelStride hS _
    (fun row k p => sat16 (p + (loadResidualsDDS args.residuals).val row k))
    _ _ 4 0 _ mem i j hi hj]
  · simp only [Nat.zero_add, loadResidualsDDS_lane _ _ _ hj]
  · intro m p row a h1 h2
    have e : p + (a - p) = a := by omega
    simp only [addDDS_S16_row, vst1_s16_hit _ _ _ _ h1 h2, vqadd_s16, vld1_s16, e]
  · intro m p row a h
    exact vst1_s16_miss _ _ _ _ h

theorem setDDS_eq_rows (args : ApplyCmdBufferArgs) (mem : Plane) :
    setDDS args mem
      = (forLoopFrom (rowBodyDDS args.rowPixelStride (setDDS_row args.residuals)) 4 0
          ⟨args.y * args.rowPixelStride + args.x, mem⟩).mem := rfl

theorem setDDS_sample (args : ApplyCmdBufferArgs)
    (mem : Plane) (i j : Nat) (hi : i < 4) (hj : j < 4) (hS : 4 ≤ args.rowPixelStride) :
    setDDS args mem (sampleAt args.rowPixelStride (args.y + j) (args.x + i))
      = args.residuals (4 * j + i) := by
  rw [sampleAt_block, setDDS_eq_rows]
  rw [forLoopFrom_rows_in args.rowPixelStride hS _
    (fun row k _ => (loadResidualsDDS args.residuals).val row k)
    _ _ 4 0 _ mem i j hi hj]
  · simp only [Nat.zero_add, loadResidualsDDS_lane _ _ _ hj]
  · intro m p row a h1 h2
    simp only [setDDS_row, vst1_s16_hit _ _ _ _ h1 h2]
  · intro m p row a h
    exact vst1_s16_miss _ _ _ _ h

theorem addDD_UBase_sample (args : ApplyCmdBufferArgs) (shift signOffset resultMax : Int)
    (mem : Plane) (i j : Nat) (hi : i < 2) (hj : j < 2) (hS : 2 ≤ args.rowPixelStride) :
    addDD_UBase args shift signOffset resultMax mem
        (sampleAt args.rowPixelStride (args.y + j) (args.x + i))
      = addU_lane shift signOffset resultMax
          (mem (sampleAt args.rowPixelStride (args.y + j) (args.x + i)))
          (args.residuals (2 * j + i)) := by
  rw [sampleAt_block]
  simp only [addDD_UBase, forLoop, forLoopFrom, CBCKTUSizeDD]
  generalize args.y * args.rowPixelStride + args.x = pix
  have h0 : args.rowPixelStride ≠ 0 := by omega
  have h1 : args.rowPixelStride ≠ 1 := by omega
  interval_cases i <;> interval_cases j <;>
    simp [storePixelsDD, vst1_lane_s16, loadPixelsDD, vld1_lane_s16, vld1_dup_s16,
      vext_s16, loadResidualsDD, vld1_s16, vmax_s16, vmin_s16, vadd_s16, vrshl_s16, vqadd_s16,
      vsub_s16, vshl_s16, vdup_n_s16, addU_lane, h0, h1, Ne.symm h1] <;>
    (try split_ifs) <;> (try intros) <;> omega

theorem addDD_U8_sample (args : ApplyCmdBufferArgs)
    (mem : Plane) (i j : Nat) (hi : i < 2) (hj : j < 2) (hS : 2 ≤ args.rowPixelStride) :
    addDD_U8 args mem (sampleAt args.rowPixelStride (args.y + j) (args.x + i))
      = addU8_lane (mem (sampleAt args.rowPixelStride (args.y + j) (args.x + i)))
          (args.residuals (2 * j + i)) := by
  rw [sampleAt_block]
  simp only [addDD_U8, forLoop, forLoopFrom, CBCKTUSizeDD]
  generalize args.y * args.rowPixelStride + args.x = pix
  have h0 : args.rowPixelStride ≠ 0 := by omega
  have h1 : args.rowPixelStride ≠ 1 := by omega
  interval_cases i <;> interval_cases j <;>
    simp [storePixelsDD_U8, vst1_lane_u8, loadPixelsDD_U8, vld1_lane_u8, vld1_dup_u8,
      vqmovun_s16, vcombine_s16, vget_low_s16, vreinterpretq_s16_u16, vshll_n_u8,
      vext_s16, loadResidualsDD, vld1_s16, vadd_s16, vrshl_s16, vqadd_s16,
      vsub_s16, vdup_n_s16, addU8_lane, h0, h1, Ne.symm h1] <;>
    (try split_ifs) <;> (try intros) <;> omega

theorem addDD_S16_sample (args : ApplyCmdBufferArgs)
    (mem : Plane) (i j : Nat) (hi : i < 2) (hj : j < 2) (hS : 2 ≤ args.rowPixelStride) :
    addDD_S16 args mem (sampleAt args.rowPixelStride (args.y + j) (args.x + i))
      = sat16 (mem (sampleAt args.rowPixelStride (args.y + j) (args.x + i))
          + args.residuals (2 * j + i)) := by
  rw [sampleAt_block]
  simp only [addDD_S16, forLoop, forLoopFrom, CBCKTUSizeDD]
  generalize args.y * args.rowPixelStride + args.x = pix
  have h0 : args.rowPixelStride ≠ 0 := by omega
  have h1 : args.rowPixelStride ≠ 1 := by omega
  interval_cases i <;> interval_cases j <;>
    simp [storePixelsDD, vst1_lane_s16, loadPixelsDD, vld1_lane_s16, vld1_dup_s16,
      vext_s16, loadResidualsDD, vld1_s16, vqadd_s16, h0, h1, Ne.symm h1] <;>
    (try split_ifs) <;> (try intros) <;> omega

theorem setDD_sample (args : ApplyCmdBufferArgs)
    (mem : Plane) (i j : Nat) (hi : i < 2) (hj : j < 2) (hS : 2 ≤ args.rowPixelStride) :
    setDD args mem (sampleAt args.rowPixelStride (args.y + j) (args.x + i))
      = args.residuals (2 * j + i) := by
  rw [sampleAt_block]
  simp only [setDD]
  generalize args.y * args.rowPixelStride + args.x = pix
  have h0 : args.rowPixelStride ≠ 0 := by omega
  have h1 : args.rowPixelStride ≠ 1 := by omega
  interval_cases i <;> interval_cases j <;>
    simp [vst1_lane_s16, loadResidualsDD, vld1_s16, h0, h1, Ne.symm h1] <;>
    (intros; omega)

/-! ### Per-sample description of the blitter's SIMD loop bodies -/

theorem addU8_NEON_simd_sample (src dst : Plane) (dstPixel srcPixel0 k : Nat) (hk : k < 16) :
    addU8_NEON_simd src dst dstPixel srcPixel0 (srcPixel0 + 8) (dstPixel + k)
      = max 0 (min 255 (wrap16 (sat16 (sat16 (wrap16 (wrap16 (dst (dstPixel + k) * 2 ^ 7
          % 65536) - 16384) + src (srcPixel0 + k)) + 64) / 2 ^ 7 + 128))) := by
  have h1 : dstPixel ≤ dstPixel + k ∧ dstPixel + k < dstPixel + 16 := by omega
  have h2 : dstPixel + k - dstPixel = k := by omega
  simp only [addU8_NEON_simd, vst1q_u8, if_pos h1, h2, vcombine_u8]
  by_cases h8 : k < 8
  · simp only [if_pos h8, vqmovun_s16, vaddq_s16, vshrq_n_s16, vqaddq_s16, vsubq_s16,
      vreinterpretq_s16_u16, vshll_n_u8, vget_low_u8, vld1q_u8, vld1q_s16, vdupq_n_s16,
      VN_SHIFT_U8]
  · have e1 : dstPixel + (k - 8 + 8) = dstPixel + k := by omega
    have e2 : srcPixel0 + 8 + (k - 8) = srcPixel0 + k := by omega
    simp only [if_neg h8, vqmovun_s16, vaddq_s16, vshrq_n_s16, vqaddq_s16, vsubq_s16,
      vreinterpretq_s16_u16, vshll_n_u8, vget_high_u8, vld1q_u8, vld1q_s16, vdupq_n_s16,
      VN_SHIFT_U8, e1, e2]

theorem addUN_NEON_simd_sample (shift roundingOffset signOffset resultMax : Int)
    (src dst : Plane) (dstPixel0 srcPixel0 k : Nat) (hk : k < 16) :
    addUN_NEON_simd shift roundingOffset signOffset resultMax src dst
        dstPixel0 (dstPixel0 + 8) srcPixel0 (srcPixel0 + 8) (dstPixel0 + k)
      = max (min (wrap16 (vshl_lane (sat16 (sat16 (wrap16 (vshl_lane (dst (dstPixel0 + k)) shift
          - 16384) + src (srcPixel0 + k)) + roundingOffset)) (-shift) + signOffset))
          resultMax) 0 := by
  simp only [addUN_NEON_simd, vst1q_s16]
  by_cases h8 : k < 8
  · have h1 : ¬ (dstPixel0 + 8 ≤ dstPixel0 + k ∧ dstPixel0 + k < dstPixel0 + 8 + 8) := by omega
    have h2 : dstPixel0 ≤ dstPixel0 + k ∧ dstPixel0 + k < dstPixel0 + 8 := by omega
    have h3 : dstPixel0 + k - dstPixel0 = k := by omega
    simp only [if_neg h1, if_pos h2, h3, vmaxq_s16, vminq_s16, vaddq_s16, vshlq_s16,
      vqaddq_s16, vsubq_s16, vld1q_s16, vdupq_n_s16]
  · have h1 : dstPixel0 + 8 ≤ dstPixel0 + k ∧ dstPixel0 + k < dstPixel0 + 8 + 8 := by omega
    have h3 : dstPixel0 + 8 + (dstPixel0 + k - (dstPixel0 + 8)) = dstPixel0 + k := by omega
    have h4 : srcPixel0 + 8 + (dstPixel0 + k - (dstPixel0 + 8)) = srcPixel0 + k := by omega
    simp only [if_pos h1, h3, h4, vmaxq_s16, vminq_s16, vaddq_s16, vshlq_s16,
      vqaddq_s16, vsubq_s16, vld1q_s16, vdupq_n_s16]

theorem addS16_NEON_simd_sample (src dst : Plane) (dstPixel0 srcPixel0 k : Nat) (hk : k < 16) :
    addS16_NEON_simd src dst dstPixel0 (dstPixel0 + 8) srcPixel0 (srcPixel0 + 8) (dstPixel0 + k)
      = sat16 (dst (dstPixel0 + k) + src (srcPixel0 + k)) := by
  simp only [addS16_NEON_simd, vst1q_s16]
  by_cases h8 : k < 8
  · have h1 : ¬ (dstPixel0 + 8 ≤ dstPixel0 + k ∧ dstPixel0 + k < dstPixel0 + 8 + 8) := by omega
    have h2 : dstPixel0 ≤ dstPixel0 + k ∧ dstPixel0 + k < dstPixel0 + 8 := by omega
    have h3 : dstPixel0 + k - dstPixel0 = k := by omega
    simp only [if_neg h1, if_pos h2, h3, vqaddq_s16, vld1q_s16]
  · have h1 : dstPixel0 + 8 ≤ dstPixel0 + k ∧ dstPixel0 + k < dstPixel0 + 8 + 8 := by omega
    have h3 : dstPixel0 + 8 + (dstPixel0 + k - (dstPixel0 + 8)) = dstPixel0 + k := by omega
    have h4 : srcPixel0 + 8 + (dstPixel0 + k - (dstPixel0 + 8)) = srcPixel0 + k := by omega
    simp only [if_pos h1, h3, h4, vqaddq_s16, vld1q_s16]

/-! ### Lane arithmetic at the shifts in use -/

theorem vshl_lane_pos (a : Int) (n : Nat) : vshl_lane a n = wrap16 (a * 2 ^ n) := by
  simp [vshl_lane]

theorem vshl_lane_neg (a : Int) (n : Nat) (hn : 0 < n) : vshl_lane a (-(n : Int)) = a / 2 ^ n := by
  have : ¬ (0 : Int) ≤ -(n : Int) := by omega
  simp [vshl_lane, this]

theorem vrshl_lane_neg (a : Int) (n : Nat) (hn : 0 < n) :
    vrshl_lane a (-(n : Int)) = wrap16 ((a + 2 ^ (n - 1)) / 2 ^ n) := by
  have : ¬ (0 : Int) ≤ -(n : Int) := by omega
  simp [vrshl_lane, this]

theorem vshl_lane_1 (a : Int) : vshl_lane a 1 = wrap16 (a * 2) := by
  simpa using vshl_lane_pos a 1

theorem vshl_lane_3 (a : Int) : vshl_lane a 3 = wrap16 (a * 8) := by
  simpa using vshl_lane_pos a 3

theorem vshl_lane_5 (a : Int) : vshl_lane a 5 = wrap16 (a * 32) := by
  simpa using vshl_lane_pos a 5

theorem vshl_lane_m1 (a : Int) : vshl_lane a (-1) = a / 2 := by
  simpa using vshl_lane_neg a 1 (by decide)

theorem vshl_lane_m3 (a : Int) : vshl_lane a (-3) = a / 8 := by
  simpa using vshl_lane_neg a 3 (by decide)

theorem vshl_lane_m5 (a : Int) : vshl_lane a (-5) = a / 32 := by
  simpa using vshl_lane_neg a 5 (by decide)

theorem vrshl_lane_m1 (a : Int) : vrshl_lane a (-1) = wrap16 ((a + 1) / 2) := by
  simpa using vrshl_lane_neg a 1 (by decide)

theorem vrshl_lane_m3 (a : Int) : vrshl_lane a (-3) = wrap16 ((a + 4) / 8) := by
  simpa using vrshl_lane_neg a 3 (by decide)

theorem vrshl_lane_m5 (a : Int) : vrshl_lane a (-5) = wrap16 ((a + 16) / 32) := by
  simpa using vrshl_lane_neg a 5 (by decide)

theorem vrshl_lane_m7 (a : Int) : vrshl_lane a (-7) = wrap16 ((a + 64) / 128) := by
  simpa using vrshl_lane_neg a 7 (by decide)

theorem addKernel_sample (size : BlockSize) (d : Depth) (args : ApplyCmdBufferArgs)
    (mem : Plane) (i j : Nat) (hi : i < size.width) (hj : j < size.width)
    (hS : size.width ≤ args.rowPixelStride) :
    blockSample args (addKernel size d args mem) i j
      = addLane d (blockSample args mem i j) (args.residuals (size.width * j + i)) := by
  unfold blockSample
  cases size <;> cases d
  · exact addDD_U8_sample args mem i j hi hj hS
  · exact addDD_UBase_sample args _ _ _ mem i j hi hj hS
  · exact addDD_UBase_sample args _ _ _ mem i j hi hj hS
  · exact addDD_UBase_sample args _ _ _ mem i j hi hj hS
  · exact addDD_S16_sample args mem i j hi hj hS
  · exact addDDS_U8_sample args mem i j hi hj hS
  · exact addDDS_UBase_sample args _ _ _ mem i j hi hj hS
  · exact addDDS_UBase_sample args _ _ _ mem i j hi hj hS
  · exact addDDS_UBase_sample args _ _ _ mem i j hi hj hS
  · exact addDDS_S16_sample args mem i j hi hj hS

theorem blitAddSimd_sample_eq (d : Depth) (src dst : Plane) (dstPixel0 srcPixel0 k : Nat)
    (hk : k < 16) :
    blitAddSimd d src dst dstPixel0 (dstPixel0 + 8) srcPixel0 (srcPixel0 + 8) (dstPixel0 + k)
      = addLane d (dst (dstPixel0 + k)) (src (srcPixel0 + k)) := by
  cases d
  · show addU8_NEON_simd _ _ _ _ _ _ = _
    rw [addU8_NEON_simd_sample _ _ _ _ _ hk]
    simp only [addLane, addU8_lane, vrshl_lane_m7]
    norm_num
    unfold wrap16 sat16
    omega
  · show addUN_NEON_simd _ _ _ _ _ _ _ _ _ _ _ = _
    rw [addUN_NEON_simd_sample _ _ _ _ _ _ _ _ _ hk]
    simp only [addLane, addU_lane, vrshl_lane_m5, vshl_lane_5, vshl_lane_m5]
    unfold wrap16 sat16
    omega
  · show addUN_NEON_simd _ _ _ _ _ _ _ _ _ _ _ = _
    rw [addUN_NEON_simd_sample _ _ _ _ _ _ _ _ _ hk]
    simp only [addLane, addU_lane, vrshl_lane_m3, vshl_lane_3, vshl_lane_m3]
    unfold wrap16 sat16
    omega
  · show addUN_NEON_simd _ _ _ _ _ _ _ _ _ _ _ = _
    rw [addUN_NEON_simd_sample _ _ _ _ _ _ _ _ _ hk]
    simp only [addLane, addU_lane, vrshl_lane_m1, vshl_lane_1, vshl_lane_m1]
    unfold wrap16 sat16
    omega
  · show addS16_NEON_simd _ _ _ _ _ _ _ = _
    rw [addS16_NEON_simd_sample _ _ _ _ _ hk]
    rfl

/-! ### ADD with zero residuals, row by row -/

theorem addLane_zero (d : Depth) (p : Int) (hp : validSample d p) : addLane d p 0 = p := by
  unfold validSample at hp
  cases d
  · simp only [addLane, addU8_lane, vrshl_lane_m7, Depth.lo, Depth.hi] at hp ⊢
    norm_num
    unfold wrap16 sat16
    omega
  · simp only [addLane, addU_lane, vrshl_lane_m5, vshl_lane_5, Depth.lo, Depth.hi] at hp ⊢
    unfold wrap16 sat16
    omega
  · simp only [addLane, addU_lane, vrshl_lane_m3, vshl_lane_3, Depth.lo, Depth.hi] at hp ⊢
    unfold wrap16 sat16
    omega
  · simp only [addLane, addU_lane, vrshl_lane_m1, vshl_lane_1, Depth.lo, Depth.hi] at hp ⊢
    unfold wrap16 sat16
    omega
  · simp only [addLane, Depth.lo, Depth.hi] at hp ⊢
    unfold sat16
    omega

theorem forLoopFrom_rows_id (stride : Nat) (w : Plane → Nat → Nat → Plane) (mem : Plane)
    (n : Nat) : ∀ (r0 p0 : Nat), (∀ j, j < n → w mem (p0 + j * stride) (r0 + j) = mem) →
      (forLoopFrom (rowBodyDDS stride w) n r0 ⟨p0, mem⟩).mem = mem := by
  induction n with
  | zero => intro r0 p0 _; rfl
  | succ n ih =>
    intro r0 p0 h
    show (forLoopFrom (rowBodyDDS stride w) n (r0 + 1) ⟨p0 + stride, w mem p0 r0⟩).mem = mem
    have h0 := h 0 (Nat.succ_pos n)
    simp only [Nat.zero_mul, Nat.add_zero] at h0
    rw [h0]
    apply ih
    intro j hj
    have := h (j + 1) (Nat.succ_lt_succ hj)
    have e1 : p0 + (j + 1) * stride = p0 + stride + j * stride := by
      rw [Nat.add_mul]; omega
    have e2 : r0 + (j + 1) = r0 + 1 + j := by omega
    rw [e1, e2] at this
    exact this

theorem storePixelsDD_id (m : Plane) (p : Nat) (v : Lanes) (h0 : v 0 = m p)
    (h1 : v 1 = m (p + 1)) : storePixelsDD m p v = m := by
  funext a
  simp only [storePixelsDD, vst1_lane_s16]
  split_ifs with e1 e2
  · rw [h1, e1]
  · rw [h0, e2]
  · rfl

theorem storePixelsDD_U8_id (m : Plane) (p : Nat) (v : Lanes)
    (h0 : max 0 (min 255 (v 0)) = m p) (h1 : max 0 (min 255 (v 1)) = m (p + 1)) :
    storePixelsDD_U8 m p v = m := by
  funext a
  simp only [storePixelsDD_U8, vst1_lane_u8, vqmovun_s16, vcombine_s16]
  have c0 : (0 : Nat) < 4 := by decide
  have c1 : (1 : Nat) < 4 := by decide
  rw [if_pos c0, if_pos c1]
  split_ifs with e1 e2
  · rw [h1, e1]
  · rw [h0, e2]
  · rfl

theorem addDD_U8_row_id (m : Plane) (p : Nat) (res : Lanes)
    (h0 : addU8_lane (m p) (res 0) = m p) (h1 : addU8_lane (m (p + 1)) (res 1) = m (p + 1)) :
    addDD_U8_row m p res = m := by
  apply storePixelsDD_U8_id
  · simpa [addU8_lane, loadPixelsDD_U8, vld1_lane_u8, vld1_dup_u8, vadd_s16,
      vrshl_s16, vqadd_s16, vsub_s16, vget_low_s16, vreinterpretq_s16_u16, vshll_n_u8,
      vdup_n_s16] using h0
  · simpa [addU8_lane, loadPixelsDD_U8, vld1_lane_u8, vld1_dup_u8, vadd_s16,
      vrshl_s16, vqadd_s16, vsub_s16, vget_low_s16, vreinterpretq_s16_u16, vshll_n_u8,
      vdup_n_s16] using h1

theorem addDD_UBase_row_id (shift signOffset resultMax : Int) (m : Plane) (p : Nat)
    (res : Lanes) (h0 : addU_lane shift signOffset resultMax (m p) (res 0) = m p)
    (h1 : addU_lane shift signOffset resultMax (m (p + 1)) (res 1) = m (p + 1)) :
    addDD_UBase_row shift signOffset resultMax m p res = m := by
  apply storePixelsDD_id
  · simpa [addU_lane, loadPixelsDD, vld1_lane_s16, vld1_dup_s16, vadd_s16, vmax_s16,
      vmin_s16, vrshl_s16, vqadd_s16, vsub_s16, vshl_s16, vdup_n_s16] using h0
  · simpa [addU_lane, loadPixelsDD, vld1_lane_s16, vld1_dup_s16, vadd_s16, vmax_s16,
      vmin_s16, vrshl_s16, vqadd_s16, vsub_s16, vshl_s16, vdup_n_s16] using h1

theorem addDD_S16_row_id (m : Plane) (p : Nat) (res : Lanes)
    (h0 : sat16 (m p + res 0) = m p) (h1 : sat16 (m (p + 1) + res 1) = m (p + 1)) :
    addDD_S16_row m p res = m := by
  apply storePixelsDD_id
  · simpa [loadPixelsDD, vld1_lane_s16, vld1_dup_s16, vqadd_s16] using h0
  · simpa [loadPixelsDD, vld1_lane_s16, vld1_dup_s16, vqadd_s16] using h1

theorem addDD_zero_id (d : Depth) (args : ApplyCmdBufferArgs) (mem : Plane)
    (hz : ∀ k, k < 4 → args.residuals k = 0)
    (hv : ∀ i j, i < 2 → j < 2 → validSample d (blockSample args mem i j)) :
    addKernel .DD d args mem = mem := by
  have hv2 : ∀ i j, i < 2 → j < 2 → validSample d
      (mem (args.y * args.rowPixelStride + args.x + j * args.rowPixelStride + i)) := by
    intro i j hi hj
    have := hv i j hi hj
    rwa [blockSample, sampleAt_block] at this
  have z0 : loadResidualsDD args.residuals 0 = 0 := hz 0 (by decide)
  have z1 : loadResidualsDD args.residuals 1 = 0 := by
    simpa [loadResidualsDD, vld1_s16] using hz 1 (by decide)
  have z2 : vext_s16 (loadResidualsDD args.residuals) (loadResidualsDD args.residuals) 2 0
      = 0 := by
    simpa [loadResidualsDD, vld1_s16, vext_s16] using hz 2 (by decide)
  have z3 : vext_s16 (loadResidualsDD args.residuals) (loadResidualsDD args.residuals) 2 1
      = 0 := by
    simpa [loadResidualsDD, vld1_s16, vext_s16] using hz 3 (by decide)
  have l00 := addLane_zero d _ (hv2 0 0 (by decide) (by decide))
  have l10 := addLane_zero d _ (hv2 1 0 (by decide) (by decide))
  have l01 := addLane_zero d _ (hv2 0 1 (by decide) (by decide))
  have l11 := addLane_zero d _ (hv2 1 1 (by decide) (by decide))
  simp only [Nat.zero_mul, Nat.one_mul, Nat.add_zero] at l00 l10 l01 l11
  rw [← z0] at l00
  rw [← z1] at l10
  rw [← z2] at l01
  rw [← z3] at l11
  cases d
  · show addDD_U8_row (addDD_U8_row mem _ (loadResidualsDD args.residuals))
      (_ + args.rowPixelStride) (vext_s16 _ _ 2) = mem
    rw [addDD_U8_row_id mem _ _ l00 l10]
    exact addDD_U8_row_id mem _ _ l01 l11
  · show addDD_UBase_row 5 512 1023 (addDD_UBase_row 5 512 1023 mem _
      (loadResidualsDD args.residuals)) (_ + args.rowPixelStride) (vext_s16 _ _ 2) = mem
    rw [addDD_UBase_row_id _ _ _ mem _ _ l00 l10]
    exact addDD_UBase_row_id _ _ _ mem _ _ l01 l11
  · show addDD_UBase_row 3 2048 4095 (addDD_UBase_row 3 2048 4095 mem _
      (loadResidualsDD args.residuals)) (_ + args.rowPixelStride) (vext_s16 _ _ 2) = mem
    rw [addDD_UBase_row_id _ _ _ mem _ _ l00 l10]
    exact addDD_UBase_row_id _ _ _ mem _ _ l01 l11
  · show addDD_UBase_row 1 8192 16383 (addDD_UBase_row 1 8192 16383 mem _
      (loadResidualsDD args.residuals)) (_ + args.rowPixelStride) (vext_s16 _ _ 2) = mem
    rw [addDD_UBase_row_id _ _ _ mem _ _ l00 l10]
    exact addDD_UBase_row_id _ _ _ mem _ _ l01 l11
  · show addDD_S16_row (addDD_S16_row mem _ (loadResidualsDD args.residuals))
      (_ + args.rowPixelStride) (vext_s16 _ _ 2) = mem
    rw [addDD_S16_row_id mem _ _ l00 l10]
    exact addDD_S16_row_id mem _ _ l01 l11

theorem addDDS_UBase_row_id (residuals : Nat → Int) (shift signOffset resultMax : Int)
    (m : Plane) (p row : Nat)
    (h : ∀ k, k < 4 → addU_lane shift signOffset resultMax (m (p + k))
      ((loadResidualsDDS residuals).val row k) = m (p + k)) :
    addDDS_UBase_row residuals shift signOffset resultMax m p row = m := by
  funext a
  by_cases hit : p ≤ a ∧ a < p + 4
  · have e : p + (a - p) = a := by omega
    have := h (a - p) (by omega)
    rw [e] at this
    simpa only [addDDS_UBase_row, vst1_s16_hit _ _ _ _ hit.1 hit.2, vmax_s16, vmin_s16,
      vadd_s16, vrshl_s16, vqadd_s16, vsub_s16, vshl_s16, vld1_s16, vdup_n_s16, addU_lane, e]
      using this
  · exact vst1_s16_miss _ _ _ _ (by omega)

theorem addDDS_U8_row_id (residuals : Nat → Int) (m : Plane) (p row : Nat)
    (h : ∀ k, k < 4 → addU8_lane (m (p + k)) ((loadResidualsDDS residuals).val row k)
      = m (p + k)) :
    addDDS_U8_row residuals m p row = m := by
  funext a
  by_cases hit : p ≤ a ∧ a < p + 4
  · have e : p + (a - p) = a := by omega
    have e4 : a - p < 4 := by omega
    have := h (a - p) e4
    rw [e] at this
    simpa only [addDDS_U8_row, storePixelsDDS_U8_hit _ _ _ _ hit.1 hit.2, vadd_s16,
      vrshl_s16, vqadd_s16, vsub_s16, vget_low_s16, vreinterpretq_s16_u16, vshll_n_u8,
      loadPixelsDDS_U8_lane _ _ _ e4, vdup_n_s16, addU8_lane, e] using this
  · exact storePixelsDDS_U8_miss _ _ _ _ (by omega)

theorem addDDS_S16_row_id (residuals : Nat → Int) (m : Plane) (p row : Nat)
    (h : ∀ k, k < 4 → sat16 (m (p + k) + (loadResidualsDDS residuals).val row k) = m (p + k)) :
    addDDS_S16_row residuals m p row = m := by
  funext a
  by_cases hit : p ≤ a ∧ a < p + 4
  · have e : p + (a - p) = a := by omega
    have := h (a - p) (by omega)
    rw [e] at this
    simpa only [addDDS_S16_row, vst1_s16_hit _ _ _ _ hit.1 hit.2, vqadd_s16, vld1_s16, e]
      using this
  · exact vst1_s16_miss _ _ _ _ (by omega)

theorem addDDS_zero_id (d : Depth) (args : ApplyCmdBufferArgs) (mem : Plane)
    (hz : ∀ k, k < 16 → args.residuals k = 0)
    (hv : ∀ i j, i < 4 → j < 4 → validSample d (blockSample args mem i j)) :
    addKernel .DDS d args mem = mem := by
  have key : ∀ j k, j < 4 → k < 4 → addLane d
      (mem (args.y * args.rowPixelStride + args.x + j * args.rowPixelStride + k))
      ((loadResidualsDDS args.residuals).val (0 + j) k)
      = mem (args.y * args.rowPixelStride + args.x + j * args.rowPixelStride + k) := by
    intro j k hj hk
    have v := hv k j hk hj
    rw [blockSample, sampleAt_block] at v
    rw [Nat.zero_add, loadResidualsDDS_lane _ _ _ hj, hz _ (by omega)]
    exact addLane_zero d _ v
  cases d
  · show addDDS_U8 args mem = mem
    rw [addDDS_U8_eq_rows]
    apply forLoopFrom_rows_id
    intro j hj
    exact addDDS_U8_row_id _ _ _ _ (fun k hk => key j k hj hk)
  · show addDDS_UBase args 5 512 1023 mem = mem
    rw [addDDS_UBase_eq_rows]
    apply forLoopFrom_rows_id
    intro j hj
    exact addDDS_UBase_row_id _ _ _ _ _ _ _ (fun k hk => key j k hj hk)
  · show addDDS_UBase args 3 2048 4095 mem = mem
    rw [addDDS_UBase_eq_rows]
    apply forLoopFrom_rows_id
    intro j hj
    exact addDDS_UBase_row_id _ _ _ _ _ _ _ (fun k hk => key j k hj hk)
  · show addDDS_UBase args 1 8192 16383 mem = mem
    rw [addDDS_UBase_eq_rows]
    apply forLoopFrom_rows_id
    intro j hj
    exact addDDS_UBase_row_id _ _ _ _ _ _ _ (fun k hk => key j k hj hk)
  · show addDDS_S16 args mem = mem
    rw [addDDS_S16_eq_rows]
    apply forLoopFrom_rows_id
    intro j hj
    exact addDDS_S16_row_id _ _ _ _ (fun k hk => key j k hj hk)

/-! ### Range of the samples written by the unsigned ADD kernels -/

theorem forLoopFrom_rows_keep (R : Int → Prop) (stride : Nat) (w : Plane → Nat → Nat → Plane)
    (hw : ∀ m p row a, R (m a) → R (w m p row a))
    (n : Nat) : ∀ (r0 p0 : Nat) (mem : Plane) (a : Nat), R (mem a) →
      R ((forLoopFrom (rowBodyDDS stride w) n r0 ⟨p0, mem⟩).mem a) := by
  induction n with
  | zero => intro r0 p0 mem a h; exact h
  | succ n ih =>
    intro r0 p0 mem a h
    show R ((forLoopFrom (rowBodyDDS stride w) n (r0 + 1) ⟨p0 + stride, w mem p0 r0⟩).mem a)
    exact ih _ _ _ _ (hw _ _ _ _ h)

theorem forLoopFrom_rows_range (R : Int → Prop) (stride : Nat)
    (w : Plane → Nat → Nat → Plane)
    (hw : ∀ m p row a, R (m a) → R (w m p row a))
    (hhit : ∀ m p row a, p ≤ a → a < p + 4 → R (w m p row a))
    (n : Nat) : ∀ (r0 p0 : Nat) (mem : Plane) (i j : Nat), i < 4 → j < n →
      R ((forLoopFrom (rowBodyDDS stride w) n r0 ⟨p0, mem⟩).mem (p0 + j * stride + i)) := by
  induction n with
  | zero => intro r0 p0 mem i j _ hj; omega
  | succ n ih =>
    intro r0 p0 mem i j hi hj
    show R ((forLoopFrom (rowBodyDDS stride w) n (r0 + 1) ⟨p0 + stride, w mem p0 r0⟩).mem _)
    cases j with
    | zero =>
      apply forLoopFrom_rows_keep R stride w hw
      exact hhit _ _ _ _ (by omega) (by omega)
    | succ j' =>
      have e : p0 + (j' + 1) * stride + i = (p0 + stride) + j' * stride + i := by
        rw [Nat.add_mul]; omega
      rw [e]
      exact ih _ _ _ i j' hi (by omega)

theorem addU_lane_range (shift signOffset resultMax p r : Int) (h : 0 ≤ resultMax) :
    0 ≤ addU_lane shift signOffset resultMax p r ∧
      addU_lane shift signOffset resultMax p r ≤ resultMax := by
  unfold addU_lane
  omega

theorem addU8_lane_range (p r : Int) : 0 ≤ addU8_lane p r ∧ addU8_lane p r ≤ 255 := by
  unfold addU8_lane
  omega

theorem storePixelsDD_range (R : Int → Prop) (m : Plane) (p : Nat) (v : Lanes) (a : Nat)
    (h0 : R (v 0)) (h1 : R (v 1)) (h : R (m a) ∨ a = p ∨ a = p + 1) :
    R (storePixelsDD m p v a) := by
  simp only [storePixelsDD, vst1_lane_s16]
  split_ifs with e1 e2
  · exact h1
  · exact h0
  · rcases h with h | h | h
    · exact h
    · exact absurd h e2
    · exact absurd h e1

theorem addDD_UBase_row_range (shift signOffset resultMax : Int) (h : 0 ≤ resultMax)
    (m : Plane) (p : Nat) (res : Lanes) (a : Nat)
    (ha : (0 ≤ m a ∧ m a ≤ resultMax) ∨ a = p ∨ a = p + 1) :
    0 ≤ addDD_UBase_row shift signOffset resultMax m p res a ∧
      addDD_UBase_row shift signOffset resultMax m p res a ≤ resultMax := by
  apply storePixelsDD_range (fun v => 0 ≤ v ∧ v ≤ resultMax) _ _ _ _ _ _ ha
  · simp only [vmax_s16, vmin_s16, vdup_n_s16]; omega
  · simp only [vmax_s16, vmin_s16, vdup_n_s16]; omega

theorem addDD_U8_row_range (m : Plane) (p : Nat) (res : Lanes) (a : Nat)
    (ha : (0 ≤ m a ∧ m a ≤ 255) ∨ a = p ∨ a = p + 1) :
    0 ≤ addDD_U8_row m p res a ∧ addDD_U8_row m p res a ≤ 255 := by
  simp only [addDD_U8_row, storePixelsDD_U8, vst1_lane_u8, vqmovun_s16]
  split_ifs with e1 e2
  · omega
  · omega
  · rcases ha with h | h | h
    · exact h
    · exact absurd h e2
    · exact absurd h e1

theorem addDDS_UBase_row_range (residuals : Nat → Int) (shift signOffset resultMax : Int)
    (h : 0 ≤ resultMax) (m : Plane) (p row a : Nat)
    (ha : (0 ≤ m a ∧ m a ≤ resultMax) ∨ (p ≤ a ∧ a < p + 4)) :
    0 ≤ addDDS_UBase_row residuals shift signOffset resultMax m p row a ∧
      addDDS_UBase_row residuals shift signOffset resultMax m p row a ≤ resultMax := by
  by_cases hit : p ≤ a ∧ a < p + 4
  · simp only [addDDS_UBase_row, vst1_s16_hit _ _ _ _ hit.1 hit.2, vmax_s16, vmin_s16,
      vdup_n_s16]
    omega
  · rw [addDDS_UBase_row, vst1_s16_miss _ _ _ _ (by omega)]
    rcases ha with h | h
    · exact h
    · exact absurd h hit

theorem addDDS_U8_row_range (residuals : Nat → Int) (m : Plane) (p row a : Nat)
    (ha : (0 ≤ m a ∧ m a ≤ 255) ∨ (p ≤ a ∧ a < p + 4)) :
    0 ≤ addDDS_U8_row residuals m p row a ∧ addDDS_U8_row residuals m p row a ≤ 255 := by
  by_cases hit : p ≤ a ∧ a < p + 4
  · simp only [addDDS_U8_row, storePixelsDDS_U8_hit _ _ _ _ hit.1 hit.2]
    omega
  · rw [addDDS_U8_row, storePixelsDDS_U8_miss _ _ _ _ (by omega)]
    rcases ha with h | h
    · exact h
    · exact absurd h hit

theorem addDD_U8_eq_rows (args : ApplyCmdBufferArgs) (mem : Plane) :
    addDD_U8 args mem
      = addDD_U8_row (addDD_U8_row mem (args.y * args.rowPixelStride + args.x)
          (loadResidualsDD args.residuals))
          (args.y * args.rowPixelStride + args.x + args.rowPixelStride)
          (vext_s16 (loadResidualsDD args.residuals) (loadResidualsDD args.residuals) 2) := rfl

theorem addDD_UBase_eq_rows (args : ApplyCmdBufferArgs) (shift signOffset resultMax : Int)
    (mem : Plane) :
    addDD_UBase args shift signOffset resultMax mem
      = addDD_UBase_row shift signOffset resultMax
          (addDD_UBase_row shift signOffset resultMax mem
            (args.y * args.rowPixelStride + args.x) (loadResidualsDD args.residuals))
          (args.y * args.rowPixelStride + args.x + args.rowPixelStride)
          (vext_s16 (loadResidualsDD args.residuals) (loadResidualsDD args.residuals) 2) := rfl

theorem addDD_S16_eq_rows (args : ApplyCmdBufferArgs) (mem : Plane) :
    addDD_S16 args mem
      = addDD_S16_row (addDD_S16_row mem (args.y * args.rowPixelStride + args.x)
          (loadResidualsDD args.residuals))
          (args.y * args.rowPixelStride + args.x + args.rowPixelStride)
          (vext_s16 (loadResidualsDD args.residuals) (loadResidualsDD args.residuals) 2) := rfl

theorem addDD_range (d : Depth) (hd : d ≠ .S16) (args : ApplyCmdBufferArgs) (mem : Plane)
    (i j : Nat) (hi : i < 2) (hj : j < 2) :
    0 ≤ blockSample args (addKernel .DD d args mem) i j ∧
      blockSample args (addKernel .DD d args mem) i j ≤ d.hi := by
  rw [blockSample, sampleAt_block]
  have hrow : (j = 0 ∧ (i = 0 ∨ i = 1)) ∨ (j = 1 ∧ (i = 0 ∨ i = 1)) := by omega
  cases d
  · show 0 ≤ addDD_U8 args mem _ ∧ addDD_U8 args mem _ ≤ 255
    rw [addDD_U8_eq_rows]
    apply addDD_U8_row_range
    rcases hrow with ⟨rfl, h⟩ | ⟨rfl, h⟩
    · left
      apply addDD_U8_row_range
      right
      omega
    · right
      omega
  · show 0 ≤ addDD_UBase args 5 512 1023 mem _ ∧ addDD_UBase args 5 512 1023 mem _ ≤ 1023
    rw [addDD_UBase_eq_rows]
    apply addDD_UBase_row_range _ _ _ (by decide)
    rcases hrow with ⟨rfl, h⟩ | ⟨rfl, h⟩
    · left
      apply addDD_UBase_row_range _ _ _ (by decide)
      right
      omega
    · right
      omega
  · show 0 ≤ addDD_UBase args 3 2048 4095 mem _ ∧ addDD_UBase args 3 2048 4095 mem _ ≤ 4095
    rw [addDD_UBase_eq_rows]
    apply addDD_UBase_row_range _ _ _ (by decide)
    rcases hrow with ⟨rfl, h⟩ | ⟨rfl, h⟩
    · left
      apply addDD_UBase_row_range _ _ _ (by decide)
      right
      omega
    · right
      omega
  · show 0 ≤ addDD_UBase args 1 8192 16383 mem _ ∧ addDD_UBase args 1 8192 16383 mem _ ≤ 16383
    rw [addDD_UBase_eq_rows]
    apply addDD_UBase_row_range _ _ _ (by decide)
    rcases hrow with ⟨rfl, h⟩ | ⟨rfl, h⟩
    · left
      apply addDD_UBase_row_range _ _ _ (by decide)
      right
      omega
    · right
      omega
  · exact absurd rfl hd

theorem addDDS_range (d : Depth) (hd : d ≠ .S16) (args : ApplyCmdBufferArgs) (mem : Plane)
    (i j : Nat) (hi : i < 4) (hj : j < 4) :
    0 ≤ blockSample args (addKernel .DDS d args mem) i j ∧
      blockSample args (addKernel .DDS d args mem) i j ≤ d.hi := by
  rw [blockSample, sampleAt_block]
  cases d
  · show 0 ≤ addDDS_U8 args mem _ ∧ addDDS_U8 args mem _ ≤ 255
    rw [addDDS_U8_eq_rows]
    exact forLoopFrom_rows_range (fun v => 0 ≤ v ∧ v ≤ 255) _ _
      (fun m p row a h => addDDS_U8_row_range _ m p row a (Or.inl h))
      (fun m p row a h1 h2 => addDDS_U8_row_range _ m p row a (Or.inr ⟨h1, h2⟩))
      4 0 _ mem i j hi hj
  · show 0 ≤ addDDS_UBase args 5 512 1023 mem _ ∧ addDDS_UBase args 5 512 1023 mem _ ≤ 1023
    rw [addDDS_UBase_eq_rows]
    exact forLoopFrom_rows_range (fun v => 0 ≤ v ∧ v ≤ 1023) _ _
      (fun m p row a h => addDDS_UBase_row_range _ _ _ _ (by decide) m p row a (Or.inl h))
      (fun m p row a h1 h2 =>
        addDDS_UBase_row_range _ _ _ _ (by decide) m p row a (Or.inr ⟨h1, h2⟩))
      4 0 _ mem i j hi hj
  · show 0 ≤ addDDS_UBase args 3 2048 4095 mem _ ∧ addDDS_UBase args 3 2048 4095 mem _ ≤ 4095
    rw [addDDS_UBase_eq_rows]
    exact forLoopFrom_rows_range (fun v => 0 ≤ v ∧ v ≤ 4095) _ _
      (fun m p row a h => addDDS_UBase_row_range _ _ _ _ (by decide) m p row a (Or.inl h))
      (fun m p row a h1 h2 =>
        addDDS_UBase_row_range _ _ _ _ (by decide) m p row a (Or.inr ⟨h1, h2⟩))
      4 0 _ mem i j hi hj
  · show 0 ≤ addDDS_UBase args 1 8192 16383 mem _ ∧
      addDDS_UBase args 1 8192 16383 mem _ ≤ 16383
    rw [addDDS_UBase_eq_rows]
    exact forLoopFrom_rows_range (fun v => 0 ≤ v ∧ v ≤ 16383) _ _
      (fun m p row a h => addDDS_UBase_row_range _ _ _ _ (by decide) m p row a (Or.inl h))
      (fun m p row a h1 h2 =>
        addDDS_UBase_row_range _ _ _ _ (by decide) m p row a (Or.inr ⟨h1, h2⟩))
      4 0 _ mem i j hi hj
  · exact absurd rfl hd

/-! ### The numeric rule of the specification -/

theorem addLane_eq_rule (d : Depth) (hd : d ≠ .S16) (p r : Int) (hp : validSample d p) :
    addLane d p r = addRuleU d.bits p r := by
  unfold validSample at hp
  cases d
  · simp only [addLane, addU8_lane, vrshl_lane_m7, Depth.lo, Depth.hi, addRuleU, Depth.bits,
      clamp] at hp ⊢
    norm_num
    unfold wrap16 sat16
    omega
  · simp only [addLane, addU_lane, vrshl_lane_m5, vshl_lane_5, Depth.lo, Depth.hi, addRuleU,
      Depth.bits, clamp] at hp ⊢
    norm_num
    unfold wrap16 sat16
    omega
  · simp only [addLane, addU_lane, vrshl_lane_m3, vshl_lane_3, Depth.lo, Depth.hi, addRuleU,
      Depth.bits, clamp] at hp ⊢
    norm_num
    unfold wrap16 sat16
    omega
  · simp only [addLane, addU_lane, vrshl_lane_m1, vshl_lane_1, Depth.lo, Depth.hi, addRuleU,
      Depth.bits, clamp] at hp ⊢
    norm_num
    unfold wrap16 sat16
    omega
  · exact absurd rfl hd

/-! ### SET and SET-ZERO -/

theorem not_inBlock_rows (args : ApplyCmdBufferArgs) (a : Nat) (h : ¬ inBlock args 4 a)
    (j : Nat) (hj : j < 4) :
    a < args.y * args.rowPixelStride + args.x + j * args.rowPixelStride ∨
      args.y * args.rowPixelStride + args.x + j * args.rowPixelStride + 4 ≤ a := by
  by_contra hc
  apply h
  refine ⟨a - (args.y * args.rowPixelStride + args.x + j * args.rowPixelStride), ?_, j, hj, ?_⟩
  · omega
  · rw [sampleAt_block]
    omega

theorem not_inBlock_DD (args : ApplyCmdBufferArgs) (a : Nat) (h : ¬ inBlock args 2 a) :
    a ≠ args.y * args.rowPixelStride + args.x ∧
    a ≠ args.y * args.rowPixelStride + args.x + 1 ∧
    a ≠ args.y * args.rowPixelStride + args.x + args.rowPixelStride ∧
    a ≠ args.y * args.rowPixelStride + args.x + args.rowPixelStride + 1 := by
  refine ⟨?_, ?_, ?_, ?_⟩ <;> intro e <;> apply h
  · exact ⟨0, by decide, 0, by decide, by rw [sampleAt_block]; omega⟩
  · exact ⟨1, by decide, 0, by decide, by rw [sampleAt_block]; omega⟩
  · exact ⟨0, by decide, 1, by decide, by rw [sampleAt_block]; omega⟩
  · exact ⟨1, by decide, 1, by decide, by rw [sampleAt_block]; omega⟩

theorem setDD_frame (args : ApplyCmdBufferArgs) (mem : Plane) (a : Nat)
    (h : ¬ inBlock args 2 a) : setDD args mem a = mem a := by
  obtain ⟨h1, h2, h3, h4⟩ := not_inBlock_DD args a h
  simp only [setDD, vst1_lane_s16, if_neg h1, if_neg h2, if_neg h3, if_neg h4]

theorem setZeroDD_frame (args : ApplyCmdBufferArgs) (mem : Plane) (a : Nat)
    (h : ¬ inBlock args 2 a) : setZeroDD args mem a = mem a := by
  obtain ⟨h1, h2, h3, h4⟩ := not_inBlock_DD args a h
  simp only [setZeroDD, storePixelsDD, vst1_lane_s16, if_neg h1, if_neg h2, if_neg h3,
    if_neg h4]

theorem setZeroDD_sample (args : ApplyCmdBufferArgs) (mem : Plane) (i j : Nat)
    (hi : i < 2) (hj : j < 2) : blockSample args (setZeroDD args mem) i j = 0 := by
  rw [blockSample, sampleAt_block]
  simp only [setZeroDD, storePixelsDD, vst1_lane_s16, vmov_n_s16]
  have : (j = 0 ∨ j = 1) ∧ (i = 0 ∨ i = 1) := by omega
  split_ifs with e1 e2 e3 e4
  · rfl
  · rfl
  · rfl
  · rfl
  · exfalso
    rcases this with ⟨rfl | rfl, rfl | rfl⟩ <;> omega

theorem setDDS_frame_inBlock (args : ApplyCmdBufferArgs) (mem : Plane) (a : Nat)
    (h : ¬ inBlock args 4 a) : setDDS args mem a = mem a := by
  rw [setDDS_eq_rows]
  apply forLoopFrom_rows_out
  · intro m p row a h
    exact vst1_s16_miss _ _ _ _ h
  · exact not_inBlock_rows args a h

theorem setZeroDDS_frame (args : ApplyCmdBufferArgs) (mem : Plane) (a : Nat)
    (h : ¬ inBlock args 4 a) : setZeroDDS args mem a = mem a := by
  have r0 := not_inBlock_rows args a h 0 (by decide)
  have r1 := not_inBlock_rows args a h 1 (by decide)
  have r2 := not_inBlock_rows args a h 2 (by decide)
  have r3 := not_inBlock_rows args a h 3 (by decide)
  simp only [setZeroDDS]
  rw [vst1_s16_miss _ _ _ _ (by omega), vst1_s16_miss _ _ _ _ (by omega),
    vst1_s16_miss _ _ _ _ (by omega), vst1_s16_miss _ _ _ _ (by omega)]

theorem setZeroDDS_sample (args : ApplyCmdBufferArgs) (mem : Plane) (i j : Nat)
    (hi : i < 4) (hj : j < 4) : blockSample args (setZeroDDS args mem) i j = 0 := by
  rw [blockSample, sampleAt_block]
  simp only [setZeroDDS, vst1_s16, vmov_n_s16]
  split_ifs with e1 e2 e3 e4
  · rfl
  · rfl
  · rfl
  · rfl
  · exfalso
    interval_cases j <;> omega

/-! ## The claims -/

/-- C1. Cross-path numeric equivalence: for every depth `d` (U8, U10, U12, U14 and
signed 16 bit), the sample the 4x4 command-buffer ADD kernel stores at column `x + i`,
row `y + j` of its block equals the sample one iteration of the blitter's SIMD loop for
the same depth stores at lane `k`, whenever the two are given the same destination sample
and the same residual.  The equality holds for every sample and residual value, hence
for every valid sample and every `int16_t` residual. -/
theorem add_cmdbuffer_matches_blit (d : Depth) (args : ApplyCmdBufferArgs)
    (mem src dst : Plane) (dstPixel0 srcPixel0 i j k : Nat)
    (hi : i < 4) (hj : j < 4) (hk : k < 16) (hS : 4 ≤ args.rowPixelStride)
    (hp : dst (dstPixel0 + k) = blockSample args mem i j)
    (hr : src (srcPixel0 + k) = args.residuals (4 * j + i)) :
    blockSample args (addKernel .DDS d args mem) i j
      = blitAddSimd d src dst dstPixel0 (dstPixel0 + 8) srcPixel0 (srcPixel0 + 8)
          (dstPixel0 + k) := by
  rw [addKernel_sample .DDS d args mem i j hi hj hS, blitAddSimd_sample_eq d _ _ _ _ _ hk,
    hp, hr]
  rfl

theorem add_cmdbuffer_matches_blit_witness :
    (4 ≤ demoArgs.rowPixelStride ∧
      demoPlane (21 + 6) = blockSample demoArgs demoPlane 2 1 ∧
      demoArgs.residuals (0 + 6) = demoArgs.residuals (4 * 1 + 2)) ∧
    blockSample demoArgs (addKernel .DDS .U10 demoArgs demoPlane) 2 1
      = blitAddSimd .U10 demoArgs.residuals demoPlane 21 (21 + 8) 0 (0 + 8) (21 + 6) :=
  ⟨⟨by decide, rfl, rfl⟩,
    add_cmdbuffer_matches_blit .U10 demoArgs demoPlane demoArgs.residuals demoPlane 21 0 2 1 6
      (by decide) (by decide) (by decide) (by decide) rfl rfl⟩

/-- C2. ADD with all-zero residuals is the identity: for both block sizes and every
depth, if the residuals of the command are all zero and the samples of the block are
valid for the depth, the ADD kernel returns the destination plane unchanged (every
sample, inside and outside the block). -/
theorem add_zero_residuals_identity (size : BlockSize) (d : Depth)
    (args : ApplyCmdBufferArgs) (mem : Plane)
    (hz : ∀ k, k < size.width * size.width → args.residuals k = 0)
    (hv : ∀ i j, i < size.width → j < size.width → validSample d (blockSample args mem i j)) :
    addKernel size d args mem = mem := by
  cases size
  · exact addDD_zero_id d args mem hz hv
  · exact addDDS_zero_id d args mem hz hv

theorem add_zero_residuals_identity_witness :
    (∀ k, k < 4 * 4 → demoArgsZero.residuals k = 0) ∧
    (∀ i j, i < 4 → j < 4 → validSample .U10 (blockSample demoArgsZero demoPlane i j)) ∧
    addKernel .DDS .U10 demoArgsZero demoPlane = demoPlane :=
  have hv : ∀ i j, i < 4 → j < 4 → validSample .U10 (blockSample demoArgsZero demoPlane i j) := by
    intro i j _ _
    simp only [validSample, blockSample, demoPlane, Depth.lo, Depth.hi]
    omega
  ⟨fun _ _ => rfl, hv,
    add_zero_residuals_identity .DDS .U10 demoArgsZero demoPlane (fun _ _ => rfl) hv⟩

/-- C3. ADD onto an unsigned `N`-bit destination follows the numeric rule of the
specification: for both block sizes and `N` in 8, 10, 12, 14, the kernel stores
`addRuleU N p r` at column `x + i`, row `y + j` of the block, where `p` is the valid
sample found there and `r` the residual paired with it. -/
theorem add_unsigned_follows_rule (size : BlockSize) (d : Depth) (hd : d ≠ .S16)
    (args : ApplyCmdBufferArgs) (mem : Plane) (i j : Nat)
    (hi : i < size.width) (hj : j < size.width) (hS : size.width ≤ args.rowPixelStride)
    (hv : validSample d (blockSample args mem i j)) :
    blockSample args (addKernel size d args mem) i j
      = addRuleU d.bits (blockSample args mem i j) (args.residuals (size.width * j + i)) := by
  rw [addKernel_sample size d args mem i j hi hj hS]
  exact addLane_eq_rule d hd _ _ hv

theorem add_unsigned_follows_rule_witness :
    (validSample .U12 (blockSample demoArgs demoPlane 1 1)) ∧
    blockSample demoArgs (addKernel .DD .U12 demoArgs demoPlane) 1 1
      = addRuleU 12 (blockSample demoArgs demoPlane 1 1) (demoArgs.residuals 3) :=
  ⟨by decide,
    add_unsigned_follows_rule .DD .U12 (by decide) demoArgs demoPlane 1 1
      (by decide) (by decide) (by decide) (by decide)⟩

/-- C4. ADD onto a signed 16-bit destination is a direct saturated addition: both
`addDD_S16` and `addDDS_S16` store `max (-32768) (min 32767 (p + r))` at column `x + i`,
row `y + j` of the block, `p` being the sample found there and `r` its residual. -/
theorem add_signed_is_saturated_sum (size : BlockSize) (args : ApplyCmdBufferArgs)
    (mem : Plane) (i j : Nat) (hi : i < size.width) (hj : j < size.width)
    (hS : size.width ≤ args.rowPixelStride) :
    blockSample args (addKernel size .S16 args mem) i j
      = max (-32768) (min 32767
          (blockSample args mem i j + args.residuals (size.width * j + i))) := by
  rw [addKernel_sample size .S16 args mem i j hi hj hS]
  rfl

theorem add_signed_is_saturated_sum_witness :
    blockSample demoArgs (addKernel .DDS .S16 demoArgs demoPlane) 3 2
      = max (-32768) (min 32767 (blockSample demoArgs demoPlane 3 2 + demoArgs.residuals 11)) :=
  add_signed_is_saturated_sum .DDS demoArgs demoPlane 3 2 (by decide) (by decide) (by decide)

/-- C5. The result of an unsigned ADD is always a valid sample: for both block sizes
and `N` in 8, 10, 12, 14, whatever the destination plane and the residuals hold, every
sample of the block lies in `[0, 2 ^ N - 1]` after the kernel has run. -/
theorem add_unsigned_result_valid (size : BlockSize) (d : Depth) (hd : d ≠ .S16)
    (args : ApplyCmdBufferArgs) (mem : Plane) (i j : Nat)
    (hi : i < size.width) (hj : j < size.width) :
    0 ≤ blockSample args (addKernel size d args mem) i j ∧
      blockSample args (addKernel size d args mem) i j ≤ 2 ^ d.bits - 1 := by
  have e : d.hi = 2 ^ d.bits - 1 := by
    cases d <;> first | rfl | exact absurd rfl hd
  rw [← e]
  cases size
  · exact addDD_range d hd args mem i j hi hj
  · exact addDDS_range d hd args mem i j hi hj

theorem add_unsigned_result_valid_witness :
    0 ≤ blockSample demoArgs (addKernel .DDS .U10 demoArgs (fun _ => 30000)) 3 3 ∧
      blockSample demoArgs (addKernel .DDS .U10 demoArgs (fun _ => 30000)) 3 3 ≤ 2 ^ 10 - 1 :=
  add_unsigned_result_valid .DDS .U10 (by decide) demoArgs (fun _ => 30000) 3 3
    (by decide) (by decide)

/-! ### Residual post-processing -/

theorem deblockWeigh_eq (w : Nat) (r : Int) :
    deblockWeigh w r = wrap16 ((w : Int) * r / 16) := by
  unfold deblockWeigh
  have e : (w : Int) * (r % 4294967296) % 4294967296 = (w : Int) * r % 4294967296 := by
    rw [Int.mul_emod, Int.emod_emod_of_dvd _ (dvd_refl _), ← Int.mul_emod]
  rw [e]
  generalize (w : Int) * r = z
  unfold wrap16
  omega

theorem wrap16_idem (z : Int) : wrap16 (wrap16 z) = wrap16 z := by
  unfold wrap16
  omega

theorem deblockAt_apply (w : Nat) (residuals : Nat → Int) (k i : Nat) :
    deblockAt w residuals k i
      = if i = k then deblockWeigh w (residuals i) else residuals i := by
  unfold deblockAt setAt
  split_ifs with h
  · rw [h]
  · rfl

theorem deblockResiduals_enabled (deblock : Deblock_t) (b : Nat → Int)
    (he : deblock.enabled = true) :
    ∃ out, deblockResiduals deblock b = some out ∧
      (∀ i, i ∈ [0, 5, 10, 15] → out i = deblockWeigh deblock.corner (b i)) ∧
      (∀ i, i ∈ [1, 2, 4, 7, 8, 11, 13, 14] → out i = deblockWeigh deblock.side (b i)) ∧
      (∀ i, i ∉ [0, 5, 10, 15, 1, 2, 4, 7, 8, 11, 13, 14] → out i = b i) := by
  refine ⟨_, by rw [deblockResiduals, if_pos he], ?_, ?_, ?_⟩
  · intro i hi
    simp only [List.mem_cons, List.mem_singleton, List.not_mem_nil, or_false] at hi
    rcases hi with rfl | rfl | rfl | rfl <;> simp [deblockAt_apply]
  · intro i hi
    simp only [List.mem_cons, List.mem_singleton, List.not_mem_nil, or_false] at hi
    rcases hi with rfl | rfl | rfl | rfl | rfl | rfl | rfl | rfl <;> simp [deblockAt_apply]
  · intro i hi
    simp only [List.mem_cons, List.mem_singleton, List.not_mem_nil, or_false, not_or] at hi
    obtain ⟨h0, h5, h10, h15, h1, h2, h4, h7, h8, h11, h13, h14⟩ := hi
    simp only [deblockAt_apply, if_neg h0, if_neg h5, if_neg h10, if_neg h15, if_neg h1,
      if_neg h2, if_neg h4, if_neg h7, if_neg h8, if_neg h11, if_neg h13, if_neg h14]

/-- C6. With deblocking enabled, `deblockResiduals` returns a block whose entries at
indices 0, 5, 10, 15 are `floor (corner * b[i] / 16)`, whose entries at indices 1, 2, 4,
7, 8, 11, 13, 14 are `floor (side * b[i] / 16)`, each reduced modulo `2 ^ 16` into the
`int16_t` range, and whose entries at indices 3, 6, 9, 12 equal `b[i]`; this holds for
all weights and residuals, in particular for 8-bit weights and `int16_t` residuals. -/
theorem deblockResiduals_weights (deblock : Deblock_t) (b : Nat → Int)
    (he : deblock.enabled = true) :
    ∃ out, deblockResiduals deblock b = some out ∧
      (∀ i, i ∈ [0, 5, 10, 15] → out i = wrap16 ((deblock.corner : Int) * b i / 16)) ∧
      (∀ i, i ∈ [1, 2, 4, 7, 8, 11, 13, 14] →
        out i = wrap16 ((deblock.side : Int) * b i / 16)) ∧
      (∀ i, i ∈ [3, 6, 9, 12] → out i = b i) := by
  obtain ⟨out, h, hc, hs, hn⟩ := deblockResiduals_enabled deblock b he
  refine ⟨out, h, ?_, ?_, ?_⟩
  · intro i hi
    rw [hc i hi, deblockWeigh_eq]
  · intro i hi
    rw [hs i hi, deblockWeigh_eq]
  · intro i hi
    apply hn
    simp only [List.mem_cons, List.mem_singleton, List.not_mem_nil, or_false] at hi
    rcases hi with rfl | rfl | rfl | rfl <;> decide

theorem deblockResiduals_weights_witness :
    ∃ out, deblockResiduals { enabled := true, corner := 11, side := 13 } demoBlock = some out ∧
      (∀ i, i ∈ [0, 5, 10, 15] → out i = wrap16 (((11 : Nat) : Int) * demoBlock i / 16)) ∧
      (∀ i, i ∈ [1, 2, 4, 7, 8, 11, 13, 14] →
        out i = wrap16 (((13 : Nat) : Int) * demoBlock i / 16)) ∧
      (∀ i, i ∈ [3, 6, 9, 12] → out i = demoBlock i) :=
  deblockResiduals_weights { enabled := true, corner := 11, side := 13 } demoBlock rfl

/-- C7. Deblocking with the neutral weight is idempotent: with `corner = side = 16`,
applying `deblockResiduals` to its own output gives, on the 12 affected positions, the
values of the first application, and the interior positions 3, 6, 9, 12 keep their
input values through both applications. -/
theorem deblockResiduals_neutral_idempotent (b : Nat → Int) :
    ∃ once twice,
      deblockResiduals { enabled := true, corner := 16, side := 16 } b = some once ∧
      deblockResiduals { enabled := true, corner := 16, side := 16 } once = some twice ∧
      (∀ i, i ∈ [0, 5, 10, 15, 1, 2, 4, 7, 8, 11, 13, 14] → twice i = once i) ∧
      (∀ i, i ∈ [3, 6, 9, 12] → once i = b i ∧ twice i = b i) := by
  obtain ⟨once, h1, hc1, hs1, hn1⟩ :=
    deblockResiduals_enabled { enabled := true, corner := 16, side := 16 } b rfl
  obtain ⟨twice, h2, hc2, hs2, hn2⟩ :=
    deblockResiduals_enabled { enabled := true, corner := 16, side := 16 } once rfl
  have key : ∀ r : Int, deblockWeigh 16 r = wrap16 r := by
    intro r
    rw [deblockWeigh_eq]
    congr 1
    omega
  refine ⟨once, twice, h1, h2, ?_, ?_⟩
  · intro i hi
    have hcs : i ∈ [0, 5, 10, 15] ∨ i ∈ [1, 2, 4, 7, 8, 11, 13, 14] := by
      simp only [List.mem_cons, List.mem_singleton, List.not_mem_nil, or_false] at hi ⊢
      omega
    rcases hcs with h | h
    · rw [hc2 i h, hc1 i h, key, key, wrap16_idem]
    · rw [hs2 i h, hs1 i h, key, key, wrap16_idem]
  · intro i hi
    have hnot : i ∉ [0, 5, 10, 15, 1, 2, 4, 7, 8, 11, 13, 14] := by
      simp only [List.mem_cons, List.mem_singleton, List.not_mem_nil, or_false] at hi ⊢
      omega
    exact ⟨hn1 i hnot, by rw [hn2 i hnot, hn1 i hnot]⟩

theorem ediv_pow_isS16 (c : Int) (n : Nat) (h : isS16 c) : isS16 (c / 2 ^ n) := by
  have hpos : (0 : Int) < 2 ^ n := by positivity
  have hone : (1 : Int) ≤ 2 ^ n := hpos
  obtain ⟨h1, h2⟩ := h
  constructor
  · rw [Int.le_ediv_iff_mul_le hpos]
    nlinarith
  · have : c / 2 ^ n < 32768 := by
      rw [Int.ediv_lt_iff_lt_mul hpos]
      nlinarith
    omega

/-- C8. `stripUserData` at LOQ1 with user data enabled rewrites the designated
coefficient: with `c = coeffs[layerIndex]` an `int16_t`, `c' = c >> shift` and `sign`
being -1 when the lowest bit of `c'` is 1 and +1 otherwise, the new value of
`coeffs[layerIndex]` is `(c' >> 1) * sign`. -/
theorem stripUserData_rewrites (userData : UserDataConfig_t) (coeffs : Nat → Int)
    (he : userData.enabled = true) (hc : isS16 (coeffs userData.layerIndex)) :
    stripUserData .LOQ1 userData coeffs userData.layerIndex
      = coeffs userData.layerIndex / 2 ^ userData.shift / 2
        * (if coeffs userData.layerIndex / 2 ^ userData.shift % 2 = 1 then -1 else 1) := by
  have hb := ediv_pow_isS16 _ userData.shift hc
  have hact : LOQIndex_t.LOQ1 = LOQIndex_t.LOQ1 ∧ userData.enabled = true := ⟨rfl, he⟩
  unfold stripUserData
  rw [if_pos hact]
  simp only [setAt, if_true]
  generalize coeffs userData.layerIndex / 2 ^ userData.shift = c' at hb ⊢
  unfold isS16 at hb
  unfold wrap16
  split_ifs <;> omega

theorem stripUserData_rewrites_witness :
    isS16 (demoBlock demoUserData.layerIndex) ∧
    stripUserData .LOQ1 demoUserData demoBlock demoUserData.layerIndex
      = demoBlock demoUserData.layerIndex / 2 ^ demoUserData.shift / 2
        * (if demoBlock demoUserData.layerIndex / 2 ^ demoUserData.shift % 2 = 1
            then -1 else 1) :=
  ⟨by decide, stripUserData_rewrites demoUserData demoBlock rfl (by decide)⟩

/-- C9. `stripUserData` touches nothing it should not: when `loq` is not LOQ1 or user
data is disabled the coefficients are returned unchanged, and in every case each
coefficient at an index other than `layerIndex` is unchanged. -/
theorem stripUserData_frame (loq : LOQIndex_t) (userData : UserDataConfig_t)
    (coeffs : Nat → Int) :
    ((loq ≠ .LOQ1 ∨ userData.enabled = false) → stripUserData loq userData coeffs = coeffs) ∧
    (∀ k, k ≠ userData.layerIndex → stripUserData loq userData coeffs k = coeffs k) := by
  constructor
  · intro h
    have hact : ¬ (loq = LOQIndex_t.LOQ1 ∧ userData.enabled = true) := by
      rintro ⟨h1, h2⟩
      rcases h with h | h
      · exact h h1
      · rw [h2] at h
        exact Bool.noConfusion h
    simp only [stripUserData, if_neg hact]
  · intro k hk
    unfold stripUserData
    split_ifs
    · simp only [setAt, if_neg hk]
    · rfl

theorem stripUserData_frame_witness :
    stripUserData .LOQ0 demoUserData demoBlock = demoBlock ∧
    stripUserData .LOQ1 { demoUserData with enabled := false } demoBlock = demoBlock ∧
    stripUserData .LOQ1 demoUserData demoBlock 4 = demoBlock 4 :=
  ⟨(stripUserData_frame .LOQ0 demoUserData demoBlock).1 (Or.inl (by decide)),
    (stripUserData_frame .LOQ1 { demoUserData with enabled := false } demoBlock).1
      (Or.inr rfl),
    (stripUserData_frame .LOQ1 demoUserData demoBlock).2 4 (by decide)⟩

/-! ### SET and SET-ZERO -/

theorem setKernel_sample (size : BlockSize) (args : ApplyCmdBufferArgs) (mem : Plane)
    (i j : Nat) (hi : i < size.width) (hj : j < size.width)
    (hS : size.width ≤ args.rowPixelStride) :
    blockSample args (setKernel size args mem) i j = args.residuals (size.width * j + i) := by
  cases size
  · exact setDD_sample args mem i j hi hj hS
  · exact setDDS_sample args mem i j hi hj hS

theorem setZeroKernel_sample (size : BlockSize) (args : ApplyCmdBufferArgs) (mem : Plane)
    (i j : Nat) (hi : i < size.width) (hj : j < size.width) :
    blockSample args (setZeroKernel size args mem) i j = 0 := by
  cases size
  · exact setZeroDD_sample args mem i j hi hj
  · exact setZeroDDS_sample args mem i j hi hj

theorem setKernel_frame (size : BlockSize) (args : ApplyCmdBufferArgs) (mem : Plane)
    (a : Nat) (h : ¬ inBlock args size.width a) : setKernel size args mem a = mem a := by
  cases size
  · exact setDD_frame args mem a h
  · exact setDDS_frame_inBlock args mem a h

theorem setZeroKernel_frame (size : BlockSize) (args : ApplyCmdBufferArgs) (mem : Plane)
    (a : Nat) (h : ¬ inBlock args size.width a) : setZeroKernel size args mem a = mem a := by
  cases size
  · exact setZeroDD_frame args mem a h
  · exact setZeroDDS_frame args mem a h

theorem width_pos (size : BlockSize) : 0 < size.width := by
  cases size <;> decide

/-- C10. SET and SET-ZERO overwrite the block regardless of its previous content: on a
plane of row stride `S` at least the block width `W` (2 for `setDD` / `setZeroDD`, 4 for
`setDDS` / `setZeroDDS`), the SET kernel stores residual `k` at row `y + k / W`, column
`x + k % W` for every `k < W * W` and the SET-ZERO kernel stores 0 there; two planes that
agree outside the block give the same result; and every sample outside the block is
unchanged. -/
theorem set_kernels_overwrite_block (size : BlockSize) (args : ApplyCmdBufferArgs)
    (mem : Plane) (hS : size.width ≤ args.rowPixelStride) :
    (∀ k, k < size.width * size.width →
      setKernel size args mem
          (sampleAt args.rowPixelStride (args.y + k / size.width) (args.x + k % size.width))
        = args.residuals k ∧
      setZeroKernel size args mem
          (sampleAt args.rowPixelStride (args.y + k / size.width) (args.x + k % size.width))
        = 0) ∧
    (∀ other : Plane, (∀ a, ¬ inBlock args size.width a → other a = mem a) →
      setKernel size args other = setKernel size args mem ∧
      setZeroKernel size args other = setZeroKernel size args mem) ∧
    (∀ a, ¬ inBlock args size.width a →
      setKernel size args mem a = mem a ∧ setZeroKernel size args mem a = mem a) := by
  have hw := width_pos size
  refine ⟨?_, ?_, ?_⟩
  · intro k hk
    have hi : k % size.width < size.width := Nat.mod_lt _ hw
    have hj : k / size.width < size.width := Nat.div_lt_of_lt_mul hk
    have e := setKernel_sample size args mem _ _ hi hj hS
    rw [Nat.div_add_mod] at e
    exact ⟨e, setZeroKernel_sample size args mem _ _ hi hj⟩
  · intro other hagree
    constructor
    · funext a
      by_cases h : inBlock args size.width a
      · obtain ⟨i, hi, j, hj, rfl⟩ := h
        exact (setKernel_sample size args other i j hi hj hS).trans
          (setKernel_sample size args mem i j hi hj hS).symm
      · rw [setKernel_frame size args other a h, setKernel_frame size args mem a h,
          hagree a h]
    · funext a
      by_cases h : inBlock args size.width a
      · obtain ⟨i, hi, j, hj, rfl⟩ := h
        exact (setZeroKernel_sample size args other i j hi hj).trans
          (setZeroKernel_sample size args mem i j hi hj).symm
      · rw [setZeroKernel_frame size args other a h, setZeroKernel_frame size args mem a h,
          hagree a h]
  · intro a h
    exact ⟨setKernel_frame size args mem a h, setZeroKernel_frame size args mem a h⟩

theorem set_kernels_overwrite_block_witness :
    BlockSize.DDS.width ≤ demoArgs.rowPixelStride ∧
    (setKernel .DDS demoArgs demoPlane (sampleAt 8 (2 + 6 / 4) (1 + 6 % 4))
        = demoArgs.residuals 6 ∧
      setZeroKernel .DDS demoArgs demoPlane (sampleAt 8 (2 + 6 / 4) (1 + 6 % 4)) = 0) ∧
    (¬ inBlock demoArgs 4 21 ∧
      setKernel .DDS demoArgs demoPlane 21 = demoPlane 21 ∧
      setZeroKernel .DDS demoArgs demoPlane 21 = demoPlane 21) :=
  ⟨by decide,
    (set_kernels_overwrite_block .DDS demoArgs demoPlane (by decide)).1 6 (by decide),
    by decide,
    (set_kernels_overwrite_block .DDS demoArgs demoPlane (by decide)).2.2 21 (by decide)⟩

/-! ### CLEAR -/

theorem forLoopFrom_zeroRows (stride cols : Nat) (n : Nat) :
    ∀ (r0 p0 : Nat) (mem : Plane) (a : Nat),
      (forLoopFrom (rowBodyDDS stride (zeroRow cols)) n r0 ⟨p0, mem⟩).mem a
        = if ∃ j, j < n ∧ p0 + j * stride ≤ a ∧ a < p0 + j * stride + cols then 0
          else mem a := by
  induction n with
  | zero =>
    intro r0 p0 mem a
    have : ¬ ∃ j, j < 0 ∧ p0 + j * stride ≤ a ∧ a < p0 + j * stride + cols := by
      rintro ⟨j, hj, _⟩
      omega
    rw [if_neg this]
    rfl
  | succ n ih =>
    intro r0 p0 mem a
    show (forLoopFrom (rowBodyDDS stride (zeroRow cols)) n (r0 + 1)
      ⟨p0 + stride, zeroRow cols mem p0 r0⟩).mem a = _
    rw [ih]
    by_cases h : ∃ j, j < n ∧ p0 + stride + j * stride ≤ a ∧ a < p0 + stride + j * stride + cols
    · rw [if_pos h]
      obtain ⟨j, hj, h1, h2⟩ := h
      have : ∃ j, j < n + 1 ∧ p0 + j * stride ≤ a ∧ a < p0 + j * stride + cols :=
        ⟨j + 1, by omega, by rw [Nat.add_mul]; omega, by rw [Nat.add_mul]; omega⟩
      rw [if_pos this]
    · rw [if_neg h]
      unfold zeroRow
      by_cases h0 : p0 ≤ a ∧ a < p0 + cols
      · rw [if_pos h0]
        have : ∃ j, j < n + 1 ∧ p0 + j * stride ≤ a ∧ a < p0 + j * stride + cols :=
          ⟨0, by omega, by omega, by omega⟩
        rw [if_pos this]
      · rw [if_neg h0]
        have : ¬ ∃ j, j < n + 1 ∧ p0 + j * stride ≤ a ∧ a < p0 + j * stride + cols := by
          rintro ⟨j, hj, h1, h2⟩
          cases j with
          | zero => exact h0 ⟨by omega, by omega⟩
          | succ j' =>
            apply h
            rw [Nat.add_mul] at h1 h2
            exact ⟨j', by omega, by omega, by omega⟩
        rw [if_neg this]

theorem vst4q_s16_zero (m : Plane) (p : Nat) :
    vst4q_s16 m p { val := fun _ _ => 0 } = zeroRow 32 m p 0 := rfl

theorem memset_zero (m : Plane) (p cols : Nat) :
    memset m p 0 (cols * 2) = zeroRow cols m p 0 := by
  funext a
  unfold memset zeroRow
  by_cases h : p ≤ a ∧ a < p + cols
  · rw [if_pos h, if_pos (by omega)]
    rfl
  · rw [if_neg h, if_neg (by omega)]

theorem clear_eq_zeroRows (args : ApplyCmdBufferArgs) (mem : Plane)
    (hx : args.x < args.width) (hy : args.y < args.height)
    (hw : args.width < 65536) (hh : args.height < 65536) :
    clear args mem
      = (forLoopFrom (rowBodyDDS args.rowPixelStride (zeroRow (min 32 (args.width - args.x))))
          (min 32 (args.height - args.y)) 0
          ⟨args.y * args.rowPixelStride + args.x, mem⟩).mem := by
  have ex : toU16 args.x = args.x := by unfold toU16; omega
  have ey : toU16 args.y = args.y := by unfold toU16; omega
  have e32 : toU16 ((32 : Nat) : Int) = 32 := by unfold toU16; omega
  have ew : minU16 ACBKBlockSize ((args.height : Int) - (args.y : Int))
      = min 32 (args.height - args.y) := by
    unfold minU16 ACBKBlockSize
    rw [e32]
    unfold toU16
    omega
  have eh : minU16 ACBKBlockSize ((args.width : Int) - (args.x : Int))
      = min 32 (args.width - args.x) := by
    unfold minU16 ACBKBlockSize
    rw [e32]
    unfold toU16
    omega
  unfold clear
  simp only [ex, ey, ew, eh]
  split_ifs with hfull
  · obtain ⟨h1, h2⟩ := hfull
    unfold ACBKBlockSize at h1 h2 ⊢
    rw [h1, h2]
    rfl
  · unfold forLoop
    have e : (fun (_ : Nat) (s : StateDDS) =>
        ({ pixels := s.pixels + args.rowPixelStride,
           mem := memset s.mem s.pixels 0 (min 32 (args.width - args.x) * 2) } : StateDDS))
        = rowBodyDDS args.rowPixelStride (zeroRow (min 32 (args.width - args.x))) := by
      funext row s
      unfold rowBodyDDS
      rw [memset_zero]
      rfl
    rw [e]

theorem inRegion_iff_rows (stride x y cols rows a : Nat) :
    inRegion stride x y cols rows a ↔
      ∃ j, j < rows ∧ y * stride + x + j * stride ≤ a ∧ a < y * stride + x + j * stride + cols := by
  unfold inRegion
  constructor
  · rintro ⟨j, hj, i, hi, rfl⟩
    refine ⟨j, hj, ?_, ?_⟩ <;> rw [sampleAt_block] <;> omega
  · rintro ⟨j, hj, h1, h2⟩
    refine ⟨j, hj, a - (y * stride + x + j * stride), by omega, ?_⟩
    rw [sampleAt_block]
    omega

/-- C12, the claim as stated fails: an additive blit is requested for the destination
type U8 with the source type S10.5, which is not the high-precision counterpart of U8;
with assertions compiled out the dispatcher returns `addU8_NEON`, with assertions on the
`assert` fails, and in neither build does it return `NULL`. -/
theorem planeBlitGetFunctionNEON_mismatch_not_null :
    fixedPointHighPrecision .LdpFPU8 ≠ .LdpFPS10 ∧
    planeBlitGetFunctionNEON true true .LdpFPS10 .LdpFPU8 .BMAdd
      = .function .addU8_NEON ∧
    planeBlitGetFunctionNEON true false .LdpFPS10 .LdpFPU8 .BMAdd = .assertFailed ∧
    planeBlitGetFunctionNEON true true .LdpFPS10 .LdpFPU8 .BMAdd ≠ .null ∧
    planeBlitGetFunctionNEON true false .LdpFPS10 .LdpFPU8 .BMAdd ≠ .null := by
  decide

/-- C12, amended. `planeBlitGetFunctionNEON` returns `NULL` whenever blending is not
`BMAdd`, and always in a build without NEON; in a NEON build, for `BMAdd` with `srcFP`
the high-precision counterpart of `dstFP`, it returns the entry of `kAddTable` for
`dstFP` (U8 to `addU8_NEON`, U10 / U12 / U14 to the `addUN_NEON` instance of that depth,
each signed type to `addS16_NEON`); and in a NEON build a `BMAdd` request is never
answered with `NULL`, whatever `srcFP` is. -/
theorem planeBlitGetFunctionNEON_dispatch (neon ndebug : Bool) (srcFP dstFP : LdpFixedPoint)
    (blending : LdppBlendingMode) :
    (blending ≠ .BMAdd → planeBlitGetFunctionNEON neon ndebug srcFP dstFP blending = .null) ∧
    (neon = false → planeBlitGetFunctionNEON neon ndebug srcFP dstFP blending = .null) ∧
    (neon = true → blending = .BMAdd → fixedPointHighPrecision dstFP = srcFP →
      planeBlitGetFunctionNEON neon ndebug srcFP dstFP blending = .function (kAddTable dstFP)) ∧
    (neon = true → blending = .BMAdd →
      planeBlitGetFunctionNEON neon ndebug srcFP dstFP blending ≠ .null) ∧
    (kAddTable .LdpFPU8 = .addU8_NEON ∧ kAddTable .LdpFPU10 = .addU10_NEON ∧
      kAddTable .LdpFPU12 = .addU12_NEON ∧ kAddTable .LdpFPU14 = .addU14_NEON ∧
      kAddTable .LdpFPS8 = .addS16_NEON ∧ kAddTable .LdpFPS10 = .addS16_NEON ∧
      kAddTable .LdpFPS12 = .addS16_NEON ∧ kAddTable .LdpFPS14 = .addS16_NEON) := by
  cases neon <;> cases ndebug <;> cases srcFP <;> cases dstFP <;> cases blending <;> decide

theorem planeBlitGetFunctionNEON_dispatch_witness :
    planeBlitGetFunctionNEON true false .LdpFPS10 .LdpFPU10 .BMCopy = .null ∧
    planeBlitGetFunctionNEON false false .LdpFPS10 .LdpFPU10 .BMAdd = .null ∧
    planeBlitGetFunctionNEON true false .LdpFPS10 .LdpFPU10 .BMAdd
      = .function (kAddTable .LdpFPU10) ∧
    planeBlitGetFunctionNEON true true .LdpFPU8 .LdpFPU10 .BMAdd ≠ .null :=
  ⟨(planeBlitGetFunctionNEON_dispatch true false .LdpFPS10 .LdpFPU10 .BMCopy).1 (by decide),
    (planeBlitGetFunctionNEON_dispatch false false .LdpFPS10 .LdpFPU10 .BMAdd).2.1 rfl,
    (planeBlitGetFunctionNEON_dispatch true false .LdpFPS10 .LdpFPU10 .BMAdd).2.2.1 rfl rfl rfl,
    (planeBlitGetFunctionNEON_dispatch true true .LdpFPU8 .LdpFPU10 .BMAdd).2.2.2.1 rfl rfl⟩

/-! ### Vector path and scalar remainder of the additive blit -/

theorem blitAddRemainder_sample (d : Depth) (src dst : Plane) (dstPixel srcPixel : Nat) :
    blitAddRemainder d src dst dstPixel srcPixel dstPixel
      = scalarLane d (dst dstPixel) (src srcPixel) := by
  cases d <;>
    simp [blitAddRemainder, addU8_NEON_remainder, addUN_NEON_remainder,
      addS16_NEON_remainder, setAt, scalarLane]

theorem addLane_eq_scalar (d : Depth) (hd : d ≠ .S16) (p r : Int) (hp : validSample d p)
    (hr : isS16 r) :
    addLane d p r
      = scalarLane d p r := by
  unfold validSample at hp
  unfold isS16 at hr
  cases d
  · simp only [scalarLane, addLane, addU8_lane, vrshl_lane_m7, Depth.lo, Depth.hi, fpS8ToU8, fpU8ToS8,
      fixedPointGetDemotionFunction, fixedPointGetPromotionFunction, LdpFixedPoint.shift,
      LdpFixedPoint.depthBits, clamp] at hp ⊢
    norm_num
    unfold wrap16 sat16
    omega
  · simp only [scalarLane, addLane, addU_lane, vrshl_lane_m5, vshl_lane_5, Depth.lo, Depth.hi,
      fixedPointGetDemotionFunction, fixedPointGetPromotionFunction, LdpFixedPoint.shift,
      LdpFixedPoint.depthBits, clamp] at hp ⊢
    norm_num
    unfold wrap16 sat16
    omega
  · simp only [scalarLane, addLane, addU_lane, vrshl_lane_m3, vshl_lane_3, Depth.lo, Depth.hi,
      fixedPointGetDemotionFunction, fixedPointGetPromotionFunction, LdpFixedPoint.shift,
      LdpFixedPoint.depthBits, clamp] at hp ⊢
    norm_num
    unfold wrap16 sat16
    omega
  · simp only [scalarLane, addLane, addU_lane, vrshl_lane_m1, vshl_lane_1, Depth.lo, Depth.hi,
      fixedPointGetDemotionFunction, fixedPointGetPromotionFunction, LdpFixedPoint.shift,
      LdpFixedPoint.depthBits, clamp] at hp ⊢
    norm_num
    unfold wrap16 sat16
    omega
  · exact absurd rfl hd

/-- C13. In the unsigned additive blit the vector path and the scalar path agree: for
the depths U8, U10, U12 and U14, a valid destination sample and an `int16_t` source
sample, lane `k` of one iteration of the SIMD loop stores the value the remainder loop
(promote, add in 32 bits, demote) would store for the same pixel. -/
theorem blit_unsigned_vector_eq_scalar (d : Depth) (hd : d ≠ .S16) (src dst : Plane)
    (dstPixel0 srcPixel0 k : Nat) (hk : k < 16)
    (hp : validSample d (dst (dstPixel0 + k))) (hr : isS16 (src (srcPixel0 + k))) :
    blitAddSimd d src dst dstPixel0 (dstPixel0 + 8) srcPixel0 (srcPixel0 + 8) (dstPixel0 + k)
      = blitAddRemainder d src dst (dstPixel0 + k) (srcPixel0 + k) (dstPixel0 + k) := by
  rw [blitAddSimd_sample_eq d src dst dstPixel0 srcPixel0 k hk, blitAddRemainder_sample,
    addLane_eq_scalar d hd _ _ hp hr]

theorem blit_unsigned_vector_eq_scalar_witness :
    (validSample .U12 (demoPlane (3 + 9)) ∧ isS16 (demoSource (0 + 9))) ∧
    blitAddSimd .U12 demoSource demoPlane 3 (3 + 8) 0 (0 + 8) (3 + 9)
      = blitAddRemainder .U12 demoSource demoPlane (3 + 9) (0 + 9) (3 + 9) :=
  ⟨by decide,
    blit_unsigned_vector_eq_scalar .U12 (by decide) demoSource demoPlane 3 0 9 (by decide)
      (by decide) (by decide)⟩

/-- C14. In the signed additive blit the vector path and the scalar path agree: lane `k`
of one iteration of the SIMD loop of `addS16_NEON` (saturating add) and the remainder
loop (`saturateS16` of the 32-bit sum) both store `max (-32768) (min 32767 (d + s))`
for the destination sample `d` and the source sample `s`. -/
theorem blit_signed_vector_eq_scalar (src dst : Plane) (dstPixel0 srcPixel0 k : Nat)
    (hk : k < 16) :
    blitAddSimd .S16 src dst dstPixel0 (dstPixel0 + 8) srcPixel0 (srcPixel0 + 8) (dstPixel0 + k)
      = max (-32768) (min 32767 (dst (dstPixel0 + k) + src (srcPixel0 + k))) ∧
    blitAddRemainder .S16 src dst (dstPixel0 + k) (srcPixel0 + k) (dstPixel0 + k)
      = max (-32768) (min 32767 (dst (dstPixel0 + k) + src (srcPixel0 + k))) := by
  constructor
  · rw [blitAddSimd_sample_eq .S16 src dst dstPixel0 srcPixel0 k hk]
    rfl
  · rw [blitAddRemainder_sample]
    rfl

theorem blit_signed_vector_eq_scalar_witness :
    blitAddSimd .S16 demoSource demoSource 3 (3 + 8) 0 (0 + 8) (3 + 12)
      = max (-32768) (min 32767 (demoSource (3 + 12) + demoSource (0 + 12))) ∧
    blitAddRemainder .S16 demoSource demoSource (3 + 12) (0 + 12) (3 + 12)
      = max (-32768) (min 32767 (demoSource (3 + 12) + demoSource (0 + 12))) :=
  blit_signed_vector_eq_scalar demoSource demoSource 3 0 12 (by decide)

/-! ### Surface -/

theorem memoryAllocate_fail (memory : Memory) (size : Nat) (zero : Bool)
    (answer : Option (Nat × (Nat → Int)))
    (h : (memoryAllocate memory size zero answer).1 = 0) :
    (memoryAllocate memory size zero answer).2 = memory := by
  unfold memoryAllocate at h ⊢
  cases answer with
  | none => rfl
  | some pf =>
    obtain ⟨ptr, found⟩ := pf
    simp only at h ⊢
    by_cases hc : ptr = 0 ∨ (memory.live ptr).isSome = true
    · rw [if_pos hc]
    · rw [if_neg hc] at h
      exact absurd h (fun e => hc (Or.inl e))

theorem memoryAllocate_zeroed (memory : Memory) (size : Nat)
    (answer : Option (Nat × (Nat → Int)))
    (h : (memoryAllocate memory size true answer).1 ≠ 0) :
    (memoryAllocate memory size true answer).2.live (memoryAllocate memory size true answer).1
      = some (List.replicate size 0) ∧
    (memoryAllocate memory size true answer).2.freed = memory.freed := by
  unfold memoryAllocate at h ⊢
  cases answer with
  | none => exact absurd rfl h
  | some pf =>
    obtain ⟨ptr, found⟩ := pf
    simp only at h ⊢
    by_cases hc : ptr = 0 ∨ (memory.live ptr).isSome = true
    · rw [if_pos hc] at h
      exact absurd rfl h
    · rw [if_neg hc]
      simp

theorem surfaceAllocateData_fail (memory : Memory) (answer : Option (Nat × (Nat → Int)))
    (stride height : Nat) (type : FixedPoint_t)
    (h : (surfaceAllocateData memory answer stride height type).1 = 0) :
    (surfaceAllocateData memory answer stride height type).2 = memory := by
  unfold surfaceAllocateData at h ⊢
  simp only at h ⊢
  split_ifs with hz
  · rfl
  · rw [if_neg hz] at h
    exact memoryAllocate_fail _ _ _ _ h

theorem surfaceAllocateData_ok (memory : Memory) (answer : Option (Nat × (Nat → Int)))
    (stride height : Nat) (type : FixedPoint_t)
    (h : (surfaceAllocateData memory answer stride height type).1 ≠ 0) :
    (surfaceAllocateData memory answer stride height type).2.live
        (surfaceAllocateData memory answer stride height type).1
      = some (List.replicate (stride * height * ldlFixedPointByteSize type % 2 ^ sizeBits) 0) := by
  unfold surfaceAllocateData at h ⊢
  simp only at h ⊢
  split_ifs with hz
  · rw [if_pos hz] at h
    exact absurd rfl h
  · rw [if_neg hz] at h
    exact (memoryAllocate_zeroed _ _ _ h).1

theorem surfaceAllocateData_eq (memory : Memory) (answer : Option (Nat × (Nat → Int)))
    (stride height : Nat) (type : FixedPoint_t)
    (hpos : 0 < stride * height * ldlFixedPointByteSize type)
    (hfit : stride * height * ldlFixedPointByteSize type < 2 ^ sizeBits) :
    surfaceAllocateData memory answer stride height type
      = memoryAllocate memory (stride * height * ldlFixedPointByteSize type) true answer := by
  unfold surfaceAllocateData
  simp only
  rw [Nat.mod_eq_of_lt hfit, if_neg (by omega)]

/-- C15. `surfaceCompatible` requires an exact match on four fields: it returns
non-zero exactly when the surface is not idle and its type, stride, height and
interleaving equal the arguments, and the width of the surface plays no part. -/
theorem surfaceCompatible_exact_match (surface : Surface_t) (type : FixedPoint_t)
    (stride height : Nat) (interleaving : Interleaving_t) :
    (surfaceCompatible surface type stride height interleaving ≠ 0 ↔
      (surfaceIsIdle surface = false ∧ surface.type = type ∧ surface.stride = stride ∧
        surface.height = height ∧ surface.interleaving = interleaving)) ∧
    (∀ width, surfaceCompatible { surface with width := width } type stride height interleaving
      = surfaceCompatible surface type stride height interleaving) := by
  constructor
  · unfold surfaceCompatible
    cases hidle : surfaceIsIdle surface
    · simp only [Bool.false_eq_true, if_false]
      split_ifs with h
      · obtain ⟨h1, h2, h3, h4⟩ := h
        simp [h1, h2, h3, h4]
      · constructor
        · intro hc
          exact absurd rfl hc
        · rintro ⟨_, h1, h2, h3, h4⟩
          exact absurd ⟨h2, h3, h1, h4⟩ h
    · simp
  · intro width
    rfl

theorem pow63_not_product (a b : Nat) (ha : a < 2 ^ 32) (hb : b < 2 ^ 32) :
    a * b ≠ 2 ^ 63 := by
  intro h
  have hda : a ∣ 2 ^ 63 := ⟨b, h.symm⟩
  have hdb : b ∣ 2 ^ 63 := ⟨a, by rw [Nat.mul_comm, h]⟩
  obtain ⟨i, _, hi⟩ := (Nat.dvd_prime_pow Nat.prime_two).mp hda
  obtain ⟨j, _, hj⟩ := (Nat.dvd_prime_pow Nat.prime_two).mp hdb
  subst hi
  subst hj
  have hi32 : i < 32 := (Nat.pow_lt_pow_iff_right (by norm_num)).mp ha
  have hj32 : j < 32 := (Nat.pow_lt_pow_iff_right (by norm_num)).mp hb
  rw [← pow_add] at h
  have := Nat.pow_right_injective (le_refl 2) h
  omega

theorem size_t_product_pos (stride height : Nat) (type : FixedPoint_t)
    (hs : stride < 2 ^ 32) (hh : height < 2 ^ 32)
    (hpos : 0 < stride * height * ldlFixedPointByteSize type) :
    0 < stride * height * ldlFixedPointByteSize type % 2 ^ sizeBits := by
  have hlt : stride * height < 2 ^ 32 * 2 ^ 32 := Nat.mul_lt_mul'' hs hh
  have hne := pow63_not_product stride height hs hh
  have hb : ldlFixedPointByteSize type = 1 ∨ ldlFixedPointByteSize type = 2 := by
    cases type <;> simp [ldlFixedPointByteSize]
  unfold sizeBits
  generalize stride * height = p at hlt hne hpos ⊢
  rcases hb with hb | hb
  · rw [hb] at hpos ⊢
    omega
  · rw [hb] at hpos ⊢
    omega

theorem surfaceInitialise_ok (memory : Memory) (answer : Option (Nat × (Nat → Int)))
    (surface : Surface_t) (type : FixedPoint_t) (width height stride : Nat)
    (interleaving : Interleaving_t) (hidle : surfaceIsIdle surface = true)
    (hnull : (surfaceAllocateData memory answer stride height type).1 ≠ 0) :
    surfaceInitialise memory answer surface type width height stride interleaving
      = some (0, (surfaceAllocateData memory answer stride height type).2,
          { surface with
            data := (surfaceAllocateData memory answer stride height type).1,
            type := type, width := width, height := height, stride := stride,
            interleaving := interleaving, external := false }) := by
  unfold surfaceInitialise
  rw [if_pos hidle]
  simp only
  rw [if_neg hnull]

theorem surfaceAllocateData_wrapped (memory : Memory) (answer : Option (Nat × (Nat → Int)))
    (stride height : Nat) (type : FixedPoint_t)
    (hpos : 0 < stride * height * ldlFixedPointByteSize type % 2 ^ sizeBits) :
    surfaceAllocateData memory answer stride height type
      = memoryAllocate memory (stride * height * ldlFixedPointByteSize type % 2 ^ sizeBits)
          true answer := by
  unfold surfaceAllocateData
  simp only
  rw [if_neg (by omega)]

/-- C16, as stated, fails: with the `uint32_t` stride 2147549185 and height 4294836226
and two bytes per sample the product is `2 ^ 64 + 4`, which `size_t` holds as 4;
`surfaceInitialise` on the idle surface, with an allocator that succeeds, returns 0 and
records that stride and height, and the buffer it binds has exactly 4 zero bytes, not
`stride * height * bytesPerSample(type)` bytes. -/
theorem surfaceInitialise_size_wraps :
    (wideStride < 2 ^ 32 ∧ wideHeight < 2 ^ 32 ∧
      wideStride * wideHeight * ldlFixedPointByteSize .FPU10 = 2 ^ 64 + 4) ∧
    (surfaceInitialise emptyMemory (some (64, fun _ => 9)) surfaceIdle .FPU10 4 wideHeight
        wideStride .ILNone).map
      (fun r => (r.1, r.2.2.stride, r.2.2.height, r.2.2.external,
        r.2.1.live r.2.2.data))
      = some (0, wideStride, wideHeight, false, some [0, 0, 0, 0]) := by
  decide

/-- C16, amended. A successful `surfaceInitialise` yields an owned, zero-filled surface:
on an idle surface, for a `uint32_t` stride and height with
`stride * height * bytesPerSample(type)` positive, when the allocator succeeds the call
returns 0 and the surface has `external = false`, the given type, width, height, stride
and interleaving, and a buffer of zero bytes whose length is the product as `size_t`
holds it, `stride * height * bytesPerSample(type)` modulo `2 ^ 64`: exactly
`stride * height * bytesPerSample(type)` bytes when the product is below `2 ^ 64`. -/
theorem surfaceInitialise_success (memory : Memory) (answer : Option (Nat × (Nat → Int)))
    (surface : Surface_t) (type : FixedPoint_t) (width height stride : Nat)
    (interleaving : Interleaving_t)
    (hidle : surfaceIsIdle surface = true)
    (hs32 : stride < 2 ^ 32) (hh32 : height < 2 ^ 32)
    (hpos : 0 < stride * height * ldlFixedPointByteSize type)
    (halloc : (memoryAllocate memory
      (stride * height * ldlFixedPointByteSize type % 2 ^ sizeBits) true answer).1 ≠ 0) :
    ∃ memory2 surface2,
      surfaceInitialise memory answer surface type width height stride interleaving
        = some (0, memory2, surface2) ∧
      surface2.external = false ∧ surface2.type = type ∧ surface2.width = width ∧
      surface2.height = height ∧ surface2.stride = stride ∧
      surface2.interleaving = interleaving ∧ surface2.data ≠ 0 ∧
      memory2.live surface2.data
        = some (List.replicate
            (stride * height * ldlFixedPointByteSize type % 2 ^ sizeBits) 0) ∧
      (stride * height * ldlFixedPointByteSize type < 2 ^ sizeBits →
        memory2.live surface2.data
          = some (List.replicate (stride * height * ldlFixedPointByteSize type) 0)) := by
  have hw := size_t_product_pos stride height type hs32 hh32 hpos
  have e := surfaceAllocateData_wrapped memory answer stride height type hw
  have hz := (memoryAllocate_zeroed memory _ answer halloc).1
  have hnull : (surfaceAllocateData memory answer stride height type).1 ≠ 0 := by
    rw [e]
    exact halloc
  refine ⟨_, _, surfaceInitialise_ok memory answer surface type width height stride
    interleaving hidle hnull, rfl, rfl, rfl, rfl, rfl, rfl, hnull, ?_, ?_⟩
  · show (surfaceAllocateData memory answer stride height type).2.live
        (surfaceAllocateData memory answer stride height type).1 = _
    rw [e]
    exact hz
  · intro hfit
    show (surfaceAllocateData memory answer stride height type).2.live
        (surfaceAllocateData memory answer stride height type).1 = _
    rw [e, hz, Nat.mod_eq_of_lt hfit]

theorem surfaceInitialise_success_witness :
    (surfaceIsIdle surfaceIdle = true ∧ (4 : Nat) < 2 ^ 32 ∧ (2 : Nat) < 2 ^ 32 ∧
      0 < 4 * 2 * ldlFixedPointByteSize .FPU10 ∧
      (memoryAllocate emptyMemory (4 * 2 * ldlFixedPointByteSize .FPU10 % 2 ^ sizeBits) true
        (some (64, fun _ => 9))).1 ≠ 0) ∧
    ∃ memory2 surface2,
      surfaceInitialise emptyMemory (some (64, fun _ => 9)) surfaceIdle .FPU10 4 2 4 .ILNone
        = some (0, memory2, surface2) ∧
      surface2.external = false ∧ surface2.type = .FPU10 ∧ surface2.width = 4 ∧
      surface2.height = 2 ∧ surface2.stride = 4 ∧
      surface2.interleaving = .ILNone ∧ surface2.data ≠ 0 ∧
      memory2.live surface2.data
        = some (List.replicate (4 * 2 * ldlFixedPointByteSize .FPU10 % 2 ^ sizeBits) 0) ∧
      (4 * 2 * ldlFixedPointByteSize .FPU10 < 2 ^ sizeBits →
        memory2.live surface2.data
          = some (List.replicate (4 * 2 * ldlFixedPointByteSize .FPU10) 0)) :=
  ⟨⟨rfl, by decide, by decide, by decide, by decide⟩,
    surfaceInitialise_success emptyMemory (some (64, fun _ => 9)) surfaceIdle .FPU10 4 2 4
      .ILNone rfl (by decide) (by decide) (by decide) (by decide)⟩

/-- C17, as stated, fails: with the `uint32_t` stride 2147549185 and height 4294836226
and two bytes per sample, `surfaceInitialise` on the idle surface does not fail: it
returns 0 and binds a buffer of 4 bytes, smaller than the
`stride * height * bytesPerSample(type)` bytes of the surface it records. -/
theorem surfaceInitialise_binds_smaller_buffer :
    (surfaceInitialise emptyMemory (some (64, fun _ => 9)) surfaceIdle .FPU10 4 wideHeight
        wideStride .ILNone).map
      (fun r => (r.1, r.2.2.data, (r.2.1.live r.2.2.data).map List.length,
        decide (4 < r.2.2.stride * r.2.2.height * ldlFixedPointByteSize r.2.2.type)))
      = some (0, 64, some 4, true) := by
  decide

/-- C17, amended. `surfaceInitialise` fails explicitly and atomically: on an idle
surface, if the allocator returns no memory or `stride * height * bytesPerSample(type)`
is 0, the call returns -1 and leaves the surface and the memory unchanged; and every
outcome of the call is either that failure or the code 0 with a zero-filled buffer
bound whose length is the product as `size_t` holds it, never fewer bytes than that:
`stride * height * bytesPerSample(type)` modulo `2 ^ 64`, which is the product itself
when it is below `2 ^ 64`. -/
theorem surfaceInitialise_failure_atomic (memory : Memory)
    (answer : Option (Nat × (Nat → Int)))
    (surface : Surface_t) (type : FixedPoint_t) (width height stride : Nat)
    (interleaving : Interleaving_t) (hidle : surfaceIsIdle surface = true) :
    (((memoryAllocate memory (stride * height * ldlFixedPointByteSize type % 2 ^ sizeBits)
          true answer).1 = 0 ∨ stride * height * ldlFixedPointByteSize type = 0) →
      surfaceInitialise memory answer surface type width height stride interleaving
        = some (-1, memory, surface)) ∧
    (∃ code memory2 surface2,
      surfaceInitialise memory answer surface type width height stride interleaving
        = some (code, memory2, surface2) ∧
      ((code = -1 ∧ memory2 = memory ∧ surface2 = surface) ∨
        (code = 0 ∧ surface2.data ≠ 0 ∧
          memory2.live surface2.data
            = some (List.replicate
                (stride * height * ldlFixedPointByteSize type % 2 ^ sizeBits) 0) ∧
          (stride * height * ldlFixedPointByteSize type < 2 ^ sizeBits →
            memory2.live surface2.data
              = some (List.replicate (stride * height * ldlFixedPointByteSize type) 0))))) := by
  constructor
  · intro h
    have hnull : (surfaceAllocateData memory answer stride height type).1 = 0 := by
      unfold surfaceAllocateData
      simp only
      split_ifs with hz
      · rfl
      · rcases h with h | h
        · exact h
        · rw [h] at hz
          exact absurd rfl hz
    unfold surfaceInitialise
    rw [if_pos hidle]
    simp only
    rw [if_pos hnull, surfaceAllocateData_fail _ _ _ _ _ hnull]
  · by_cases hnull : (surfaceAllocateData memory answer stride height type).1 = 0
    · refine ⟨-1, memory, surface, ?_, Or.inl ⟨rfl, rfl, rfl⟩⟩
      unfold surfaceInitialise
      rw [if_pos hidle]
      simp only
      rw [if_pos hnull, surfaceAllocateData_fail _ _ _ _ _ hnull]
    · have hok := surfaceAllocateData_ok memory answer stride height type hnull
      refine ⟨0, _, _, surfaceInitialise_ok memory answer surface type width height stride
        interleaving hidle hnull, Or.inr ⟨rfl, hnull, hok, ?_⟩⟩
      intro hfit
      have hok2 := hok
      rw [Nat.mod_eq_of_lt hfit] at hok2
      exact hok2

theorem surfaceInitialise_failure_atomic_witness :
    surfaceIsIdle surfaceIdle = true ∧
    surfaceInitialise emptyMemory none surfaceIdle .FPU10 4 2 4 .ILNone
      = some (-1, emptyMemory, surfaceIdle) ∧
    surfaceInitialise emptyMemory (some (64, fun _ => 9)) surfaceIdle .FPU10 4 0 4 .ILNone
      = some (-1, emptyMemory, surfaceIdle) :=
  ⟨rfl,
    (surfaceInitialise_failure_atomic emptyMemory none surfaceIdle .FPU10 4 2 4 .ILNone
      rfl).1 (Or.inl rfl),
    (surfaceInitialise_failure_atomic emptyMemory (some (64, fun _ => 9)) surfaceIdle .FPU10
      4 0 4 .ILNone rfl).1 (Or.inr rfl)⟩

/-- C18. `surfaceRelease` returns any surface to idle and frees only owned memory:
after it the surface is the all-zero record (`surfaceIsIdle` holds, width, height and
stride are 0, `external` is false); the buffer is passed to `memoryFree` exactly when
the surface was not external and its buffer was non-null, and otherwise the memory
interface is left untouched, so an external buffer is never freed. -/
theorem surfaceRelease_idle_and_frees_owned (memory : Memory) (surface : Surface_t) :
    (surfaceRelease memory surface).2 = surfaceIdle ∧
    surfaceIsIdle (surfaceRelease memory surface).2 = true ∧
    ((surfaceRelease memory surface).2.data = 0 ∧ (surfaceRelease memory surface).2.width = 0 ∧
      (surfaceRelease memory surface).2.height = 0 ∧
      (surfaceRelease memory surface).2.stride = 0 ∧
      (surfaceRelease memory surface).2.external = false) ∧
    ((surface.external = false ∧ surface.data ≠ 0) →
      (surfaceRelease memory surface).1 = memoryFree memory surface.data ∧
      (surfaceRelease memory surface).1.freed = surface.data :: memory.freed) ∧
    ((surface.external = true ∨ surface.data = 0) →
      (surfaceRelease memory surface).1 = memory) := by
  refine ⟨rfl, rfl, ⟨rfl, rfl, rfl, rfl, rfl⟩, ?_, ?_⟩
  · intro h
    unfold surfaceRelease
    simp only
    rw [if_pos h]
    exact ⟨rfl, rfl⟩
  · intro h
    unfold surfaceRelease
    simp only
    rw [if_neg]
    rintro ⟨h1, h2⟩
    rcases h with h | h
    · rw [h1] at h
      exact Bool.noConfusion h
    · exact h2 h

theorem surfaceRelease_idle_and_frees_owned_witness :
    ((surfaceRelease demoMemory demoSurface).1.freed = 64 :: demoMemory.freed) ∧
    ((surfaceRelease demoMemory { demoSurface with external := true }).1 = demoMemory) :=
  ⟨((surfaceRelease_idle_and_frees_owned demoMemory demoSurface).2.2.2.1
      ⟨rfl, by decide⟩).2,
    (surfaceRelease_idle_and_frees_owned demoMemory { demoSurface with external := true }
      ).2.2.2.2 (Or.inl rfl)⟩

theorem surfaceZero_unchanged (memory : Memory) (answer : Option (Nat × (Nat → Int)))
    (surface : Surface_t) (h : surface.external = true ∨ surface.data = 0) :
    surfaceZero memory answer surface = (memory, surface) := by
  unfold surfaceZero
  by_cases hidle : surfaceIsIdle surface = true
  · rw [if_pos hidle]
  · rw [if_neg hidle]
    have hd : surface.data ≠ 0 := by
      intro e
      apply hidle
      unfold surfaceIsIdle
      exact decide_eq_true e
    rcases h with h | h
    · rw [if_neg]
      rw [h]
      exact Bool.noConfusion
    · exact absurd h hd

/-- C19, as stated, fails: `wideSurface` is the owned surface `surfaceInitialise` leaves
for the `uint32_t` stride 2147549185, height 4294836226 and two bytes per sample;
`surfaceZero` on it, with an allocator that succeeds, keeps the record but for the
buffer and leaves it with a buffer of 4 zero bytes, not
`stride * height * bytesPerSample(type)` bytes. -/
theorem surfaceZero_size_wraps :
    ((surfaceInitialise emptyMemory (some (64, fun _ => 9)) surfaceIdle .FPU10 4 wideHeight
        wideStride .ILNone).map (fun r => decide (r.2.2 = wideSurface)) = some true) ∧
    (surfaceZero wideMemory (some (128, fun _ => 9)) wideSurface).2
      = { wideSurface with data := 128 } ∧
    (surfaceZero wideMemory (some (128, fun _ => 9)) wideSurface).1.live 128
      = some [0, 0, 0, 0] ∧
    4 < wideSurface.stride * wideSurface.height * ldlFixedPointByteSize wideSurface.type := by
  decide

/-- C19, amended. `surfaceZero` re-zeroes only owned buffers: for an external surface
and for an idle surface it returns the memory and the surface record unchanged; in
every case type, width, height, stride, interleaving and the ownership flag are kept;
and for a non-idle owned surface with a `uint32_t` stride and height and a positive
`stride * height * bytesPerSample(type)`, when the allocator succeeds the surface is
left with a buffer of zero bytes whose length is the product as `size_t` holds it,
`stride * height * bytesPerSample(type)` modulo `2 ^ 64`: exactly
`stride * height * bytesPerSample(type)` bytes when the product is below `2 ^ 64`. -/
theorem surfaceZero_rezeroes_owned (memory : Memory) (answer : Option (Nat × (Nat → Int)))
    (surface : Surface_t) :
    ((surface.external = true ∨ surface.data = 0) →
      surfaceZero memory answer surface = (memory, surface)) ∧
    ((surfaceZero memory answer surface).2.type = surface.type ∧
      (surfaceZero memory answer surface).2.width = surface.width ∧
      (surfaceZero memory answer surface).2.height = surface.height ∧
      (surfaceZero memory answer surface).2.stride = surface.stride ∧
      (surfaceZero memory answer surface).2.interleaving = surface.interleaving ∧
      (surfaceZero memory answer surface).2.external = surface.external) ∧
    (surface.external = false → surface.data ≠ 0 →
      surface.stride < 2 ^ 32 → surface.height < 2 ^ 32 →
      0 < surface.stride * surface.height * ldlFixedPointByteSize surface.type →
      (memoryAllocate (memoryFree memory surface.data)
        (surface.stride * surface.height * ldlFixedPointByteSize surface.type % 2 ^ sizeBits)
        true answer).1 ≠ 0 →
      (surfaceZero memory answer surface).2.data ≠ 0 ∧
      (surfaceZero memory answer surface).1.live (surfaceZero memory answer surface).2.data
        = some (List.replicate
            (surface.stride * surface.height * ldlFixedPointByteSize surface.type
              % 2 ^ sizeBits) 0) ∧
      (surface.stride * surface.height * ldlFixedPointByteSize surface.type < 2 ^ sizeBits →
        (surfaceZero memory answer surface).1.live (surfaceZero memory answer surface).2.data
          = some (List.replicate
              (surface.stride * surface.height * ldlFixedPointByteSize surface.type) 0))) := by
  refine ⟨surfaceZero_unchanged memory answer surface, ?_, ?_⟩
  · unfold surfaceZero
    by_cases hidle : surfaceIsIdle surface = true
    · rw [if_pos hidle]
      exact ⟨rfl, rfl, rfl, rfl, rfl, rfl⟩
    · rw [if_neg hidle]
      by_cases hext : surface.external = false
      · rw [if_pos hext]
        exact ⟨rfl, rfl, rfl, rfl, rfl, rfl⟩
      · rw [if_neg hext]
        exact ⟨rfl, rfl, rfl, rfl, rfl, rfl⟩
  · intro hext hd hs32 hh32 hpos halloc
    have hidle : ¬ surfaceIsIdle surface = true := by
      unfold surfaceIsIdle
      intro e
      exact hd (of_decide_eq_true e)
    have hw := size_t_product_pos surface.stride surface.height surface.type hs32 hh32 hpos
    have e := surfaceAllocateData_wrapped (memoryFree memory surface.data) answer
      surface.stride surface.height surface.type hw
    have hz := (memoryAllocate_zeroed (memoryFree memory surface.data) _ answer halloc).1
    unfold surfaceZero
    rw [if_neg hidle, if_pos hext]
    simp only
    rw [e]
    refine ⟨halloc, hz, ?_⟩
    intro hfit
    rw [hz, Nat.mod_eq_of_lt hfit]

theorem surfaceZero_rezeroes_owned_witness :
    (surfaceZero demoMemory (some (64, fun _ => 9)) { demoSurface with external := true }
      = (demoMemory, { demoSurface with external := true })) ∧
    (surfaceZero demoMemory (some (64, fun _ => 9)) surfaceIdle = (demoMemory, surfaceIdle)) ∧
    ((surfaceZero demoMemory (some (64, fun _ => 9)) demoSurface).2.data ≠ 0 ∧
      (surfaceZero demoMemory (some (64, fun _ => 9)) demoSurface).1.live
          (surfaceZero demoMemory (some (64, fun _ => 9)) demoSurface).2.data
        = some (List.replicate
            (demoSurface.stride * demoSurface.height * ldlFixedPointByteSize demoSurface.type
              % 2 ^ sizeBits) 0) ∧
      (demoSurface.stride * demoSurface.height * ldlFixedPointByteSize demoSurface.type
          < 2 ^ sizeBits →
        (surfaceZero demoMemory (some (64, fun _ => 9)) demoSurface).1.live
            (surfaceZero demoMemory (some (64, fun _ => 9)) demoSurface).2.data
          = some (List.replicate
              (demoSurface.stride * demoSurface.height
                * ldlFixedPointByteSize demoSurface.type) 0))) :=
  ⟨(surfaceZero_rezeroes_owned demoMemory (some (64, fun _ => 9))
      { demoSurface with external := true }).1 (Or.inl rfl),
    (surfaceZero_rezeroes_owned demoMemory (some (64, fun _ => 9)) surfaceIdle).1 (Or.inr rfl),
    (surfaceZero_rezeroes_owned demoMemory (some (64, fun _ => 9)) demoSurface).2.2 rfl
      (by decide) (by decide) (by decide) (by decide) (by decide)⟩

/-- C20, the claim as stated fails: `surfaceInitialiseExt2` applied to the idle surface
sets width, height and stride to 4 and binds no buffer, so the surface reached is idle
(`surfaceIsIdle` holds) with non-zero dimensions.  The same state is reached by
`surfaceInitialiseExt` with a null buffer, and by `surfaceInitialise` followed by a
`surfaceZero` whose re-allocation fails. -/
theorem idle_invariant_broken_by_initialiseExt2 :
    (runCalls [.initialiseExt2 .FPU8 4 4 4 .ILNone] emptyMemory surfaceIdle).map
        (fun r => (surfaceIsIdle r.2, r.2.width, r.2.height, r.2.stride))
      = some (true, 4, 4, 4) ∧
    (runCalls [.initialiseExt 0 .FPU8 4 4 4 .ILNone] emptyMemory surfaceIdle).map
        (fun r => (surfaceIsIdle r.2, r.2.width, r.2.height, r.2.stride))
      = some (true, 4, 4, 4) ∧
    (runCalls [.initialise (some (64, fun _ => 9)) .FPU8 4 4 4 .ILNone, .zero none]
        emptyMemory surfaceIdle).map
        (fun r => (surfaceIsIdle r.2, r.2.width, r.2.height, r.2.stride))
      = some (true, 4, 4, 4) := by
  decide

theorem surfaceAllocateData_size_ne (memory : Memory) (answer : Option (Nat × (Nat → Int)))
    (stride height : Nat) (type : FixedPoint_t)
    (h : (surfaceAllocateData memory answer stride height type).1 ≠ 0) :
    stride * height * ldlFixedPointByteSize type % 2 ^ sizeBits ≠ 0 := by
  intro hz
  apply h
  unfold surfaceAllocateData
  simp only
  rw [if_pos hz]

theorem surfaceZero_owned (memory : Memory) (answer : Option (Nat × (Nat → Int)))
    (surface : Surface_t) (hd : surface.data ≠ 0) (hext : surface.external = false)
    (hsize : surface.stride * surface.height * ldlFixedPointByteSize surface.type
      % 2 ^ sizeBits ≠ 0) :
    (surfaceZero memory answer surface).2
      = { surface with
          data := (memoryAllocate (memoryFree memory surface.data)
            (surface.stride * surface.height * ldlFixedPointByteSize surface.type
              % 2 ^ sizeBits) true answer).1 } := by
  have hidle : ¬ surfaceIsIdle surface = true := by
    unfold surfaceIsIdle
    intro e
    exact hd (of_decide_eq_true e)
  have e := surfaceAllocateData_wrapped (memoryFree memory surface.data) answer
    surface.stride surface.height surface.type (by omega)
  unfold surfaceZero
  rw [if_neg hidle, if_pos hext]
  simp only
  rw [e]

theorem SurfaceCall.run_keeps_idle (call : SurfaceCall) (memory memory2 : Memory)
    (surface surface2 : Surface_t)
    (hinv : surface.data = 0 → surface = surfaceIdle)
    (hsize : surface.data ≠ 0 → surface.external = false →
      surface.stride * surface.height * ldlFixedPointByteSize surface.type % 2 ^ sizeBits ≠ 0)
    (hkeep : call.keepsIdle memory surface)
    (hrun : call.run memory surface = some (memory2, surface2)) :
    (surface2.data = 0 → surface2 = surfaceIdle) ∧
    (surface2.data ≠ 0 → surface2.external = false →
      surface2.stride * surface2.height * ldlFixedPointByteSize surface2.type
        % 2 ^ sizeBits ≠ 0) := by
  cases call with
  | initialise answer type width height stride interleaving =>
    simp only [SurfaceCall.run, surfaceInitialise] at hrun
    by_cases hidle : surfaceIsIdle surface = true
    · rw [if_pos hidle] at hrun
      by_cases hnull : (surfaceAllocateData memory answer stride height type).1 = 0
      · rw [if_pos hnull] at hrun
        simp only [Option.map_some', Option.some.injEq, Prod.mk.injEq] at hrun
        rw [← hrun.2]
        exact ⟨hinv, hsize⟩
      · rw [if_neg hnull] at hrun
        simp only [Option.map_some', Option.some.injEq, Prod.mk.injEq] at hrun
        rw [← hrun.2]
        refine ⟨fun h0 => absurd h0 hnull, fun _ _ => ?_⟩
        exact surfaceAllocateData_size_ne memory answer stride height type hnull
    · rw [if_neg hidle] at hrun
      simp at hrun
  | initialiseExt data type width height stride interleaving =>
    simp only [SurfaceCall.run, surfaceInitialiseExt] at hrun
    by_cases hidle : surfaceIsIdle surface = true
    · rw [if_pos hidle] at hrun
      simp only [Option.map_some', Option.some.injEq, Prod.mk.injEq] at hrun
      rw [← hrun.2]
      exact ⟨fun h0 => absurd h0 hkeep, fun _ he => Bool.noConfusion he⟩
    · rw [if_neg hidle] at hrun
      simp at hrun
  | initialiseExt2 type width height stride interleaving =>
    simp only [SurfaceCall.run, surfaceInitialiseExt2, Option.some.injEq,
      Prod.mk.injEq] at hrun
    rw [← hrun.2]
    exact ⟨fun h0 => absurd h0 hkeep, fun _ he => Bool.noConfusion he⟩
  | zero answer =>
    simp only [SurfaceCall.run, Option.some.injEq] at hrun
    have h2 : surface2 = (surfaceZero memory answer surface).2 := by rw [hrun]
    have hsame : (surface.external = true ∨ surface.data = 0) →
        (surface2.data = 0 → surface2 = surfaceIdle) ∧
        (surface2.data ≠ 0 → surface2.external = false →
          surface2.stride * surface2.height * ldlFixedPointByteSize surface2.type
            % 2 ^ sizeBits ≠ 0) := by
      intro h
      have := surfaceZero_unchanged memory answer surface h
      rw [this] at h2
      rw [h2]
      exact ⟨hinv, hsize⟩
    rcases hkeep with h | h | h
    · exact hsame (Or.inr h)
    · exact hsame (Or.inl h)
    · by_cases hd : surface.data = 0
      · exact hsame (Or.inr hd)
      · by_cases hext : surface.external = false
        · have hs := hsize hd hext
          rw [h2, surfaceZero_owned memory answer surface hd hext hs]
          exact ⟨fun h0 => absurd h0 h, fun _ _ => hs⟩
        · have hext2 : surface.external = true := by
            cases he : surface.external with
            | true => rfl
            | false => exact absurd he hext
          exact hsame (Or.inl hext2)
  | release =>
    simp only [SurfaceCall.run, surfaceRelease, Option.some.injEq, Prod.mk.injEq] at hrun
    rw [← hrun.2]
    exact ⟨fun _ => rfl, fun h0 _ => absurd rfl h0⟩

theorem runCalls_keeps_idle (calls : List SurfaceCall) :
    ∀ (memory memory2 : Memory) (surface surface2 : Surface_t),
      (surface.data = 0 → surface = surfaceIdle) →
      (surface.data ≠ 0 → surface.external = false →
        surface.stride * surface.height * ldlFixedPointByteSize surface.type
          % 2 ^ sizeBits ≠ 0) →
      callsKeepIdle calls memory surface →
      runCalls calls memory surface = some (memory2, surface2) →
      surface2.data = 0 → surface2 = surfaceIdle := by
  induction calls with
  | nil =>
    intro memory memory2 surface surface2 hinv _ _ hrun
    simp only [runCalls, Option.some.injEq, Prod.mk.injEq] at hrun
    rw [← hrun.2]
    exact hinv
  | cons call rest ih =>
    intro memory memory2 surface surface2 hinv hsize hkeep hrun
    unfold runCalls at hrun
    unfold callsKeepIdle at hkeep
    cases hstep : call.run memory surface with
    | none =>
      rw [hstep] at hrun
      simp at hrun
    | some ms =>
      obtain ⟨m1, s1⟩ := ms
      rw [hstep] at hrun hkeep
      simp only at hrun hkeep
      have hnext := SurfaceCall.run_keeps_idle call memory m1 surface s1 hinv hsize hkeep.1
        hstep
      exact ih m1 memory2 s1 surface2 hnext.1 hnext.2 hkeep.2 hrun

/-- C20, amended. Idle-surface invariant: for every state reached from `surfaceIdle` by
a sequence of `surfaceInitialise` (with an allocator that may fail), `surfaceInitialiseExt`
with a non-null buffer, `surfaceInitialiseExt2` on a surface that has a buffer,
`surfaceZero` with an allocator that succeeds when an owned buffer is re-allocated, and
`surfaceRelease`, each called within its asserted precondition, if `surfaceIsIdle` holds
then width, height and stride are zero. -/
theorem idle_surface_has_zero_dimensions (calls : List SurfaceCall)
    (memory memory2 : Memory) (surface2 : Surface_t)
    (hkeep : callsKeepIdle calls memory surfaceIdle)
    (hrun : runCalls calls memory surfaceIdle = some (memory2, surface2))
    (hidle : surfaceIsIdle surface2 = true) :
    surface2.width = 0 ∧ surface2.height = 0 ∧ surface2.stride = 0 := by
  have h0 : surface2.data = 0 := of_decide_eq_true hidle
  have := runCalls_keeps_idle calls memory memory2 surfaceIdle surface2 (fun _ => rfl)
    (fun h _ => absurd rfl h) hkeep hrun h0
  rw [this]
  exact ⟨rfl, rfl, rfl⟩

theorem idle_surface_has_zero_dimensions_witness :
    ∃ memory2 surface2,
      runCalls demoCalls emptyMemory surfaceIdle = some (memory2, surface2) ∧
      callsKeepIdle demoCalls emptyMemory surfaceIdle ∧
      surfaceIsIdle surface2 = true ∧
      surface2.width = 0 ∧ surface2.height = 0 ∧ surface2.stride = 0 :=
  have hkeep : callsKeepIdle demoCalls emptyMemory surfaceIdle :=
    ⟨trivial, Or.inr (Or.inr (by decide)), trivial, trivial, trivial⟩
  ⟨_, _, rfl, hkeep, rfl,
    idle_surface_has_zero_dimensions demoCalls emptyMemory _ _ hkeep rfl rfl⟩

/-! ### Frame of the ADD kernels -/

theorem storePixelsDD_miss (m : Plane) (p : Nat) (v : Lanes) (a : Nat)
    (h0 : a ≠ p) (h1 : a ≠ p + 1) : storePixelsDD m p v a = m a := by
  simp only [storePixelsDD, vst1_lane_s16, if_neg h0, if_neg h1]

theorem storePixelsDD_U8_miss (m : Plane) (p : Nat) (v : Lanes) (a : Nat)
    (h0 : a ≠ p) (h1 : a ≠ p + 1) : storePixelsDD_U8 m p v a = m a := by
  simp only [storePixelsDD_U8, vst1_lane_u8, if_neg h0, if_neg h1]

theorem addKernel_frame (size : BlockSize) (d : Depth) (args : ApplyCmdBufferArgs)
    (mem : Plane) (a : Nat) (h : ¬ inBlock args size.width a) :
    addKernel size d args mem a = mem a := by
  cases size
  · obtain ⟨h1, h2, h3, h4⟩ := not_inBlock_DD args a h
    cases d
    · show addDD_U8 args mem a = mem a
      rw [addDD_U8_eq_rows]
      unfold addDD_U8_row
      rw [storePixelsDD_U8_miss _ _ _ _ h3 h4, storePixelsDD_U8_miss _ _ _ _ h1 h2]
    · show addDD_UBase args 5 512 1023 mem a = mem a
      rw [addDD_UBase_eq_rows]
      unfold addDD_UBase_row
      rw [storePixelsDD_miss _ _ _ _ h3 h4, storePixelsDD_miss _ _ _ _ h1 h2]
    · show addDD_UBase args 3 2048 4095 mem a = mem a
      rw [addDD_UBase_eq_rows]
      unfold addDD_UBase_row
      rw [storePixelsDD_miss _ _ _ _ h3 h4, storePixelsDD_miss _ _ _ _ h1 h2]
    · show addDD_UBase args 1 8192 16383 mem a = mem a
      rw [addDD_UBase_eq_rows]
      unfold addDD_UBase_row
      rw [storePixelsDD_miss _ _ _ _ h3 h4, storePixelsDD_miss _ _ _ _ h1 h2]
    · show addDD_S16 args mem a = mem a
      rw [addDD_S16_eq_rows]
      unfold addDD_S16_row
      rw [storePixelsDD_miss _ _ _ _ h3 h4, storePixelsDD_miss _ _ _ _ h1 h2]
  · have hrows := not_inBlock_rows args a h
    cases d
    · show addDDS_U8 args mem a = mem a
      rw [addDDS_U8_eq_rows]
      exact forLoopFrom_rows_out _ _ (fun m p row a h => storePixelsDDS_U8_miss _ _ _ _ h)
        4 0 _ mem a hrows
    · show addDDS_UBase args 5 512 1023 mem a = mem a
      rw [addDDS_UBase_eq_rows]
      exact forLoopFrom_rows_out _ _ (fun m p row a h => vst1_s16_miss _ _ _ _ h)
        4 0 _ mem a hrows
    · show addDDS_UBase args 3 2048 4095 mem a = mem a
      rw [addDDS_UBase_eq_rows]
      exact forLoopFrom_rows_out _ _ (fun m p row a h => vst1_s16_miss _ _ _ _ h)
        4 0 _ mem a hrows
    · show addDDS_UBase args 1 8192 16383 mem a = mem a
      rw [addDDS_UBase_eq_rows]
      exact forLoopFrom_rows_out _ _ (fun m p row a h => vst1_s16_miss _ _ _ _ h)
        4 0 _ mem a hrows
    · show addDDS_S16 args mem a = mem a
      rw [addDDS_S16_eq_rows]
      exact forLoopFrom_rows_out _ _ (fun m p row a h => vst1_s16_miss _ _ _ _ h)
        4 0 _ mem a hrows

/-- C28. ADD touches only its block and pairs samples with residuals in raster order:
for every ADD kernel (both block sizes, all depths) on a plane whose row stride is at
least the block width `W`, the sample stored at row `y + j`, column `x + i` is the
kernel's per-sample function of the sample found there and of residual `W * j + i`, so
it is the same for any other plane and residual array that agree on those two values;
and every sample outside the block is unchanged, whatever the stride. -/
theorem add_pairs_raster_and_frames (size : BlockSize) (d : Depth)
    (args : ApplyCmdBufferArgs) (mem : Plane) :
    (size.width ≤ args.rowPixelStride → ∀ i j, i < size.width → j < size.width →
      blockSample args (addKernel size d args mem) i j
          = addLane d (blockSample args mem i j) (args.residuals (size.width * j + i)) ∧
      ∀ (other : Plane) (residuals : Nat → Int),
        blockSample args other i j = blockSample args mem i j →
        residuals (size.width * j + i) = args.residuals (size.width * j + i) →
        blockSample args (addKernel size d { args with residuals := residuals } other) i j
          = blockSample args (addKernel size d args mem) i j) ∧
    (∀ a, ¬ inBlock args size.width a → addKernel size d args mem a = mem a) := by
  constructor
  · intro hS i j hi hj
    have e1 := addKernel_sample size d args mem i j hi hj hS
    refine ⟨e1, ?_⟩
    intro other residuals hp hr
    have e2 := addKernel_sample size d { args with residuals := residuals } other i j hi hj hS
    simp only [blockSample] at e1 e2 hp ⊢
    rw [e2, e1, hp, hr]
  · intro a h
    exact addKernel_frame size d args mem a h

theorem add_pairs_raster_and_frames_witness :
    (BlockSize.DDS.width ≤ demoArgs.rowPixelStride ∧
      blockSample demoArgs (addKernel .DDS .U10 demoArgs demoPlane) 3 2
        = addLane .U10 (blockSample demoArgs demoPlane 3 2) (demoArgs.residuals (4 * 2 + 3))) ∧
    (¬ inBlock demoArgs BlockSize.DDS.width 21 ∧
      addKernel .DDS .U10 demoArgs demoPlane 21 = demoPlane 21) :=
  ⟨⟨by decide,
      ((add_pairs_raster_and_frames .DDS .U10 demoArgs demoPlane).1 (by decide) 3 2
        (by decide) (by decide)).1⟩,
    ⟨by decide, (add_pairs_raster_and_frames .DDS .U10 demoArgs demoPlane).2 21 (by decide)⟩⟩

/-! ### The unsigned ADD as a rounded sum -/

theorem addLane_eq_rounded (d : Depth) (hd : d ≠ .S16) (p r : Int) (hp : validSample d p)
    (hr : isS16 r) : addLane d p r = addRoundedU d.bits p r := by
  unfold validSample at hp
  unfold isS16 at hr
  cases d
  · simp only [addLane, addU8_lane, vrshl_lane_m7, Depth.lo, Depth.hi, addRoundedU,
      Depth.bits, clamp] at hp ⊢
    norm_num
    unfold wrap16 sat16
    omega
  · simp only [addLane, addU_lane, vrshl_lane_m5, vshl_lane_5, Depth.lo, Depth.hi,
      addRoundedU, Depth.bits, clamp] at hp ⊢
    norm_num
    unfold wrap16 sat16
    omega
  · simp only [addLane, addU_lane, vrshl_lane_m3, vshl_lane_3, Depth.lo, Depth.hi,
      addRoundedU, Depth.bits, clamp] at hp ⊢
    norm_num
    unfold wrap16 sat16
    omega
  · simp only [addLane, addU_lane, vrshl_lane_m1, vshl_lane_1, Depth.lo, Depth.hi,
      addRoundedU, Depth.bits, clamp] at hp ⊢
    norm_num
    unfold wrap16 sat16
    omega
  · exact absurd rfl hd

/-- C29. The intermediate `int16_t` saturation of the unsigned ADD never changes the
result: for `N` in 8, 10, 12, 14, both block sizes, a valid sample `p` and an `int16_t`
residual `r`, the sample stored by the ADD kernel is `addRoundedU N p r`, that is
`clamp (p + floor ((r + 2 ^ (s - 1)) / 2 ^ s)) 0 (2 ^ N - 1)` with `s = 15 - N`. -/
theorem add_unsigned_is_rounded_sum (size : BlockSize) (d : Depth) (hd : d ≠ .S16)
    (args : ApplyCmdBufferArgs) (mem : Plane) (i j : Nat)
    (hi : i < size.width) (hj : j < size.width) (hS : size.width ≤ args.rowPixelStride)
    (hv : validSample d (blockSample args mem i j))
    (hr : isS16 (args.residuals (size.width * j + i))) :
    blockSample args (addKernel size d args mem) i j
      = addRoundedU d.bits (blockSample args mem i j)
          (args.residuals (size.width * j + i)) := by
  rw [addKernel_sample size d args mem i j hi hj hS]
  exact addLane_eq_rounded d hd _ _ hv hr

theorem add_unsigned_is_rounded_sum_witness :
    (validSample .U8 (blockSample demoArgs (fun a => demoPlane a % 256) 2 3) ∧
      isS16 (demoArgs.residuals (4 * 3 + 2))) ∧
    blockSample demoArgs (addKernel .DDS .U8 demoArgs (fun a => demoPlane a % 256)) 2 3
      = addRoundedU 8 (blockSample demoArgs (fun a => demoPlane a % 256) 2 3)
          (demoArgs.residuals (4 * 3 + 2)) :=
  ⟨by decide,
    add_unsigned_is_rounded_sum .DDS .U8 (by decide) demoArgs (fun a => demoPlane a % 256) 2 3
      (by decide) (by decide) (by decide) (by decide) (by decide)⟩

/-! ### SET as SET-ZERO followed by ADD -/

/-- C30. On a signed destination SET equals SET-ZERO followed by ADD: for both block
sizes, on a plane whose row stride is at least the block width, with `int16_t`
residuals, applying the SET-ZERO kernel and then the signed ADD kernel of the same
command gives the same plane as applying the SET kernel. -/
theorem set_eq_setZero_then_add (size : BlockSize) (args : ApplyCmdBufferArgs) (mem : Plane)
    (hS : size.width ≤ args.rowPixelStride)
    (hr : ∀ k, k < size.width * size.width → isS16 (args.residuals k)) :
    addKernel size .S16 args (setZeroKernel size args mem) = setKernel size args mem := by
  funext a
  by_cases h : inBlock args size.width a
  · obtain ⟨i, hi, j, hj, rfl⟩ := h
    have e1 := addKernel_sample size .S16 args (setZeroKernel size args mem) i j hi hj hS
    have e2 := setZeroKernel_sample size args mem i j hi hj
    have e3 := setKernel_sample size args mem i j hi hj hS
    have hk : size.width * j + i < size.width * size.width := by
      have : size.width * j + size.width ≤ size.width * size.width := by
        rw [← Nat.mul_succ]
        exact Nat.mul_le_mul_left _ hj
      omega
    have hb := hr _ hk
    simp only [blockSample] at e1 e2 e3
    rw [e1, e2, e3]
    unfold isS16 at hb
    simp only [addLane]
    unfold sat16
    omega
  · rw [addKernel_frame size .S16 args _ a h, setZeroKernel_frame size args mem a h,
      setKernel_frame size args mem a h]

theorem set_eq_setZero_then_add_witness :
    (BlockSize.DDS.width ≤ demoArgs.rowPixelStride ∧
      ∀ k, k < BlockSize.DDS.width * BlockSize.DDS.width → isS16 (demoArgs.residuals k)) ∧
    addKernel .DDS .S16 demoArgs (setZeroKernel .DDS demoArgs demoPlane)
      = setKernel .DDS demoArgs demoPlane :=
  have hr : ∀ k, k < BlockSize.DDS.width * BlockSize.DDS.width →
      isS16 (demoArgs.residuals k) := by
    intro k hk
    have hk16 : k < 16 := hk
    simp only [isS16, demoArgs]
    omega
  ⟨⟨by decide, hr⟩, set_eq_setZero_then_add .DDS demoArgs demoPlane (by decide) hr⟩

/-! ### Deblocking weights up to 16, and the range of the stripped coefficient -/

theorem deblockWeigh_attenuates (w : Nat) (r : Int) (hw : w ≤ 16) (hr : isS16 r) :
    deblockWeigh w r = (w : Int) * r / 16 ∧
    min 0 r ≤ deblockWeigh w r ∧ deblockWeigh w r ≤ max 0 r ∧
    (w = 16 → deblockWeigh w r = r) ∧ (w = 0 → deblockWeigh w r = 0) := by
  rw [deblockWeigh_eq]
  unfold isS16 at hr
  have hw0 : (0 : Int) ≤ (w : Int) := Int.ofNat_nonneg w
  have hw16 : (w : Int) ≤ 16 := by exact_mod_cast hw
  have h1 : min 0 r ≤ (w : Int) * r / 16 := by
    rw [Int.le_ediv_iff_mul_le (by norm_num : (0 : Int) < 16)]
    rcases le_total 0 r with h | h
    · rw [min_eq_left h]
      nlinarith
    · rw [min_eq_right h]
      nlinarith
  have h2 : (w : Int) * r / 16 ≤ max 0 r := by
    have : (w : Int) * r / 16 < max 0 r + 1 := by
      rw [Int.ediv_lt_iff_lt_mul (by norm_num : (0 : Int) < 16)]
      rcases le_total 0 r with h | h
      · rw [max_eq_right h]
        nlinarith
      · rw [max_eq_left h]
        nlinarith
    omega
  have h16 : w = 16 → (w : Int) * r / 16 = r := by
    intro h
    subst h
    simp
  have h0 : w = 0 → (w : Int) * r / 16 = 0 := by
    intro h
    subst h
    simp
  generalize (w : Int) * r / 16 = z at h1 h2 h16 h0 ⊢
  have hz : wrap16 z = z := by
    unfold wrap16
    omega
  rw [hz]
  exact ⟨rfl, h1, h2, h16, h0⟩

/-- C31. Deblocking with weights up to 16 only attenuates: with deblocking enabled,
corner and side weights at most 16 and `int16_t` residuals, the value `deblockResiduals`
writes at each affected position is exactly `floor (w * r / 16)` for the position's
weight `w` and the residual `r` found there (the `int16_t` cast does not wrap), it lies
between 0 and `r` inclusive, it is `r` when `w = 16` and 0 when `w = 0`. -/
theorem deblockResiduals_attenuates (deblock : Deblock_t) (b : Nat → Int)
    (he : deblock.enabled = true) (hc : deblock.corner ≤ 16) (hs : deblock.side ≤ 16)
    (hb : ∀ i, i < 16 → isS16 (b i)) :
    ∃ out, deblockResiduals deblock b = some out ∧
      (∀ i, i ∈ [0, 5, 10, 15] →
        out i = (deblock.corner : Int) * b i / 16 ∧
        min 0 (b i) ≤ out i ∧ out i ≤ max 0 (b i) ∧
        (deblock.corner = 16 → out i = b i) ∧ (deblock.corner = 0 → out i = 0)) ∧
      (∀ i, i ∈ [1, 2, 4, 7, 8, 11, 13, 14] →
        out i = (deblock.side : Int) * b i / 16 ∧
        min 0 (b i) ≤ out i ∧ out i ≤ max 0 (b i) ∧
        (deblock.side = 16 → out i = b i) ∧ (deblock.side = 0 → out i = 0)) := by
  obtain ⟨out, h, hcor, hside, _⟩ := deblockResiduals_enabled deblock b he
  refine ⟨out, h, ?_, ?_⟩
  · intro i hi
    have hi16 : i < 16 := by
      simp only [List.mem_cons, List.mem_singleton, List.not_mem_nil, or_false] at hi
      omega
    rw [hcor i hi]
    exact deblockWeigh_attenuates deblock.corner (b i) hc (hb i hi16)
  · intro i hi
    have hi16 : i < 16 := by
      simp only [List.mem_cons, List.mem_singleton, List.not_mem_nil, or_false] at hi
      omega
    rw [hside i hi]
    exact deblockWeigh_attenuates deblock.side (b i) hs (hb i hi16)

theorem deblockResiduals_attenuates_witness :
    (∀ i, i < 16 → isS16 (demoBlock i)) ∧
    ∃ out, deblockResiduals { enabled := true, corner := 16, side := 5 } demoBlock = some out ∧
      (∀ i, i ∈ [0, 5, 10, 15] →
        out i = ((16 : Nat) : Int) * demoBlock i / 16 ∧
        min 0 (demoBlock i) ≤ out i ∧ out i ≤ max 0 (demoBlock i) ∧
        (16 = 16 → out i = demoBlock i) ∧ (16 = 0 → out i = 0)) ∧
      (∀ i, i ∈ [1, 2, 4, 7, 8, 11, 13, 14] →
        out i = ((5 : Nat) : Int) * demoBlock i / 16 ∧
        min 0 (demoBlock i) ≤ out i ∧ out i ≤ max 0 (demoBlock i) ∧
        (5 = 16 → out i = demoBlock i) ∧ (5 = 0 → out i = 0)) :=
  have hb : ∀ i, i < 16 → isS16 (demoBlock i) := by decide
  ⟨hb, deblockResiduals_attenuates { enabled := true, corner := 16, side := 5 } demoBlock rfl
    (by decide) (by decide) hb⟩

/-- C32. The `int16_t` cast in `stripUserData` never truncates: for an `int16_t`
coefficient `c` at `layerIndex` and a shift in `[0, 15]`, the 32-bit value
`((c >> shift) >> 1) * sign` lies in `[-16384, 16384]`, and the coefficient stored by
`stripUserData` at LOQ1 with user data enabled equals it exactly. -/
theorem stripUserData_cast_exact (userData : UserDataConfig_t) (coeffs : Nat → Int)
    (he : userData.enabled = true) (hs : userData.shift ≤ 15)
    (hc : isS16 (coeffs userData.layerIndex)) :
    (-16384 ≤ coeffs userData.layerIndex / 2 ^ userData.shift / 2
        * (if coeffs userData.layerIndex / 2 ^ userData.shift % 2 ≠ 0 then -1 else 1) ∧
      coeffs userData.layerIndex / 2 ^ userData.shift / 2
        * (if coeffs userData.layerIndex / 2 ^ userData.shift % 2 ≠ 0 then -1 else 1)
          ≤ 16384) ∧
    stripUserData .LOQ1 userData coeffs userData.layerIndex
      = coeffs userData.layerIndex / 2 ^ userData.shift / 2
        * (if coeffs userData.layerIndex / 2 ^ userData.shift % 2 ≠ 0 then -1 else 1) := by
  have hb := ediv_pow_isS16 _ userData.shift hc
  have hact : LOQIndex_t.LOQ1 = LOQIndex_t.LOQ1 ∧ userData.enabled = true := ⟨rfl, he⟩
  have _ := hs
  unfold stripUserData
  rw [if_pos hact]
  simp only [setAt, if_true]
  generalize coeffs userData.layerIndex / 2 ^ userData.shift = c' at hb ⊢
  unfold isS16 at hb
  unfold wrap16
  split_ifs <;> omega

theorem stripUserData_cast_exact_witness :
    (demoUserData.shift ≤ 15 ∧ isS16 (demoBlock demoUserData.layerIndex)) ∧
    (-16384 ≤ demoBlock demoUserData.layerIndex / 2 ^ demoUserData.shift / 2
        * (if demoBlock demoUserData.layerIndex / 2 ^ demoUserData.shift % 2 ≠ 0
            then -1 else 1) ∧
      demoBlock demoUserData.layerIndex / 2 ^ demoUserData.shift / 2
        * (if demoBlock demoUserData.layerIndex / 2 ^ demoUserData.shift % 2 ≠ 0
            then -1 else 1) ≤ 16384) ∧
    stripUserData .LOQ1 demoUserData demoBlock demoUserData.layerIndex
      = demoBlock demoUserData.layerIndex / 2 ^ demoUserData.shift / 2
        * (if demoBlock demoUserData.layerIndex / 2 ^ demoUserData.shift % 2 ≠ 0
            then -1 else 1) :=
  ⟨⟨by decide, by decide⟩,
    stripUserData_cast_exact demoUserData demoBlock rfl (by decide) (by decide)⟩

/-! ### String utilities -/

theorem iEquals_of_le (a b : List Char) (h : a.length ≤ b.length) :
    iEquals a b = some (decide (a.map toupper = (b.take a.length).map toupper)) := by
  unfold iEquals
  induction a generalizing b with
  | nil => simp [stdEqual]
  | cons x xs ih =>
    cases b with
    | nil => simp at h
    | cons y ys =>
      have hl : xs.length ≤ ys.length := by simpa using h
      unfold stdEqual
      by_cases hp : toupper x = toupper y
      · rw [if_pos (by simpa [toUpperEqual] using hp), ih ys hl]
        simp [hp]
      · rw [if_neg (by simpa [toUpperEqual] using hp)]
        simp [hp]

/-- C38. What `iEquals` does where the claim fails: with `a = "abc"` and
`b = "ABCD"`, a proper extension of `a` up to case, and with `a` empty and `b = "x"`,
`iEquals` returns true, because only the first `a.length()` characters of `b` are
compared; with `a = "abcd"` and `b = "ABC"` the comparison reads `b` past its end. -/
theorem iEquals_accepts_proper_extension :
    iEquals "abc".toList "ABCD".toList = some true ∧
    iEquals [] "x".toList = some true ∧
    iEquals "abcd".toList "ABC".toList = none := by
  decide

theorem substring_prefix (pre rest : List Char) (start : Nat) (h : start ≤ pre.length) :
    substring (pre ++ rest) start pre.length = pre.drop start := by
  unfold substring
  rw [List.drop_append_of_le_length h, List.take_append_of_le_length (by simp)]
  apply List.take_of_length_le
  simp

theorem substring_all (src : List Char) (start : Nat) :
    substring src start src.length = src.drop start := by
  unfold substring
  apply List.take_of_length_le
  simp

theorem splitLoop_spec (src separators : List Char) :
    ∀ (rest pre : List Char) (start : Nat) (inToken : Bool) (output : List (List Char)),
      src = pre ++ rest → start ≤ pre.length →
      (inToken = false → start = pre.length) →
      (∀ c ∈ pre.drop start, c ∉ separators) →
      (splitLoop src separators rest pre.length start inToken output).flatten
          = output.flatten ++ pre.drop start ++ rest.filter (fun c => decide (c ∉ separators)) ∧
      ((∀ t ∈ output, ∀ c ∈ t, c ∉ separators) →
        ∀ t ∈ splitLoop src separators rest pre.length start inToken output,
          ∀ c ∈ t, c ∉ separators) := by
  intro rest
  induction rest with
  | nil =>
    intro pre start inToken output hsrc hstart _ hfree
    have e : src = pre := by simpa using hsrc
    subst e
    unfold splitLoop
    rw [substring_all]
    constructor
    · simp
    · intro hout t ht
      rcases List.mem_append.mp ht with h | h
      · exact hout t h
      · have : t = List.drop start src := by simpa using h
        subst this
        exact hfree
  | cons c rest ih =>
    intro pre start inToken output hsrc hstart htok hfree
    have hsrc2 : src = (pre ++ [c]) ++ rest := by simpa using hsrc
    have hlen : (pre ++ [c]).length = pre.length + 1 := by simp
    unfold splitLoop
    by_cases hc : c ∉ separators
    · rw [if_pos hc]
      have hdrop : (pre ++ [c]).drop start = pre.drop start ++ [c] :=
        List.drop_append_of_le_length hstart
      have hfree2 : ∀ d ∈ (pre ++ [c]).drop start, d ∉ separators := by
        intro d hd
        rw [hdrop] at hd
        rcases List.mem_append.mp hd with h | h
        · exact hfree d h
        · have : d = c := by simpa using h
          subst this
          exact hc
      have := ih (pre ++ [c]) start true output hsrc2 (by omega) (by simp) hfree2
      rw [hlen] at this
      obtain ⟨h1, h2⟩ := this
      refine ⟨?_, h2⟩
      rw [h1, hdrop, List.filter_cons_of_pos (by simpa using hc)]
      simp
    · rw [if_neg hc]
      have hdrop : (pre ++ [c]).drop (pre.length + 1) = [] := by
        apply List.drop_of_length_le
        simp
      have hsub : substring src start pre.length = pre.drop start := by
        rw [hsrc]
        exact substring_prefix pre (c :: rest) start hstart
      have := ih (pre ++ [c]) (pre.length + 1) false
        (if inToken = true then output ++ [substring src start pre.length] else output)
        hsrc2 (by simp) (by simp) (by rw [hdrop]; simp)
      rw [hlen] at this
      obtain ⟨h1, h2⟩ := this
      constructor
      · rw [h1, hdrop, List.filter_cons_of_neg (by simpa using hc), hsub]
        cases inToken with
        | true => simp
        | false =>
          have hs := htok rfl
          subst hs
          simp
      · intro hout
        apply h2
        intro t ht
        cases inToken with
        | true =>
          simp only [if_true] at ht
          rcases List.mem_append.mp ht with h | h
          · exact hout t h
          · have : t = substring src start pre.length := by simpa using h
            rw [this, hsub]
            exact hfree
        | false =>
          simp only [Bool.false_eq_true, if_false] at ht
          exact hout t ht

/-- C39. `split` loses only separator characters: the concatenation of the tokens of
`split src separators`, in order, is `src` with every character of `separators`
removed, and no token contains a separator character; `split` of the empty string is
the empty list, and a non-empty `src` containing no separator gives the single token
`src`. -/
theorem split_loses_only_separators (src separators : List Char) :
    (split src separators).flatten = src.filter (fun c => decide (c ∉ separators)) ∧
    (∀ t ∈ split src separators, ∀ c ∈ t, c ∉ separators) ∧
    split [] separators = [] ∧
    (src ≠ [] → (∀ c ∈ src, c ∉ separators) → split src separators = [src]) := by
  have hspec := splitLoop_spec src separators src [] 0 true [] (by simp) (by simp)
    (by simp) (by simp)
  refine ⟨?_, ?_, ?_, ?_⟩
  · unfold split
    by_cases h : src = []
    · subst h
      simp
    · rw [if_neg h]
      simpa using hspec.1
  · unfold split
    by_cases h : src = []
    · subst h
      simp
    · rw [if_neg h]
      exact hspec.2 (by simp)
  · simp [split]
  · intro hne hall
    unfold split
    rw [if_neg hne]
    have key : ∀ (rest : List Char) (i : Nat) (output : List (List Char)),
        (∀ c ∈ rest, c ∉ separators) →
        splitLoop src separators rest i 0 true output = output ++ [src] := by
      intro rest
      induction rest with
      | nil =>
        intro i output _
        unfold splitLoop
        rw [substring_all]
        simp
      | cons c rest ih =>
        intro i output hr
        unfold splitLoop
        rw [if_pos (hr c (by simp))]
        exact ih (i + 1) output (fun d hd => hr d (by simp [hd]))
    simpa using key src 0 [] hall

theorem split_loses_only_separators_witness :
    (split "a,b;;c".toList ",;".toList).flatten
        = "a,b;;c".toList.filter (fun c => decide (c ∉ ",;".toList)) ∧
    split "abc".toList ",;".toList = ["abc".toList] :=
  ⟨(split_loses_only_separators "a,b;;c".toList ",;".toList).1,
    (split_loses_only_separators "abc".toList ",;".toList).2.2.2 (by decide) (by decide)⟩

/-! ### Picture layout -/

theorem planes_eq_entries :
    ∀ li ∈ kPictureLayoutInfo, planes li = some li.planeWidthShift.length := by
  decide

theorem isCompatible_refl (layout : PictureLayout) : isCompatible layout layout = some true := by
  simp [isCompatible]

theorem shiftsMatchFrom_symm (info other : Info) (count plane : Nat) :
    shiftsMatchFrom info other count plane = shiftsMatchFrom other info count plane := by
  induction count generalizing plane with
  | zero => rfl
  | succ n ih =>
    unfold shiftsMatchFrom
    rw [ih]
    by_cases h : arrayAt info.planeWidthShift plane ≠ arrayAt other.planeWidthShift plane ∨
        arrayAt info.planeHeightShift plane ≠ arrayAt other.planeHeightShift plane
    · have h2 : arrayAt other.planeWidthShift plane ≠ arrayAt info.planeWidthShift plane ∨
          arrayAt other.planeHeightShift plane ≠ arrayAt info.planeHeightShift plane := by
        rcases h with h | h
        · exact Or.inl (Ne.symm h)
        · exact Or.inr (Ne.symm h)
      rw [if_pos h, if_pos h2]
    · have h2 : ¬ (arrayAt other.planeWidthShift plane ≠ arrayAt info.planeWidthShift plane ∨
          arrayAt other.planeHeightShift plane ≠ arrayAt info.planeHeightShift plane) := by
        intro h3
        apply h
        rcases h3 with h3 | h3
        · exact Or.inl (Ne.symm h3)
        · exact Or.inr (Ne.symm h3)
      rw [if_neg h, if_neg h2]

theorem isCompatible_symm_of_planes_eq (layout other : PictureLayout)
    (h : planes layout.layoutInfo = planes other.layoutInfo) :
    isCompatible layout other = isCompatible other layout := by
  unfold isCompatible
  by_cases hd : layout.width ≠ other.width ∨ layout.height ≠ other.height
  · have hd2 : other.width ≠ layout.width ∨ other.height ≠ layout.height := by
      rcases hd with hd | hd
      · exact Or.inl (Ne.symm hd)
      · exact Or.inr (Ne.symm hd)
    rw [if_pos hd, if_pos hd2]
  · have hd2 : ¬ (other.width ≠ layout.width ∨ other.height ≠ layout.height) := by
      intro h3
      apply hd
      rcases h3 with h3 | h3
      · exact Or.inl (Ne.symm h3)
      · exact Or.inr (Ne.symm h3)
    rw [if_neg hd, if_neg hd2]
    by_cases hf : layout.layoutInfo.format = other.layoutInfo.format
    · rw [if_pos hf, if_pos hf.symm]
    · rw [if_neg hf, if_neg (Ne.symm hf)]
      by_cases hb : layout.layoutInfo.bits ≠ other.layoutInfo.bits
      · rw [if_pos hb, if_pos (Ne.symm hb)]
      · rw [if_neg hb, if_neg (fun h3 => hb (Ne.symm h3))]
        by_cases hc : layout.layoutInfo.colorComponents ≠ other.layoutInfo.colorComponents
        · rw [if_pos hc, if_pos (Ne.symm hc)]
        · rw [if_neg hc, if_neg (fun h3 => hc (Ne.symm h3)), ← h]
          cases planes layout.layoutInfo with
          | none => rfl
          | some n => simp [shiftsMatchFrom_symm layout.layoutInfo other.layoutInfo n 0]

/-- C35. What `isCompatible` does where the claim fails: for the 64 x 64 layouts of
`LCEVC_I420_8` (three planes) and `LCEVC_NV12_8` (two planes), which agree in size,
bit depth and number of colour components, the I420 layout finds the NV12 layout
incompatible, since the shift loop runs over its own three planes and plane 2 of NV12
has shift 0, while the NV12 layout finds the I420 layout compatible, since its loop
stops after two planes: the relation is not symmetric. -/
theorem isCompatible_not_symmetric :
    ((demoLayout .LCEVC_I420_8 64 64 64).bind fun a =>
      (demoLayout .LCEVC_NV12_8 64 64 64).bind fun b =>
        some (isCompatible a b, isCompatible b a)) = some (some false, some true) := by
  decide

theorem roundtrip_planar :
    ∀ li ∈ kPictureLayoutInfo, li.colorSpace ≠ .RGB → ∀ p, p < 4 → p < (planes li).getD 0 →
      (skipOffsetFrom li 256 (firstComponentFrom li p 0)).bind
        (fun c => getPlaneForComponentFrom li c 256 0 0) = some p := by
  decide

/-- C36. What the two lookups do where the claim fails: `LCEVC_BGR_8` has the single
plane 0, `getComponentForPlane(0)` is component 2 (the one with offset 0), and
`getPlaneForComponent(2)` is 1, a plane the format does not have; likewise
`getPlaneForComponent(1)` is 1 for `LCEVC_RGB_8`, whose only plane is plane 0. -/
theorem getPlaneForComponent_packed_beyond_planes :
    (demoLayout .LCEVC_BGR_8 64 64 192).map
        (fun l => (planes l.layoutInfo, getComponentForPlane l 0, getPlaneForComponent l 2))
      = some (some 1, some 2, some 1) ∧
    (demoLayout .LCEVC_RGB_8 64 64 192).map
        (fun l => (planes l.layoutInfo, getPlaneForComponent l 1))
      = some (some 1, some 1) := by
  decide

theorem planeBytesBelow_mono (layout : PictureLayout) (p q : Nat) (h : p ≤ q) :
    planeBytesBelow layout p ≤ planeBytesBelow layout q := by
  induction q with
  | zero =>
    have : p = 0 := by omega
    subst this
    exact Nat.le_refl _
  | succ n ih =>
    rcases Nat.lt_or_ge p (n + 1) with hlt | hge
    · have := ih (by omega)
      show planeBytesBelow layout p ≤ planeBytesBelow layout n + planeBytes layout n
      omega
    · have : p = n + 1 := by omega
      subst this
      exact Nat.le_refl _

theorem generateOffsetsFrom_spec (layout : PictureLayout) (count : Nat) :
    ∀ (plane : Nat) (offs : Nat → Nat),
      (generateOffsetsFrom layout count plane
          (offs, planeBytesBelow layout plane % 2 ^ 32)).2
        = planeBytesBelow layout (plane + count) % 2 ^ 32 ∧
      ∀ k, (generateOffsetsFrom layout count plane
          (offs, planeBytesBelow layout plane % 2 ^ 32)).1 k
        = if plane ≤ k ∧ k < plane + count then planeBytesBelow layout k % 2 ^ 32
          else offs k := by
  induction count with
  | zero =>
    intro plane offs
    refine ⟨rfl, ?_⟩
    intro k
    have : ¬ (plane ≤ k ∧ k < plane + 0) := by omega
    rw [if_neg this]
    rfl
  | succ n ih =>
    intro plane offs
    have e : (planeBytesBelow layout plane % 2 ^ 32
          + layout.rowStrides plane
            * (layout.height >>> arrayAt layout.layoutInfo.planeHeightShift plane) % 2 ^ 32)
          % 2 ^ 32 = planeBytesBelow layout (plane + 1) % 2 ^ 32 := by
      show _ = (planeBytesBelow layout plane + planeBytes layout plane) % 2 ^ 32
      unfold planeBytes
      omega
    unfold generateOffsetsFrom
    simp only []
    rw [e]
    obtain ⟨h1, h2⟩ := ih (plane + 1)
      (setPlane offs plane (planeBytesBelow layout plane % 2 ^ 32))
    constructor
    · rw [h1]
      congr 2
      omega
    · intro k
      rw [h2 k]
      unfold setPlane
      by_cases hk : k = plane
      · subst hk
        have a1 : ¬ (k + 1 ≤ k ∧ k < k + 1 + n) := by omega
        have a2 : k ≤ k ∧ k < k + (n + 1) := by omega
        rw [if_neg a1, if_pos a2, if_pos rfl]
      · by_cases hr : plane + 1 ≤ k ∧ k < plane + 1 + n
        · have a2 : plane ≤ k ∧ k < plane + (n + 1) := by omega
          rw [if_pos hr, if_pos a2]
        · have a2 : ¬ (plane ≤ k ∧ k < plane + (n + 1)) := by omega
          rw [if_neg hr, if_neg a2, if_neg hk]

theorem generateOffsets_spec (layout : PictureLayout) (n : Nat)
    (hn : planes layout.layoutInfo = some n) :
    ∃ out, generateOffsets layout = some out ∧
      (∀ p, p < n → out.planeOffsets p = planeBytesBelow layout p % 2 ^ 32) ∧
      (∀ p, n ≤ p → out.planeOffsets p = layout.planeOffsets p) ∧
      out.size = planeBytesBelow layout n % 2 ^ 32 := by
  have h := generateOffsetsFrom_spec layout n 0 layout.planeOffsets
  have h0 : planeBytesBelow layout 0 % 2 ^ 32 = 0 := rfl
  rw [h0, Nat.zero_add] at h
  refine ⟨_, by rw [generateOffsets, hn]; rfl, ?_, ?_, ?_⟩
  · intro p hp
    show (generateOffsetsFrom layout n 0 (layout.planeOffsets, 0)).1 p = _
    rw [h.2 p, if_pos ⟨Nat.zero_le _, hp⟩]
  · intro p hp
    show (generateOffsetsFrom layout n 0 (layout.planeOffsets, 0)).1 p = _
    rw [h.2 p, if_neg (by omega)]
  · exact h.1

/-- C37, as stated, fails: for the 40000 x 40000 layout of `LCEVC_I444_8` with row
strides of 40000 bytes the three planes hold 4 800 000 000 bytes, more than `uint32_t`
can count; `generateOffsets` leaves plane 1 at offset 1 600 000 000, plane 2 at offset
3 200 000 000 and the size at 505 032 704, so the offset of plane 2 exceeds the size. -/
theorem generateOffsets_offset_beyond_size :
    (demoLayout .LCEVC_I444_8 40000 40000 40000).map
        (fun l => (l.planeOffsets 1, l.planeOffsets 2, l.size,
          decide (l.planeOffsets 2 ≤ l.size)))
      = some (1600000000, 3200000000, 505032704, false) := by
  decide

/-- C37, amended. For every layout with `n` planes `generateOffsets` returns with
`planeOffsets[0] = 0`, `planeOffsets[p + 1] = planeOffsets[p] + rowStrides[p] *
(height >> planeHeightShift[p])` for each further plane and `size` the sum of these
products over all planes, all in 32-bit unsigned arithmetic; when the sum of the
products is below `2 ^ 32`, the offsets are non-decreasing in the plane index and each
is at most `size`. -/
theorem generateOffsets_running_sum (layout : PictureLayout) (n : Nat)
    (hn : planes layout.layoutInfo = some n) :
    ∃ out, generateOffsets layout = some out ∧
      (0 < n → out.planeOffsets 0 = 0) ∧
      (∀ p, p + 1 < n →
        out.planeOffsets (p + 1) = (out.planeOffsets p + planeBytes layout p) % 2 ^ 32) ∧
      out.size = planeBytesBelow layout n % 2 ^ 32 ∧
      (planeBytesBelow layout n < 2 ^ 32 →
        (∀ p q, p ≤ q → q < n → out.planeOffsets p ≤ out.planeOffsets q) ∧
        ∀ p, p < n → out.planeOffsets p ≤ out.size) := by
  obtain ⟨out, ho, hp, _, hs⟩ := generateOffsets_spec layout n hn
  refine ⟨out, ho, ?_, ?_, hs, ?_⟩
  · intro h
    rw [hp 0 h]
    rfl
  · intro p h
    rw [hp (p + 1) h, hp p (by omega)]
    show (planeBytesBelow layout p + planeBytes layout p) % 2 ^ 32 = _
    omega
  · intro hfit
    have hle : ∀ p, p ≤ n → planeBytesBelow layout p % 2 ^ 32 = planeBytesBelow layout p := by
      intro p h
      have := planeBytesBelow_mono layout p n h
      exact Nat.mod_eq_of_lt (by omega)
    constructor
    · intro p q hpq hq
      rw [hp p (by omega), hp q hq, hle p (by omega), hle q (by omega)]
      exact planeBytesBelow_mono layout p q hpq
    · intro p h
      rw [hp p h, hs, hle p (by omega), hle n (Nat.le_refl _)]
      exact planeBytesBelow_mono layout p n (by omega)

theorem generateOffsets_running_sum_witness :
    planes (findLayoutInfo .LCEVC_I420_8) = some 3 ∧
    ∃ out, generateOffsets
        { layoutInfo := findLayoutInfo .LCEVC_I420_8, width := 64, height := 48,
          rowStrides := fun p => if p = 0 then 64 else 32, planeOffsets := fun _ => 0,
          size := 0 } = some out ∧
      out.planeOffsets 0 = 0 ∧ out.planeOffsets 1 = 3072 ∧ out.planeOffsets 2 = 3840 ∧
      out.size = 4608 := by
  refine ⟨by decide, ?_⟩
  obtain ⟨out, ho, h0, hstep, hsize, _⟩ := generateOffsets_running_sum
    { layoutInfo := findLayoutInfo .LCEVC_I420_8, width := 64, height := 48,
      rowStrides := fun p => if p = 0 then 64 else 32, planeOffsets := fun _ => 0,
      size := 0 } 3 (by decide)
  have e0 := h0 (by decide)
  have e1 := hstep 0 (by decide)
  have e2 := hstep 1 (by decide)
  rw [e0] at e1
  rw [e1] at e2
  exact ⟨out, ho, e0, by rw [e1]; decide, by rw [e2]; decide, by rw [hsize]; decide⟩

/-! ### Dither -/

/-- C25. Dither values are bounded by the strength: for every strength `s` in
`[1, 128]`, `ditherRegenerate` with uniform dither succeeds, and for every length up to
the buffer size `ditherGetBuffer` returns a buffer all of whose `length` values `v`
satisfy `-s ≤ v ≤ s`. -/
theorem dither_values_within_strength (dither : Dither) (s : Nat) (random : Nat → Nat)
    (hs1 : 1 ≤ s) (hs2 : s ≤ 128) :
    (ditherRegenerate dither s .DTUniform random).1 = true ∧
    ∀ length position, length ≤ kDitherBufferSize →
      ∃ values,
        ditherGetBuffer (ditherRegenerate dither s .DTUniform random).2 length position
          = some values ∧
        ∀ j, j < length → -(s : Int) ≤ values j ∧ values j ≤ (s : Int) := by
  have hs : ¬ s > kMaxDitherStrength := by
    unfold kMaxDitherStrength
    omega
  constructor
  · simp only [ditherRegenerate, if_neg hs]
  · intro length position hl
    have hl2 : ¬ length > kDitherBufferSize := by omega
    refine ⟨_, by rw [ditherGetBuffer, if_neg hl2], ?_⟩
    intro j hj
    have hpos : position % (kDitherBufferSize - length + 1) < kDitherBufferSize - length + 1 :=
      Nat.mod_lt _ (by omega)
    have hidx : position % (kDitherBufferSize - length + 1) + j < kDitherBufferSize := by
      omega
    simp only [ditherRegenerate, if_neg hs]
    rw [if_pos ⟨trivial, hidx⟩]
    have hr : random (position % (kDitherBufferSize - length + 1) + j) % (2 * s + 1)
        < 2 * s + 1 := Nat.mod_lt _ (by omega)
    generalize random (position % (kDitherBufferSize - length + 1) + j) % (2 * s + 1) = r
      at hr
    unfold wrap8
    omega

theorem dither_values_within_strength_witness :
    (1 ≤ 128 ∧ 128 ≤ 128) ∧
    (ditherRegenerate demoDither 128 .DTUniform (fun i => 7 * i + 256)).1 = true ∧
    ∀ length position, length ≤ kDitherBufferSize →
      ∃ values,
        ditherGetBuffer (ditherRegenerate demoDither 128 .DTUniform (fun i => 7 * i + 256)).2
          length position = some values ∧
        ∀ j, j < length → -((128 : Nat) : Int) ≤ values j ∧ values j ≤ ((128 : Nat) : Int) :=
  ⟨⟨by decide, by decide⟩,
    dither_values_within_strength demoDither 128 (fun i => 7 * i + 256) (by decide)
      (by decide)⟩

/-- C26. Invalid dither requests are rejected: `ditherRegenerate` fails for every
strength greater than 128 and succeeds for strength 128, and `ditherGetBuffer` returns
null for every requested length greater than the internal buffer size of 16384
entries. -/
theorem dither_rejects_invalid (dither : Dither) (type : DitherType_t)
    (random : Nat → Nat) :
    (∀ s, 128 < s → (ditherRegenerate dither s type random).1 = false) ∧
    (ditherRegenerate dither 128 type random).1 = true ∧
    (∀ length position, 16384 < length → ditherGetBuffer dither length position = none) := by
  refine ⟨?_, ?_, ?_⟩
  · intro s hs
    have h : s > kMaxDitherStrength := hs
    simp only [ditherRegenerate, if_pos h]
  · have h : ¬ (128 > kMaxDitherStrength) := by decide
    simp only [ditherRegenerate, if_neg h]
  · intro length position hl
    have h : length > kDitherBufferSize := hl
    simp only [ditherGetBuffer, if_pos h]

theorem dither_rejects_invalid_witness :
    (ditherRegenerate demoDither 129 .DTUniform (fun i => i)).1 = false ∧
    (ditherRegenerate demoDither 128 .DTUniform (fun i => i)).1 = true ∧
    ditherGetBuffer demoDither 16385 0 = none :=
  ⟨(dither_rejects_invalid demoDither .DTUniform (fun i => i)).1 129 (by decide),
    (dither_rejects_invalid demoDither .DTUniform (fun i => i)).2.1,
    (dither_rejects_invalid demoDither .DTUniform (fun i => i)).2.2 16385 0 (by decide)⟩

/-! ### Files and the dump cache -/

theorem surfaceDumpCacheQueryFrom_find (id : List Char) (rest : List SurfaceDumpEntry_t) :
    ∀ pre : List SurfaceDumpEntry_t,
      ∃ r, surfaceDumpCacheQueryFrom (pre ++ rest) id rest.length pre.length = some r ∧
        ((∃ k e, r = some k ∧ (pre ++ rest).get? k = some e ∧
            rest.find? (fun e => decide (e.id = id)) = some e) ∨
          (r = none ∧ rest.find? (fun e => decide (e.id = id)) = none)) := by
  induction rest with
  | nil =>
    intro pre
    exact ⟨none, rfl, Or.inr ⟨rfl, rfl⟩⟩
  | cons e rest ih =>
    intro pre
    have hget : (pre ++ e :: rest).get? pre.length = some e := by
      rw [List.get?_eq_getElem?, List.getElem?_append_right (Nat.le_refl _)]
      simp
    show ∃ r, surfaceDumpCacheQueryFrom (pre ++ e :: rest) id (rest.length + 1) pre.length
        = some r ∧ _
    unfold surfaceDumpCacheQueryFrom
    rw [hget]
    by_cases he : e.id = id
    · refine ⟨some pre.length, by simp [he], Or.inl ⟨pre.length, e, rfl, hget, ?_⟩⟩
      simp [List.find?, he]
    · obtain ⟨r, hr, hcase⟩ := ih (pre ++ [e])
      have e1 : pre ++ [e] ++ rest = pre ++ e :: rest := by simp
      have e2 : (pre ++ [e]).length = pre.length + 1 := by simp
      rw [e1, e2] at hr
      rw [e1] at hcase
      refine ⟨r, by simp [he, hr], ?_⟩
      have hfind : (e :: rest).find? (fun e => decide (e.id = id))
          = rest.find? (fun e => decide (e.id = id)) := by
        simp [List.find?, he]
      rw [hfind]
      exact hcase

theorem cacheEntries_cases (state : DumpState) (entries : List SurfaceDumpEntry_t)
    (h : cacheEntries state = some entries) :
    (state.cache.entries = 0 ∧ state.cache.entryCount = 0 ∧ entries = []) ∨
    (state.cache.entries ≠ 0 ∧ state.arrays state.cache.entries = some entries ∧
      (entries.length : Int) = state.cache.entryCount) := by
  unfold cacheEntries at h
  by_cases h0 : state.cache.entries = 0
  · rw [if_pos h0] at h
    by_cases hc : state.cache.entryCount = 0
    · rw [if_pos hc] at h
      exact Or.inl ⟨h0, hc, by simpa using h.symm⟩
    · rw [if_neg hc] at h
      exact absurd h (by simp)
  · rw [if_neg h0] at h
    cases ha : state.arrays state.cache.entries with
    | none =>
      rw [ha] at h
      exact absurd h (by simp)
    | some l =>
      rw [ha] at h
      dsimp only at h
      by_cases hl : (l.length : Int) = state.cache.entryCount
      · rw [if_pos hl] at h
        have : l = entries := by simpa using h
        subst this
        exact Or.inr ⟨h0, rfl, hl⟩
      · rw [if_neg hl] at h
        exact absurd h (by simp)

theorem surfaceDumpCacheQuery_of_entries (state : DumpState) (id : List Char)
    (entries : List SurfaceDumpEntry_t) (h : cacheEntries state = some entries) :
    ∃ r, surfaceDumpCacheQuery state id = some r ∧
      ((∃ k e, r = some k ∧
          (state.arrays state.cache.entries).bind (fun l => l.get? k) = some e ∧
          entries.find? (fun e => decide (e.id = id)) = some e) ∨
        (r = none ∧ entries.find? (fun e => decide (e.id = id)) = none)) := by
  rcases cacheEntries_cases state entries h with ⟨h0, _, he⟩ | ⟨h0, ha, hl⟩
  · subst he
    exact ⟨none, by simp [surfaceDumpCacheQuery, h0], Or.inr ⟨rfl, rfl⟩⟩
  · obtain ⟨r, hr, hcase⟩ := surfaceDumpCacheQueryFrom_find id entries []
    have hn : state.cache.entryCount.toNat = entries.length := by omega
    refine ⟨r, ?_, ?_⟩
    · unfold surfaceDumpCacheQuery
      rw [if_neg h0, ha]
      simpa [hn] using hr
    · rcases hcase with ⟨k, e, hk, hg, hf⟩ | hnone
      · refine Or.inl ⟨k, e, hk, ?_, hf⟩
        rw [ha]
        simpa using hg
      · exact Or.inr hnone

theorem surfaceDump_existing (memory : Memory) (ctx : DumpContext) (state : DumpState)
    (surface : Surface_t) (id : List Char) (answers : DumpAnswers)
    (entries : List SurfaceDumpEntry_t) (entry : SurfaceDumpEntry_t)
    (hd : ctx.dumpSurfaces = true) (hlen : id.length < kFormatBufferLength)
    (hc : cacheEntries state = some entries)
    (hf : entries.find? (fun e => decide (e.id = id)) = some entry) :
    surfaceDump memory ctx state surface (some id) answers
      = if surfaceDumpValidateSettings entry surface ≠ 0 then some (-1, state)
        else
          match memoryRead memory surface.data
            (ldlFixedPointByteSize surface.type
              * (surface.stride * surface.height % 2 ^ sizeBits)) with
          | none => none
          | some bytes =>
            some ((id.length : Int),
              { state with
                fs := fwrite state.fs bytes (ldlFixedPointByteSize surface.type)
                  (surface.stride * surface.height % 2 ^ sizeBits) entry.file
                  answers.written }) := by
  obtain ⟨r, hr, hcase⟩ := surfaceDumpCacheQuery_of_entries state id entries hc
  rcases hcase with ⟨k, e, hk, hg, hfe⟩ | ⟨_, hnone⟩
  · have hee : e = entry := by
      rw [hf] at hfe
      simpa using hfe.symm
    subst hee
    subst hk
    have hd2 : ¬ (ctx.dumpSurfaces = false) := by simp [hd]
    have hl2 : ¬ (id.length ≥ kFormatBufferLength) := by omega
    unfold surfaceDump
    rw [if_neg hd2]
    simp only [if_neg hl2, hr, hg]
  · rw [hf] at hnone
    exact absurd hnone (by simp)

theorem take_set_append {α : Type} (l : List α) (u e : α) :
    ((l ++ List.replicate (l.length + 1) u).take (l.length + 1)).set l.length e
      = l ++ [e] := by
  induction l with
  | nil => rfl
  | cons x xs ih =>
    simp only [List.length_cons, List.cons_append, List.take_succ_cons, List.set_cons_succ]
    have hrep : List.replicate (xs.length + 1 + 1) u = List.replicate (xs.length + 1) u ++ [u] := by
      rw [← List.replicate_succ']
    rw [hrep, ← List.append_assoc, List.take_append_of_le_length (by simp), ih]

theorem surfaceDumpCacheAdd_ok (state : DumpState) (ctx : DumpContext) (id : List Char)
    (surface : Surface_t) (answers : DumpAnswers) (entries : List SurfaceDumpEntry_t)
    (stream array : Nat)
    (hc : cacheEntries state = some entries)
    (hpath : (dumpFilePath ctx id surface).length < kFormatBufferLength)
    (ho : answers.opened = some stream) (hs0 : stream ≠ 0)
    (hs : state.fs.streams stream = none)
    (hr : answers.reallocated = some array) (ha0 : array ≠ 0)
    (ha : array = state.cache.entries ∨ state.arrays array = none)
    (hcp : answers.copied = true) :
    (surfaceDumpCacheAdd state ctx id surface answers).1 = some entries.length ∧
    cacheEntries (surfaceDumpCacheAdd state ctx id surface answers).2
      = some (entries ++ [⟨stream, id, surface.type, surface.stride, surface.height⟩]) ∧
    (surfaceDumpCacheAdd state ctx id surface answers).2.cache.entries = array ∧
    (surfaceDumpCacheAdd state ctx id surface answers).2.arrays array
      = some (entries ++ [⟨stream, id, surface.type, surface.stride, surface.height⟩]) ∧
    (surfaceDumpCacheAdd state ctx id surface answers).2.fs
      = { files := fun p =>
            if p = dumpFilePath ctx id surface then some [] else state.fs.files p
          streams := fun s =>
            if s = stream then some (dumpFilePath ctx id surface)
            else state.fs.streams s } := by
  have hp2 : ¬ ((dumpFilePath ctx id surface).length ≥ kFormatBufferLength) := by omega
  have hopen : fopen state.fs (dumpFilePath ctx id surface) "wb" answers.opened
      = (stream,
          { files := fun p =>
              if p = dumpFilePath ctx id surface then some [] else state.fs.files p
            streams := fun s =>
              if s = stream then some (dumpFilePath ctx id surface)
              else state.fs.streams s }) := by
    unfold fopen
    rw [ho]
    have : ¬ (stream = 0 ∨ (state.fs.streams stream).isSome = true) := by
      rw [hs]
      simp [hs0]
    simp only [if_neg this, if_true]
  have hold : (if state.cache.entries = 0 then []
      else (state.arrays state.cache.entries).getD []) = entries := by
    rcases cacheEntries_cases state entries hc with ⟨h0, _, he⟩ | ⟨h0, hl, _⟩
    · rw [if_pos h0, he]
    · rw [if_neg h0, hl]
      rfl
  have hn : state.cache.entryCount.toNat = entries.length := by
    rcases cacheEntries_cases state entries hc with ⟨_, hcount, he⟩ | ⟨_, _, hl⟩
    · rw [hcount, he]
      rfl
    · omega
  have hn1 : (state.cache.entryCount + 1).toNat = entries.length + 1 := by
    rcases cacheEntries_cases state entries hc with ⟨_, hcount, he⟩ | ⟨_, _, hl⟩
    · rw [hcount, he]
      rfl
    · omega
  have hcount : state.cache.entryCount + 1 = ((entries.length + 1 : Nat) : Int) := by
    rcases cacheEntries_cases state entries hc with ⟨_, hcount, he⟩ | ⟨_, _, hl⟩
    · rw [hcount, he]
      rfl
    · omega
  have hre : memoryReallocate state.arrays state.cache.entries (entries.length + 1)
      answers.reallocated
      = (array, fun a =>
          if a = array then
            some ((entries ++ List.replicate (entries.length + 1) uninitialisedEntry).take
              (entries.length + 1))
          else if a = state.cache.entries then none else state.arrays a) := by
    unfold memoryReallocate
    rw [hr]
    have : ¬ (array = 0 ∨ (array ≠ state.cache.entries ∧ (state.arrays array).isSome = true)) := by
      intro h
      rcases h with h | ⟨h1, h2⟩
      · exact ha0 h
      · rcases ha with ha | ha
        · exact h1 ha
        · rw [ha] at h2
          exact absurd h2 (by simp)
    simp only [if_neg this, hold]
  have hcp2 : ¬ (answers.copied = false) := by simp [hcp]
  unfold surfaceDumpCacheAdd
  simp only [if_neg hp2, hopen, if_neg hs0, hn1, hre, if_neg ha0, if_neg hcp2, hn, if_true,
    Option.map_some', take_set_append]
  refine ⟨?_, ?_, ?_, ?_, ?_⟩
  · trivial
  · simp [cacheEntries, ha0, take_set_append, hcount]
  · trivial
  · simp [take_set_append]
  · trivial

theorem memoryRead_length (memory : Memory) (ptr size : Nat) (bytes : List Int)
    (h : memoryRead memory ptr size = some bytes) : bytes.length = size := by
  unfold memoryRead at h
  by_cases h0 : size = 0
  · rw [if_pos h0] at h
    have : bytes = [] := by simpa using h.symm
    rw [this, h0]
    rfl
  · rw [if_neg h0] at h
    cases hl : memory.live ptr with
    | none =>
      rw [hl] at h
      exact absurd h (by simp)
    | some block =>
      rw [hl] at h
      dsimp only at h
      by_cases hs : size ≤ block.length
      · rw [if_pos hs] at h
        have : bytes = block.take size := by simpa using h.symm
        rw [this, List.length_take]
        omega
      · rw [if_neg hs] at h
        exact absurd h (by simp)

theorem fwrite_all (fs : FileSystem) (bytes : List Int) (size count stream written : Nat)
    (path : List Char) (hs : fs.streams stream = some path)
    (hb : bytes.length = size * count) (hw : count ≤ written) :
    (fwrite fs bytes size count stream written).files
        = (fun p => if p = path then some ((fs.files p).getD [] ++ bytes) else fs.files p) ∧
    (fwrite fs bytes size count stream written).streams = fs.streams := by
  unfold fwrite
  rw [hs]
  have : bytes.take (size * min written count) = bytes := by
    apply List.take_of_length_le
    rw [hb, Nat.min_eq_right hw]
  rw [this]
  exact ⟨rfl, rfl⟩

theorem surfaceDump_new (memory : Memory) (ctx : DumpContext) (state : DumpState)
    (surface : Surface_t) (id : List Char) (answers : DumpAnswers)
    (entries : List SurfaceDumpEntry_t) (stream array : Nat) (bytes : List Int)
    (hd : ctx.dumpSurfaces = true) (hlen : id.length < kFormatBufferLength)
    (hc : cacheEntries state = some entries)
    (hf : entries.find? (fun e => decide (e.id = id)) = none)
    (hpath : (dumpFilePath ctx id surface).length < kFormatBufferLength)
    (ho : answers.opened = some stream) (hs0 : stream ≠ 0)
    (hs : state.fs.streams stream = none)
    (hr : answers.reallocated = some array) (ha0 : array ≠ 0)
    (ha : array = state.cache.entries ∨ state.arrays array = none)
    (hcp : answers.copied = true)
    (hm : memoryRead memory surface.data
      (ldlFixedPointByteSize surface.type
        * (surface.stride * surface.height % 2 ^ sizeBits)) = some bytes)
    (hw : surface.stride * surface.height % 2 ^ sizeBits ≤ answers.written) :
    ∃ after, surfaceDump memory ctx state surface (some id) answers
        = some ((id.length : Int), after) ∧
      cacheEntries after
        = some (entries ++ [⟨stream, id, surface.type, surface.stride, surface.height⟩]) ∧
      after.fs.files
        = (fun p => if p = dumpFilePath ctx id surface then some bytes else state.fs.files p) ∧
      after.fs.streams
        = (fun s => if s = stream then some (dumpFilePath ctx id surface)
            else state.fs.streams s) := by
  obtain ⟨r, hq, hcase⟩ := surfaceDumpCacheQuery_of_entries state id entries hc
  have hrn : r = none := by
    rcases hcase with ⟨k, e, _, _, hfe⟩ | ⟨hn, _⟩
    · rw [hf] at hfe
      exact absurd hfe (by simp)
    · exact hn
  subst hrn
  obtain ⟨h1, h2, h3, h4, h5⟩ := surfaceDumpCacheAdd_ok state ctx id surface answers entries
    stream array hc hpath ho hs0 hs hr ha0 ha hcp
  have hd2 : ¬ (ctx.dumpSurfaces = false) := by simp [hd]
  have hl2 : ¬ (id.length ≥ kFormatBufferLength) := by omega
  have hget : ((surfaceDumpCacheAdd state ctx id surface answers).2.arrays
      (surfaceDumpCacheAdd state ctx id surface answers).2.cache.entries).bind
        (fun l => l.get? entries.length)
      = some ⟨stream, id, surface.type, surface.stride, surface.height⟩ := by
    rw [h3, h4]
    simp
  have hval : ¬ (surfaceDumpValidateSettings
      ⟨stream, id, surface.type, surface.stride, surface.height⟩ surface ≠ 0) := by
    simp [surfaceDumpValidateSettings]
  have hstream : (surfaceDumpCacheAdd state ctx id surface answers).2.fs.streams stream
      = some (dumpFilePath ctx id surface) := by
    rw [h5]
    simp
  have hbl := memoryRead_length _ _ _ _ hm
  obtain ⟨hw1, hw2⟩ := fwrite_all (surfaceDumpCacheAdd state ctx id surface answers).2.fs bytes
    (ldlFixedPointByteSize surface.type) (surface.stride * surface.height % 2 ^ sizeBits)
    stream answers.written (dumpFilePath ctx id surface) hstream hbl hw
  refine ⟨{ (surfaceDumpCacheAdd state ctx id surface answers).2 with
      fs := fwrite (surfaceDumpCacheAdd state ctx id surface answers).2.fs bytes
        (ldlFixedPointByteSize surface.type)
        (surface.stride * surface.height % 2 ^ sizeBits) stream answers.written },
    ?_, ?_, ?_, ?_⟩
  · unfold surfaceDump
    rw [if_neg hd2]
    simp only [if_neg hl2, hq, h1, hget, if_neg hval, hm]
  · unfold cacheEntries at h2 ⊢
    exact h2
  · show (fwrite _ _ _ _ _ _).files = _
    rw [hw1, h5]
    funext p
    by_cases hp : p = dumpFilePath ctx id surface
    · simp [hp]
    · simp [hp]
  · show (fwrite _ _ _ _ _ _).streams = _
    rw [hw2, h5]

/-- C21. Inconsistent dump reuse fails without touching the first file: with dumping
enabled, when the cache holds an entry for the formatted identifier and the surface's
type, stride or height differs from the one recorded in that entry, `surfaceDump`
returns -1 and the state after the call is the state before it: no file has changed
and the cache and its entries are the same. -/
theorem surfaceDump_inconsistent_reuse (memory : Memory) (ctx : DumpContext)
    (state : DumpState) (surface : Surface_t) (id : List Char) (answers : DumpAnswers)
    (entries : List SurfaceDumpEntry_t) (entry : SurfaceDumpEntry_t)
    (hd : ctx.dumpSurfaces = true) (hlen : id.length < kFormatBufferLength)
    (hc : cacheEntries state = some entries)
    (hf : entries.find? (fun e => decide (e.id = id)) = some entry)
    (hm : surface.type ≠ entry.type ∨ surface.stride ≠ entry.stride ∨
      surface.height ≠ entry.height) :
    surfaceDump memory ctx state surface (some id) answers = some (-1, state) := by
  rw [surfaceDump_existing memory ctx state surface id answers entries entry hd hlen hc hf]
  have hv : surfaceDumpValidateSettings entry surface ≠ 0 := by
    unfold surfaceDumpValidateSettings
    rw [if_pos hm]
    decide
  rw [if_pos hv]

theorem surfaceDump_inconsistent_reuse_witness :
    (cacheEntries frame0State = some [⟨3, "frame0".toList, .FPU8, 1920, 1080⟩] ∧
      ((960 : Nat) ≠ 1920 ∨ (540 : Nat) ≠ 1080)) ∧
    surfaceDump emptyMemory demoDumpContext frame0State
        { demoSurfaceU8 with width := 960, height := 540, stride := 960 }
        (some "frame0".toList) demoAnswers
      = some (-1, frame0State) :=
  ⟨⟨by decide, by decide⟩,
    surfaceDump_inconsistent_reuse emptyMemory demoDumpContext frame0State
      { demoSurfaceU8 with width := 960, height := 540, stride := 960 } "frame0".toList
      demoAnswers [⟨3, "frame0".toList, .FPU8, 1920, 1080⟩]
      ⟨3, "frame0".toList, .FPU8, 1920, 1080⟩ rfl (by decide) (by decide) (by decide)
      (Or.inr (Or.inl (by decide)))⟩

/-- C22. A successful dump creates its entry lazily and appends the raw plane.  With
dumping enabled, a surface whose `stride * height * bytesPerSample(type)` buffer bytes
are `bytes`, and `fwrite` writing all its items: under an identifier not yet in the
cache, when `fopen`, `memoryReallocate` and `strcpyDeep` succeed, `surfaceDump` adds
exactly one entry, recording the surface's type, stride and height, to the end of the
cache; under an identifier already present with equal type, stride and height it adds
no entry.  In both cases it returns the length of the identifier, which is not
negative, the identifier's file holds what it held once opened followed by `bytes`,
and every file at another path is unchanged. -/
theorem surfaceDump_lazy_entry_and_append (memory : Memory) (ctx : DumpContext)
    (state : DumpState) (surface : Surface_t) (id : List Char) (answers : DumpAnswers)
    (entries : List SurfaceDumpEntry_t) (bytes : List Int)
    (hd : ctx.dumpSurfaces = true) (hlen : id.length < kFormatBufferLength)
    (hc : cacheEntries state = some entries)
    (hs32 : surface.stride < 2 ^ 32) (hh32 : surface.height < 2 ^ 32)
    (hm : memoryRead memory surface.data
      (surface.stride * surface.height * ldlFixedPointByteSize surface.type) = some bytes)
    (hw : surface.stride * surface.height ≤ answers.written) :
    bytes.length = surface.stride * surface.height * ldlFixedPointByteSize surface.type ∧
    (entries.find? (fun e => decide (e.id = id)) = none →
      ∀ stream array,
        (dumpFilePath ctx id surface).length < kFormatBufferLength →
        answers.opened = some stream → stream ≠ 0 → state.fs.streams stream = none →
        answers.reallocated = some array → array ≠ 0 →
        (array = state.cache.entries ∨ state.arrays array = none) →
        answers.copied = true →
        ∃ after, surfaceDump memory ctx state surface (some id) answers
            = some ((id.length : Int), after) ∧ (0 : Int) ≤ (id.length : Int) ∧
          cacheEntries after
            = some (entries ++
                [⟨stream, id, surface.type, surface.stride, surface.height⟩]) ∧
          after.fs.streams stream = some (dumpFilePath ctx id surface) ∧
          after.fs.files (dumpFilePath ctx id surface) = some ([] ++ bytes) ∧
          ∀ p, p ≠ dumpFilePath ctx id surface → after.fs.files p = state.fs.files p) ∧
    (∀ entry path, entries.find? (fun e => decide (e.id = id)) = some entry →
      entry.type = surface.type → entry.stride = surface.stride →
      entry.height = surface.height → state.fs.streams entry.file = some path →
      ∃ after, surfaceDump memory ctx state surface (some id) answers
          = some ((id.length : Int), after) ∧ (0 : Int) ≤ (id.length : Int) ∧
        cacheEntries after = some entries ∧
        after.fs.files path = some ((state.fs.files path).getD [] ++ bytes) ∧
        ∀ p, p ≠ path → after.fs.files p = state.fs.files p) := by
  have hcount : surface.stride * surface.height % 2 ^ sizeBits
      = surface.stride * surface.height := by
    apply Nat.mod_eq_of_lt
    have : surface.stride * surface.height < 2 ^ 32 * 2 ^ 32 :=
      Nat.mul_lt_mul'' hs32 hh32
    unfold sizeBits
    omega
  have hm2 : memoryRead memory surface.data
      (ldlFixedPointByteSize surface.type
        * (surface.stride * surface.height % 2 ^ sizeBits)) = some bytes := by
    rw [hcount, Nat.mul_comm]
    exact hm
  have hw2 : surface.stride * surface.height % 2 ^ sizeBits ≤ answers.written := by
    rw [hcount]
    exact hw
  refine ⟨memoryRead_length _ _ _ _ hm, ?_, ?_⟩
  · intro hf stream array hpath ho hs0 hs hr ha0 ha hcp
    obtain ⟨after, h1, h2, h3, h4⟩ := surfaceDump_new memory ctx state surface id answers
      entries stream array bytes hd hlen hc hf hpath ho hs0 hs hr ha0 ha hcp hm2 hw2
    refine ⟨after, h1, Int.ofNat_nonneg _, h2, ?_, ?_, ?_⟩
    · rw [h4]
      simp
    · rw [h3]
      simp
    · intro p hp
      rw [h3]
      simp [hp]
  · intro entry path hf ht hst hh hstream
    have hv : ¬ (surfaceDumpValidateSettings entry surface ≠ 0) := by
      simp [surfaceDumpValidateSettings, ht, hst, hh]
    have hres := surfaceDump_existing memory ctx state surface id answers entries entry
      hd hlen hc hf
    rw [if_neg hv, hm2] at hres
    obtain ⟨hw1, _⟩ := fwrite_all state.fs bytes (ldlFixedPointByteSize surface.type)
      (surface.stride * surface.height % 2 ^ sizeBits) entry.file answers.written path
      hstream (memoryRead_length _ _ _ _ hm2) hw2
    refine ⟨_, hres, Int.ofNat_nonneg _, ?_, ?_, ?_⟩
    · exact hc
    · show (fwrite _ _ _ _ _ _).files path = _
      rw [hw1]
      simp
    · intro p hp
      show (fwrite _ _ _ _ _ _).files p = _
      rw [hw1]
      simp [hp]

theorem surfaceDump_lazy_entry_and_append_witness :
    (cacheEntries emptyDumpState = some [] ∧
      memoryRead demoMemoryU8 demoSurfaceU8.data
        (demoSurfaceU8.stride * demoSurfaceU8.height
          * ldlFixedPointByteSize demoSurfaceU8.type) = some [11, 12, 13, 14]) ∧
    ∃ after, surfaceDump demoMemoryU8 demoDumpContext emptyDumpState demoSurfaceU8
        (some "frame0".toList) demoAnswers = some (6, after) ∧ (0 : Int) ≤ 6 ∧
      cacheEntries after = some ([] ++ [⟨3, "frame0".toList, .FPU8, 2, 2⟩]) ∧
      after.fs.streams 3 = some (dumpFilePath demoDumpContext "frame0".toList demoSurfaceU8) ∧
      after.fs.files (dumpFilePath demoDumpContext "frame0".toList demoSurfaceU8)
        = some ([] ++ [11, 12, 13, 14]) ∧
      ∀ p, p ≠ dumpFilePath demoDumpContext "frame0".toList demoSurfaceU8 →
        after.fs.files p = emptyDumpState.fs.files p :=
  ⟨⟨by decide, by decide⟩,
    (surfaceDump_lazy_entry_and_append demoMemoryU8 demoDumpContext emptyDumpState
      demoSurfaceU8 "frame0".toList demoAnswers [] [11, 12, 13, 14] rfl (by decide)
      (by decide) (by decide) (by decide) (by decide) (by decide)).2.1 (by decide) 3 100
      (by decide) rfl (by decide) rfl rfl (by decide) (Or.inr rfl) rfl⟩

theorem snprintf_dump_format (id : List Char) (stride height : Nat) (tag : List Char) :
    snprintf "%s_%ux%u_%s.y".toList [.str id, .uint stride, .uint height, .str tag]
      = id ++ '_' :: ((Nat.repr stride).toList ++ 'x' :: ((Nat.repr height).toList
          ++ '_' :: (tag ++ ['.', 'y']))) := by
  have e : "%s_%ux%u_%s.y".toList
      = ['%', 's', '_', '%', 'u', 'x', '%', 'u', '_', '%', 's', '.', 'y'] := by decide
  rw [e]
  simp [snprintf]

theorem snprintf_dump_format_path (dumpPath id : List Char) (stride height : Nat)
    (tag : List Char) :
    snprintf "%s/%s_%ux%u_%s.y".toList
        [.str dumpPath, .str id, .uint stride, .uint height, .str tag]
      = dumpPath ++ '/' :: (id ++ '_' :: ((Nat.repr stride).toList
          ++ 'x' :: ((Nat.repr height).toList ++ '_' :: (tag ++ ['.', 'y'])))) := by
  have e : "%s/%s_%ux%u_%s.y".toList
      = ['%', 's', '/', '%', 's', '_', '%', 'u', 'x', '%', 'u', '_', '%', 's', '.', 'y'] := by
    decide
  rw [e]
  simp [snprintf]

theorem fixedPointToVooyaString_eq_tag (type : FixedPoint_t) :
    fixedPointToVooyaString type = specTypeTag type := by
  cases type <;> rfl

theorem dumpFilePath_eq_spec (ctx : DumpContext) (id : List Char) (surface : Surface_t) :
    dumpFilePath ctx id surface
      = specDumpFileName ctx.dumpPath id surface.stride surface.height
          (specTypeTag surface.type) := by
  unfold dumpFilePath specDumpFileName
  rw [fixedPointToVooyaString_eq_tag]
  have e1 : "/".toList = ['/'] := by decide
  have e2 : "_".toList = ['_'] := by decide
  have e3 : "x".toList = ['x'] := by decide
  have e4 : ".y".toList = ['.', 'y'] := by decide
  cases ctx.dumpPath with
  | none =>
    simp only [snprintf_dump_format, e2, e3, e4]
    simp
  | some d =>
    simp only [snprintf_dump_format_path, e1, e2, e3, e4]
    simp

/-- C23. The dump file name is a deterministic function of identifier, geometry and
type: the path `surfaceDumpCacheAdd` formats is the name the specification gives,
`id ++ "_" ++ decimal(stride) ++ "x" ++ decimal(height) ++ "_" ++ tag ++ ".y"` with
`dumpPath ++ "/"` in front when a dump path is configured and `tag` "8bit", "10bit",
"12bit", "14bit" for U8, U10, U12, U14 and "-16bit" for each signed type; a surface
with the same stride, height and tag gives the same path; and when
`surfaceDumpCacheAdd` succeeds, the stream of the new entry is open on the file of that
name. -/
theorem dump_file_name_deterministic (ctx : DumpContext) (id : List Char)
    (surface : Surface_t) :
    dumpFilePath ctx id surface
      = specDumpFileName ctx.dumpPath id surface.stride surface.height
          (specTypeTag surface.type) ∧
    (specTypeTag .FPU8 = "8bit" ∧ specTypeTag .FPU10 = "10bit" ∧ specTypeTag .FPU12 = "12bit" ∧
      specTypeTag .FPU14 = "14bit" ∧ specTypeTag .FPS8 = "-16bit" ∧
      specTypeTag .FPS10 = "-16bit" ∧ specTypeTag .FPS12 = "-16bit" ∧
      specTypeTag .FPS14 = "-16bit") ∧
    (∀ other : Surface_t, other.stride = surface.stride → other.height = surface.height →
      specTypeTag other.type = specTypeTag surface.type →
      dumpFilePath ctx id other = dumpFilePath ctx id surface) ∧
    (∀ (state : DumpState) (answers : DumpAnswers) (entries : List SurfaceDumpEntry_t)
      (stream array : Nat),
      cacheEntries state = some entries →
      (dumpFilePath ctx id surface).length < kFormatBufferLength →
      answers.opened = some stream → stream ≠ 0 → state.fs.streams stream = none →
      answers.reallocated = some array → array ≠ 0 →
      (array = state.cache.entries ∨ state.arrays array = none) →
      answers.copied = true →
      (surfaceDumpCacheAdd state ctx id surface answers).1 = some entries.length ∧
      (surfaceDumpCacheAdd state ctx id surface answers).2.fs.streams stream
        = some (specDumpFileName ctx.dumpPath id surface.stride surface.height
            (specTypeTag surface.type))) := by
  refine ⟨dumpFilePath_eq_spec ctx id surface, by decide, ?_, ?_⟩
  · intro other h1 h2 h3
    rw [dumpFilePath_eq_spec, dumpFilePath_eq_spec, h1, h2, h3]
  · intro state answers entries stream array hc hpath ho hs0 hs hr ha0 ha hcp
    obtain ⟨h1, _, _, _, h5⟩ := surfaceDumpCacheAdd_ok state ctx id surface answers entries
      stream array hc hpath ho hs0 hs hr ha0 ha hcp
    refine ⟨h1, ?_⟩
    rw [h5, ← dumpFilePath_eq_spec]
    simp

theorem dump_file_name_deterministic_witness :
    dumpFilePath { dumpSurfaces := true, dumpPath := some "out".toList } "frame0".toList
        { demoSurfaceU8 with type := .FPS10, stride := 1920, height := 1080 }
      = "out/frame0_1920x1080_-16bit.y".toList ∧
    (surfaceDumpCacheAdd emptyDumpState demoDumpContext "frame0".toList demoSurfaceU8
        demoAnswers).2.fs.streams 3 = some "frame0_2x2_8bit.y".toList :=
  ⟨((dump_file_name_deterministic { dumpSurfaces := true, dumpPath := some "out".toList }
      "frame0".toList
      { demoSurfaceU8 with type := .FPS10, stride := 1920, height := 1080 }).1).trans
      (by decide),
    (((dump_file_name_deterministic demoDumpContext "frame0".toList demoSurfaceU8).2.2.2
      emptyDumpState demoAnswers [] 3 100 (by decide) (by decide) rfl (by decide) rfl rfl
      (by decide) (Or.inr rfl) rfl).2).trans (by decide)⟩

/-- C24, as stated, fails: with a file of the dump's name already holding the bytes
1, 2, 3, the first dump of `demoSurfaceU8` under "frame0" leaves the file with the
plane bytes 11, 12, 13, 14 only: `fopen` is called with the mode "wb", which truncates,
so the bytes already present are not preserved. -/
theorem surfaceDump_truncates_existing_file :
    staleFileState.fs.files "frame0_2x2_8bit.y".toList = some [1, 2, 3] ∧
    (surfaceDump demoMemoryU8 demoDumpContext staleFileState demoSurfaceU8
        (some "frame0".toList) demoAnswers).map
      (fun r => (r.1, r.2.fs.files "frame0_2x2_8bit.y".toList))
      = some (6, some [11, 12, 13, 14]) := by
  decide

/-- C24, amended. Dump files are opened for binary writing: when `surfaceDump` creates
the cache entry for a new identifier and `fopen`, `memoryReallocate`, `strcpyDeep` and
`fwrite` succeed, the output file is opened in the mode "wb", so whatever a file of
that name held before the call, after it the file holds exactly the dumped plane
bytes, and the entry's stream stays open on it. -/
theorem surfaceDump_opens_for_writing (memory : Memory) (ctx : DumpContext)
    (state : DumpState) (surface : Surface_t) (id : List Char) (answers : DumpAnswers)
    (entries : List SurfaceDumpEntry_t) (stream array : Nat) (bytes : List Int)
    (hd : ctx.dumpSurfaces = true) (hlen : id.length < kFormatBufferLength)
    (hc : cacheEntries state = some entries)
    (hf : entries.find? (fun e => decide (e.id = id)) = none)
    (hpath : (dumpFilePath ctx id surface).length < kFormatBufferLength)
    (ho : answers.opened = some stream) (hs0 : stream ≠ 0)
    (hs : state.fs.streams stream = none)
    (hr : answers.reallocated = some array) (ha0 : array ≠ 0)
    (ha : array = state.cache.entries ∨ state.arrays array = none)
    (hcp : answers.copied = true)
    (hm : memoryRead memory surface.data
      (ldlFixedPointByteSize surface.type
        * (surface.stride * surface.height % 2 ^ sizeBits)) = some bytes)
    (hw : surface.stride * surface.height % 2 ^ sizeBits ≤ answers.written) :
    ∃ after, surfaceDump memory ctx state surface (some id) answers
        = some ((id.length : Int), after) ∧
      after.fs.files (dumpFilePath ctx id surface) = some bytes ∧
      after.fs.streams stream = some (dumpFilePath ctx id surface) := by
  obtain ⟨after, h1, _, h3, h4⟩ := surfaceDump_new memory ctx state surface id answers
    entries stream array bytes hd hlen hc hf hpath ho hs0 hs hr ha0 ha hcp hm hw
  refine ⟨after, h1, ?_, ?_⟩
  · rw [h3]
    simp
  · rw [h4]
    simp

theorem surfaceDump_opens_for_writing_witness :
    (cacheEntries staleFileState = some [] ∧
      staleFileState.fs.files (dumpFilePath demoDumpContext "frame0".toList demoSurfaceU8)
        = some [1, 2, 3]) ∧
    ∃ after, surfaceDump demoMemoryU8 demoDumpContext staleFileState demoSurfaceU8
        (some "frame0".toList) demoAnswers = some (6, after) ∧
      after.fs.files (dumpFilePath demoDumpContext "frame0".toList demoSurfaceU8)
        = some [11, 12, 13, 14] ∧
      after.fs.streams 3 = some (dumpFilePath demoDumpContext "frame0".toList demoSurfaceU8) :=
  ⟨⟨by decide, by decide⟩,
    surfaceDump_opens_for_writing demoMemoryU8 demoDumpContext staleFileState demoSurfaceU8
      "frame0".toList demoAnswers [] 3 100 [11, 12, 13, 14] rfl (by decide) (by decide)
      (by decide) (by decide) rfl (by decide) rfl rfl (by decide) (Or.inr rfl) rfl
      (by decide) (by decide)⟩

/-- C33. What the dump cache does where the claim fails: from the empty cache, a
first dump under "a" succeeds and leaves one entry in the array at address 100; a
second dump, under "b", for which `fopen` and `memoryReallocate` succeed (the array
moves to address 200) and `strcpyDeep` fails, returns -1 through `error_exit`, which
frees the array at 200 and leaves `cache->entries` at 100 with `entryCount` 1: no entry
array is live at either address, so the cache holds no array of `entryCount` entries,
and a further dump reads freed memory. -/
theorem surfaceDump_failed_copy_leaves_dangling_entries :
    ((surfaceDump demoMemoryU8 demoDumpContext emptyDumpState demoSurfaceU8
        (some "a".toList) demoAnswers).map fun first =>
        (first.1, first.2.cache, cacheEntries first.2))
      = some (1, ⟨100, 1⟩, some [⟨3, "a".toList, .FPU8, 2, 2⟩]) ∧
    ((surfaceDump demoMemoryU8 demoDumpContext emptyDumpState demoSurfaceU8
        (some "a".toList) demoAnswers).bind fun first =>
      (surfaceDump demoMemoryU8 demoDumpContext first.2 demoSurfaceU8
        (some "b".toList) copyFailsAnswers).map fun second =>
        (second.1, second.2.cache, second.2.arrays 100, second.2.arrays 200))
      = some (-1, ⟨100, 1⟩, none, none) ∧
    ((surfaceDump demoMemoryU8 demoDumpContext emptyDumpState demoSurfaceU8
        (some "a".toList) demoAnswers).bind fun first =>
      (surfaceDump demoMemoryU8 demoDumpContext first.2 demoSurfaceU8
        (some "b".toList) copyFailsAnswers).map fun second =>
        (cacheEntries second.2,
          (surfaceDump demoMemoryU8 demoDumpContext second.2 demoSurfaceU8
            (some "a".toList) demoAnswers).isSome))
      = some (none, false) := by
  decide

/-- C34. What `surfaceToFile` does where the claim fails: for the 2 x 1 plane
`demoSurfaceS8` of the high-precision type S8.7, whose buffer holds the bytes
1, 2, 3, 4, and a copy blit that fills the temporary U8 surface with the byte 9, the
two bytes appended to the file are 1, 2, the first `width * height * 1` bytes of the
original high-precision buffer, not the bytes 9, 9 of the temporary surface: `fwrite`
is passed `surfaces[i].data`.  For the plane `demoSurfaceU8`, already in low precision,
the bytes written are the first four bytes of its own buffer. -/
theorem surfaceToFile_writes_original_buffer :
    (surfaceToFile demoBlit emptyDumpState.fs demoMemoryS8 (some [demoSurfaceS8]) 1
        "plane.y".toList (some 5) [(some (64, fun _ => 0), true)]).map
      (fun r => (r.1.files "plane.y".toList, r.2.2)) = some (some [1, 2], true) ∧
    (surfaceToFile demoBlit emptyDumpState.fs demoMemoryU8 (some [demoSurfaceU8]) 1
        "plane.y".toList (some 5) [(none, true)]).map
      (fun r => (r.1.files "plane.y".toList, r.2.2)) = some (some [11, 12, 13, 14], true) := by
  decide

theorem surfaceGetLine_eq (surface : Surface_t) (y : Nat) :
    surfaceGetLine surface y
      = surface.data
        + y * surface.stride * ldlFixedPointByteSize surface.type % 2 ^ 32 := by
  unfold surfaceGetLine sizeBits
  have e : y * surface.stride % 2 ^ 32 * ldlFixedPointByteSize surface.type % 2 ^ 32
      = y * surface.stride * ldlFixedPointByteSize surface.type % 2 ^ 32 := by
    rw [Nat.mul_mod, Nat.mod_mod, ← Nat.mul_mod]
  rw [e]
  have : y * surface.stride * ldlFixedPointByteSize surface.type % 2 ^ 32 < 2 ^ 64 := by
    have := Nat.mod_lt (y * surface.stride * ldlFixedPointByteSize surface.type)
      (by decide : 0 < 2 ^ 32)
    omega
  rw [Nat.mod_eq_of_lt this]

/-- C40. `surfaceGetLine` addresses the start of row `y`: when
`y * stride * bytesPerSample(type) < 2 ^ 32` it returns the buffer base plus that many
bytes, so a row and the next are exactly `stride * bytesPerSample(type)` bytes apart
and row 0 is the buffer base; for every `y` the offset is the product modulo
`2 ^ 32`. -/
theorem surfaceGetLine_row_start (surface : Surface_t) (y : Nat) :
    (y * surface.stride * ldlFixedPointByteSize surface.type < 2 ^ 32 →
      surfaceGetLine surface y
        = surface.data + y * surface.stride * ldlFixedPointByteSize surface.type) ∧
    ((y + 1) * surface.stride * ldlFixedPointByteSize surface.type < 2 ^ 32 →
      surfaceGetLine surface (y + 1)
        = surfaceGetLine surface y + surface.stride * ldlFixedPointByteSize surface.type) ∧
    surfaceGetLine surface 0 = surface.data ∧
    surfaceGetLine surface y
      = surface.data + y * surface.stride * ldlFixedPointByteSize surface.type % 2 ^ 32 := by
  refine ⟨?_, ?_, ?_, surfaceGetLine_eq surface y⟩
  · intro h
    rw [surfaceGetLine_eq, Nat.mod_eq_of_lt h]
  · intro h
    have e : (y + 1) * surface.stride * ldlFixedPointByteSize surface.type
        = y * surface.stride * ldlFixedPointByteSize surface.type
          + surface.stride * ldlFixedPointByteSize surface.type := by
      rw [Nat.add_mul, Nat.add_mul, Nat.one_mul]
    have h2 : y * surface.stride * ldlFixedPointByteSize surface.type < 2 ^ 32 := by
      omega
    rw [surfaceGetLine_eq, surfaceGetLine_eq, Nat.mod_eq_of_lt h, Nat.mod_eq_of_lt h2, e]
    omega
  · rw [surfaceGetLine_eq]
    simp

theorem surfaceGetLine_row_start_witness :
    (1 * demoSurface.stride * ldlFixedPointByteSize demoSurface.type < 2 ^ 32 ∧
      surfaceGetLine demoSurface 1 = 64 + 8) ∧
    surfaceGetLine { demoSurface with stride := 2 ^ 30 } 3 = 64 + 2 ^ 31 :=
  ⟨⟨by decide,
      ((surfaceGetLine_row_start demoSurface 1).1 (by decide)).trans (by decide)⟩,
    ((surfaceGetLine_row_start { demoSurface with stride := 2 ^ 30 } 3).2.2.2).trans
      (by decide)⟩

/-! ### The entries of the dump cache along a call -/

theorem cacheEntries_fs (state : DumpState) (fs : FileSystem) :
    cacheEntries { state with fs := fs } = cacheEntries state := rfl

theorem find_none_not_mem (entries : List SurfaceDumpEntry_t) (id : List Char)
    (h : entries.find? (fun e => decide (e.id = id)) = none) :
    id ∉ entries.map (fun e => e.id) := by
  intro hmem
  obtain ⟨e, he, hid⟩ := List.mem_map.mp hmem
  have := List.find?_eq_none.mp h e he
  simp [hid] at this

theorem surfaceDumpCacheAdd_cases (state : DumpState) (ctx : DumpContext) (id : List Char)
    (surface : Surface_t) (answers : DumpAnswers) (entries : List SurfaceDumpEntry_t)
    (hc : cacheEntries state = some entries)
    (hcopy : answers.copied = true ∨ state.cache.entries = 0) :
    ((surfaceDumpCacheAdd state ctx id surface answers).1 = none ∧
      cacheEntries (surfaceDumpCacheAdd state ctx id surface answers).2 = some entries) ∨
    (∃ stream,
      (surfaceDumpCacheAdd state ctx id surface answers).1 = some entries.length ∧
      cacheEntries (surfaceDumpCacheAdd state ctx id surface answers).2
        = some (entries ++ [⟨stream, id, surface.type, surface.stride, surface.height⟩]) ∧
      (surfaceDumpCacheAdd state ctx id surface answers).2.arrays
          (surfaceDumpCacheAdd state ctx id surface answers).2.cache.entries
        = some (entries ++
            [⟨stream, id, surface.type, surface.stride, surface.height⟩])) := by
  by_cases hp : (dumpFilePath ctx id surface).length ≥ kFormatBufferLength
  · left
    simp only [surfaceDumpCacheAdd, if_pos hp]
    exact ⟨trivial, hc⟩
  have hfail : ∀ fs, (fopen state.fs (dumpFilePath ctx id surface) "wb" answers.opened)
      = (0, fs) →
      (surfaceDumpCacheAdd state ctx id surface answers).1 = none ∧
      cacheEntries (surfaceDumpCacheAdd state ctx id surface answers).2 = some entries := by
    intro fs hfs
    simp only [surfaceDumpCacheAdd, if_neg hp, hfs, if_true]
    exact ⟨trivial, hc⟩
  cases ho : answers.opened with
  | none =>
    left
    exact hfail state.fs (by simp [fopen, ho])
  | some stream =>
    by_cases hbad : stream = 0 ∨ (state.fs.streams stream).isSome = true
    · left
      exact hfail state.fs (by simp only [fopen, ho, if_pos hbad])
    · have hs0 : stream ≠ 0 := fun h => hbad (Or.inl h)
      have hs : state.fs.streams stream = none := by
        cases h : state.fs.streams stream with
        | none => rfl
        | some p => exact absurd (Or.inr (by simp [h])) hbad
      have hopen : fopen state.fs (dumpFilePath ctx id surface) "wb" answers.opened
          = (stream,
              { files := fun p =>
                  if p = dumpFilePath ctx id surface then some [] else state.fs.files p
                streams := fun s =>
                  if s = stream then some (dumpFilePath ctx id surface)
                  else state.fs.streams s }) := by
        simp only [fopen, ho, if_neg hbad, if_true]
      have hrfail : ∀ arrays,
          memoryReallocate state.arrays state.cache.entries
            (state.cache.entryCount + 1).toNat answers.reallocated = (0, arrays) →
          (surfaceDumpCacheAdd state ctx id surface answers).1 = none ∧
          cacheEntries (surfaceDumpCacheAdd state ctx id surface answers).2
            = some entries := by
        intro arrays hm
        simp only [surfaceDumpCacheAdd, if_neg hp, hopen, if_neg hs0, hm, if_true]
        exact ⟨trivial, hc⟩
      cases hr : answers.reallocated with
      | none =>
        left
        exact hrfail state.arrays (by simp [memoryReallocate, hr])
      | some array =>
        by_cases hbad2 : array = 0 ∨
            (array ≠ state.cache.entries ∧ (state.arrays array).isSome = true)
        · left
          exact hrfail state.arrays (by simp only [memoryReallocate, hr, if_pos hbad2])
        · have ha0 : array ≠ 0 := fun h => hbad2 (Or.inl h)
          have ha : array = state.cache.entries ∨ state.arrays array = none := by
            by_cases he : array = state.cache.entries
            · exact Or.inl he
            · right
              cases h : state.arrays array with
              | none => rfl
              | some l => exact absurd (Or.inr ⟨he, by simp [h]⟩) hbad2
          cases hcp : answers.copied with
          | true =>
            right
            obtain ⟨h1, h2, h3, h4, _⟩ := surfaceDumpCacheAdd_ok state ctx id surface answers
              entries stream array hc (by omega) ho hs0 hs hr ha0 ha hcp
            exact ⟨stream, h1, h2, by rw [h3, h4]⟩
          | false =>
            left
            have h0 : state.cache.entries = 0 := by
              rcases hcopy with h | h
              · rw [hcp] at h
                exact absurd h (by simp)
              · exact h
            have hm : (memoryReallocate state.arrays state.cache.entries
                (state.cache.entryCount + 1).toNat answers.reallocated).1 = array := by
              simp only [memoryReallocate, hr, if_neg hbad2]
            constructor
            · simp only [surfaceDumpCacheAdd, if_neg hp, hopen, if_neg hs0, hm, if_neg ha0,
                hcp, if_true]
            · have hc0 := hc
              unfold cacheEntries at hc0 ⊢
              rw [if_pos h0] at hc0
              have e : (surfaceDumpCacheAdd state ctx id surface answers).2.cache
                  = state.cache := by
                simp only [surfaceDumpCacheAdd, if_neg hp, hopen, if_neg hs0, hm, if_neg ha0,
                  hcp, if_true]
              rw [e, if_pos h0]
              exact hc0

/-- Along a call of `surfaceDump` in which `strcpyDeep` does not fail, or which starts
from a cache without an entry array, the cache keeps holding an array of `entryCount`
entries with pairwise distinct identifiers: the entries are those before the call, or
those followed by one new entry under the identifier of the call, which was not
present. -/
theorem surfaceDump_keeps_entries (memory : Memory) (ctx : DumpContext) (state : DumpState)
    (surface : Surface_t) (id : Option (List Char)) (answers : DumpAnswers)
    (entries : List SurfaceDumpEntry_t) (result : Int × DumpState)
    (hc : cacheEntries state = some entries)
    (hn : (entries.map (fun e => e.id)).Nodup)
    (hcopy : answers.copied = true ∨ state.cache.entries = 0)
    (hres : surfaceDump memory ctx state surface id answers = some result) :
    ∃ after, cacheEntries result.2 = some after ∧ (after.map (fun e => e.id)).Nodup ∧
      (after = entries ∨ ∃ entry, after = entries ++ [entry] ∧ some entry.id = id) := by
  unfold surfaceDump at hres
  by_cases hd : ctx.dumpSurfaces = false
  · rw [if_pos hd] at hres
    have : result = (0, state) := by simpa using hres.symm
    subst this
    exact ⟨entries, hc, hn, Or.inl rfl⟩
  rw [if_neg hd] at hres
  cases id with
  | none =>
    have : result = (-1, state) := by simpa using hres.symm
    subst this
    exact ⟨entries, hc, hn, Or.inl rfl⟩
  | some id =>
    dsimp only at hres
    by_cases hl : id.length ≥ kFormatBufferLength
    · rw [if_pos hl] at hres
      have : result = (-1, state) := by simpa using hres.symm
      subst this
      exact ⟨entries, hc, hn, Or.inl rfl⟩
    rw [if_neg hl] at hres
    obtain ⟨r, hq, hcase⟩ := surfaceDumpCacheQuery_of_entries state id entries hc
    rw [hq] at hres
    dsimp only at hres
    have key : ∀ (added : Option Nat × DumpState) (after : List SurfaceDumpEntry_t),
        cacheEntries added.2 = some after →
        (match added.1 with
          | none => some (-1, added.2)
          | some i =>
            match (added.2.arrays added.2.cache.entries).bind
                (fun entries => entries.get? i) with
            | none => none
            | some entry =>
              if surfaceDumpValidateSettings entry surface ≠ 0 then some (-1, added.2)
              else
                match memoryRead memory surface.data
                  (ldlFixedPointByteSize surface.type
                    * (surface.stride * surface.height % 2 ^ sizeBits)) with
                | none => none
                | some bytes =>
                  some ((id.length : Int),
                    { added.2 with
                      fs := fwrite added.2.fs bytes (ldlFixedPointByteSize surface.type)
                        (surface.stride * surface.height % 2 ^ sizeBits) entry.file
                        answers.written })) = some result →
        cacheEntries result.2 = some after := by
      intro added after hadd h
      cases h1 : added.1 with
      | none =>
        rw [h1] at h
        have : result = (-1, added.2) := by simpa using h.symm
        rw [this]
        exact hadd
      | some i =>
        rw [h1] at h
        dsimp only at h
        cases h2 : (added.2.arrays added.2.cache.entries).bind
            (fun entries => entries.get? i) with
        | none =>
          rw [h2] at h
          exact absurd h (by simp)
        | some entry =>
          rw [h2] at h
          dsimp only at h
          by_cases hv : surfaceDumpValidateSettings entry surface ≠ 0
          · rw [if_pos hv] at h
            have : result = (-1, added.2) := by simpa using h.symm
            rw [this]
            exact hadd
          · rw [if_neg hv] at h
            cases h3 : memoryRead memory surface.data
                (ldlFixedPointByteSize surface.type
                  * (surface.stride * surface.height % 2 ^ sizeBits)) with
            | none =>
              rw [h3] at h
              exact absurd h (by simp)
            | some bytes =>
              rw [h3] at h
              dsimp only at h
              have : result = ((id.length : Int),
                  { added.2 with
                    fs := fwrite added.2.fs bytes (ldlFixedPointByteSize surface.type)
                      (surface.stride * surface.height % 2 ^ sizeBits) entry.file
                      answers.written }) := by simpa using h.symm
              rw [this]
              exact hadd
    rcases hcase with ⟨k, e, hk, _, _⟩ | ⟨hrn, hfn⟩
    · subst hk
      dsimp only at hres
      exact ⟨entries, key (some k, state) entries hc hres, hn, Or.inl rfl⟩
    · subst hrn
      dsimp only at hres
      rcases surfaceDumpCacheAdd_cases state ctx id surface answers entries hc hcopy with
        ⟨_, h2⟩ | ⟨stream, _, h2, _⟩
      · exact ⟨entries, key _ entries h2 hres, hn, Or.inl rfl⟩
      · refine ⟨_, key _ _ h2 hres, ?_, Or.inr ⟨_, rfl, rfl⟩⟩
        rw [List.map_append, List.nodup_append]
        refine ⟨hn, by simp, ?_⟩
        intro a ha hb
        have : a = id := by simpa using hb
        subst this
        exact find_none_not_mem entries a hfn ha

end LCEVC
